import Mathlib

/-!
USB2AX: the packet-aware relay of `firmware/lufa_usb2ax/USB2AX.c`.

A shallow embedding of the host-side Dynamixel packet parser
(`process_incoming_USB_data`, `cleanupInputParser`, `pass_bytes`) and of the
receive timer, of the host egress path (`send_USB_data`), of the bus receive
handler (`ISR(USART1_RX_vect)`) and of the two CDC event handlers behind the
soft reset into the bootloader, followed by theorems about them.

Conventions of the embedding:

* 8-bit and 16-bit machine integers are natural numbers, reduced `% 256` and
  `% 65536` at the places where the C code stores into a `uint8_t` or
  `uint16_t` object.  Expressions that C evaluates in `int` are evaluated in
  `Nat` when they cannot become negative and in `Int` otherwise.
* `rxbyte` is a list of fixed length (`AX_SYNC_READ_MAX_DEVICES + 8` in the
  firmware).  A read outside the list yields `0` and a write outside the list
  is dropped; in C both are undefined.
* The calls the parser makes to other translation units (`serial_write`,
  `setTX`, `axStatusPacket`, `sync_read`, `local_read`, `local_write`,
  `eeprom_clear`, `Jump_To_Reset`, the LED calls) are recorded, in order, as a
  list of `Event`s.  They are treated as returning and as leaving the parser
  variables untouched.
* The constants that `USB2AX.c` takes from `AX.h` are kept abstract: they are
  the fields of `Config`.
-/

namespace USB2AX

/-- Constants that `USB2AX.c` takes from `AX.h`. -/
structure Config where
  AX_ID_DEVICE : Nat
  AX_ID_BROADCAST : Nat
  AX_SYNC_READ_MAX_DEVICES : Nat
  AX_BUFFER_SIZE : Nat
  AX_MAX_RETURN_PACKET_SIZE : Nat
  AX_CMD_PING : Nat
  AX_CMD_READ_DATA : Nat
  AX_CMD_WRITE_DATA : Nat
  AX_CMD_RESET : Nat
  AX_CMD_BOOTLOAD : Nat
  AX_CMD_SYNC_READ : Nat
  AX_ERROR_NONE : Nat
  AX_ERROR_RANGE : Nat
deriving DecidableEq

/-- Sample values for the constants of `AX.h`: the instruction codes, the
range-error bit and the broadcast id of the Dynamixel 1.0 protocol, the id 0xFD
and the bootloader instruction of the USB2AX, and sizes for 32 devices per sync
read.  Used for concrete instances only; the general theorems are stated for an
arbitrary `Config`. -/
def dynamixel : Config where
  AX_ID_DEVICE := 0xFD
  AX_ID_BROADCAST := 0xFE
  AX_SYNC_READ_MAX_DEVICES := 32
  AX_BUFFER_SIZE := 32
  AX_MAX_RETURN_PACKET_SIZE := 255
  AX_CMD_PING := 0x01
  AX_CMD_READ_DATA := 0x02
  AX_CMD_WRITE_DATA := 0x03
  AX_CMD_RESET := 0x06
  AX_CMD_BOOTLOAD := 0x08
  AX_CMD_SYNC_READ := 0x84
  AX_ERROR_NONE := 0x00
  AX_ERROR_RANGE := 0x08

/-- The configuration of the end-to-end ping scenario: `dynamixel` with the
bridge answering at id 1. -/
def device1 : Config := { dynamixel with AX_ID_DEVICE := 1 }

/-- The values of `ax_state` (the `AX_SEARCH_...` macros, in their numeric
order 0..10). -/
inductive AxState where
  | AX_SEARCH_FIRST_FF
  | AX_SEARCH_SECOND_FF
  | AX_SEARCH_ID
  | AX_SEARCH_LENGTH
  | AX_SEARCH_COMMAND
  | AX_SEARCH_RESET
  | AX_SEARCH_BOOTLOAD
  | AX_GET_PARAMETERS
  | AX_SEARCH_READ
  | AX_SEARCH_PING
  | AX_PASS_TO_SERVOS
deriving DecidableEq

open AxState

/-- Calls made by the parser to code outside `process_incoming_USB_data`, in
program order.  `axStatusPacket` carries its error code, its data pointer
(`none` for `NULL`) and its byte count; `sync_read` and `local_write` carry the
part of `rxbyte` their pointer argument designates (from the pointed-to element
to the end of the array) and their count argument as the `int` value the call
expression has. -/
inductive Event where
  | setTX
  | serial_write (data : Nat)
  | axStatusPacket (error : Nat) (data : Option (List Nat)) (nb_bytes : Nat)
  | sync_read (params : List Nat) (nb_params : Int)
  | local_read (addr : Nat) (nb_bytes : Nat)
  | local_write (addr : Nat) (data : List Nat) (nb_bytes : Int)
  | eeprom_clear
  | Jump_To_Reset (bootloader : Bool)
  | LEDs_TurnOnLEDs
  | LEDs_TurnOffLEDs
  | LEDs_SetAllLEDs
deriving DecidableEq

/-- The global variables of the packet parser. -/
structure Parser where
  ax_state : AxState
  ax_checksum : Nat
  rxbyte : List Nat
  rxbyte_count : Nat
  receive_timer : Nat
deriving DecidableEq

/-- The parser as the C start-up code leaves it: all globals zero, for a
buffer of `AX_SYNC_READ_MAX_DEVICES + 8` bytes. -/
def Parser.init (cfg : Config) : Parser where
  ax_state := AX_SEARCH_FIRST_FF
  ax_checksum := 0
  rxbyte := List.replicate (cfg.AX_SYNC_READ_MAX_DEVICES + 8) 0
  rxbyte_count := 0
  receive_timer := 0

/-- The function `pass_bytes(nb_bytes)`: `setTX()` when `nb_bytes` is non-zero,
then `serial_write(rxbyte[i])` for `i = 0 .. nb_bytes-1`. -/
def pass_bytes (rxbyte : List Nat) (nb_bytes : Nat) : List Event :=
  (if nb_bytes ≠ 0 then [Event.setTX] else []) ++
    (List.range nb_bytes).map (fun i => Event.serial_write (rxbyte.getD i 0))

/-- The function `cleanup_input_parser()` of the source (spelled
`cleanupInputParser` here).  The argument of `pass_bytes` is a
`uint8_t`, so `rxbyte_count-1` is reduced modulo 256; the index
`rxbyte_count-1` is taken as 0 when `rxbyte_count` is 0 (in C it would lie
before the array). -/
def cleanupInputParser (s : Parser) : Parser × List Event :=
  if s.rxbyte.getD (s.rxbyte_count - 1) 0 = 0xFF then
    ({ s with ax_state := AX_SEARCH_SECOND_FF, rxbyte_count := 1, receive_timer := 0 },
      pass_bytes s.rxbyte ((s.rxbyte_count + 255) % 256))
  else
    ({ s with ax_state := AX_SEARCH_FIRST_FF }, pass_bytes s.rxbyte s.rxbyte_count)

/-- Two's-complement reduction to `int16_t`, the width of `int` on the AVR. -/
def int16 (x : Int) : Int := (x + 32768) % 65536 - 32768

/-- The accepted-frame branch of `AX_GET_PARAMETERS` (the `else` of the
checksum test), up to but excluding `ax_state = AX_SEARCH_FIRST_FF`: the calls
made for a frame held in `rxbyte`. -/
def dispatch (cfg : Config) (rxbyte : List Nat) : List Event :=
  if rxbyte.getD 4 0 = cfg.AX_CMD_SYNC_READ then
    let nb_servos_to_read : Nat := (rxbyte.getD 3 0 + 256 - 4) % 256
    let packet_overhead : Nat := 6
    if rxbyte.getD 6 0 = 0
        ∨ (rxbyte.getD 6 0 : Int) > (cfg.AX_BUFFER_SIZE : Int) - packet_overhead
        ∨ int16 ((rxbyte.getD 6 0 : Int) * nb_servos_to_read)
            > (cfg.AX_MAX_RETURN_PACKET_SIZE : Int) - packet_overhead then
      [Event.axStatusPacket cfg.AX_ERROR_RANGE none 0]
    else
      [Event.sync_read (rxbyte.drop 5) ((rxbyte.getD 3 0 : Int) - 2)]
  else if rxbyte.getD 4 0 = cfg.AX_CMD_READ_DATA then
    [Event.local_read (rxbyte.getD 5 0) (rxbyte.getD 6 0)]
  else if rxbyte.getD 4 0 = cfg.AX_CMD_WRITE_DATA then
    [Event.local_write (rxbyte.getD 5 0) (rxbyte.drop 6) ((rxbyte.getD 3 0 : Int) - 3)]
  else
    []

/-- One iteration of the `for` loop of `process_incoming_USB_data`: the
`switch (ax_state)` applied to the byte `c` delivered by
`CDC_Device_ReceiveByte`.  The result is the new parser and the calls made.
In the unused state `AX_SEARCH_READ` the `default` branch is taken, which
reads no byte and changes nothing. -/
def consume (cfg : Config) (s : Parser) (c : Nat) : Parser × List Event :=
  let b := c % 256
  match s.ax_state with
  | AX_SEARCH_FIRST_FF =>
    let rx := s.rxbyte.set 0 b
    if rx.getD 0 0 = 0xFF then
      ({ s with rxbyte := rx, ax_state := AX_SEARCH_SECOND_FF, rxbyte_count := 1,
                receive_timer := 0 }, [])
    else
      ({ s with rxbyte := rx }, [Event.setTX, Event.serial_write (rx.getD 0 0)])
  | AX_SEARCH_SECOND_FF =>
    let rx := s.rxbyte.set s.rxbyte_count b
    let s1 := { s with rxbyte := rx, rxbyte_count := (s.rxbyte_count + 1) % 256 }
    if rx.getD 1 0 = 0xFF then
      ({ s1 with ax_state := AX_SEARCH_ID, receive_timer := 0 }, [])
    else
      cleanupInputParser s1
  | AX_SEARCH_ID =>
    let rx := s.rxbyte.set s.rxbyte_count b
    let s1 := { s with rxbyte := rx, rxbyte_count := (s.rxbyte_count + 1) % 256 }
    if rx.getD 2 0 = 0xFF then
      ({ s1 with rxbyte_count := (s1.rxbyte_count + 255) % 256, receive_timer := 0 },
        pass_bytes rx 1)
    else
      ({ s1 with ax_state := AX_SEARCH_LENGTH, receive_timer := 0 }, [])
  | AX_SEARCH_LENGTH =>
    let rx := s.rxbyte.set s.rxbyte_count b
    let s1 := { s with rxbyte := rx, rxbyte_count := (s.rxbyte_count + 1) % 256 }
    if rx.getD 2 0 = cfg.AX_ID_DEVICE ∨ rx.getD 2 0 = cfg.AX_ID_BROADCAST then
      if rx.getD 3 0 > 1 ∧ rx.getD 3 0 < cfg.AX_SYNC_READ_MAX_DEVICES + 4 then
        ({ s1 with ax_state := AX_SEARCH_COMMAND, receive_timer := 0 }, [])
      else
        let r := cleanupInputParser s1
        (r.1, Event.axStatusPacket cfg.AX_ERROR_RANGE none 0 :: r.2)
    else
      ({ s1 with ax_state := AX_PASS_TO_SERVOS, receive_timer := 0 },
        pass_bytes rx s1.rxbyte_count)
  | AX_SEARCH_COMMAND =>
    let rx := s.rxbyte.set s.rxbyte_count b
    let s1 := { s with rxbyte := rx, rxbyte_count := (s.rxbyte_count + 1) % 256 }
    if rx.getD 4 0 = cfg.AX_CMD_SYNC_READ then
      ({ s1 with ax_state := AX_GET_PARAMETERS,
                 ax_checksum := (rx.getD 2 0 + cfg.AX_CMD_SYNC_READ + rx.getD 3 0) % 65536,
                 receive_timer := 0 }, [])
    else if rx.getD 2 0 = cfg.AX_ID_DEVICE then
      if rx.getD 4 0 = cfg.AX_CMD_PING then
        ({ s1 with ax_state := AX_SEARCH_PING, receive_timer := 0 }, [])
      else if rx.getD 4 0 = cfg.AX_CMD_RESET then
        ({ s1 with ax_state := AX_SEARCH_RESET, receive_timer := 0 }, [Event.LEDs_TurnOnLEDs])
      else if rx.getD 4 0 = cfg.AX_CMD_BOOTLOAD then
        ({ s1 with ax_state := AX_SEARCH_BOOTLOAD, receive_timer := 0 }, [])
      else if rx.getD 4 0 = cfg.AX_CMD_READ_DATA then
        ({ s1 with ax_state := AX_GET_PARAMETERS,
                   ax_checksum := (cfg.AX_ID_DEVICE + cfg.AX_CMD_READ_DATA + rx.getD 3 0) % 65536,
                   receive_timer := 0 }, [])
      else if rx.getD 4 0 = cfg.AX_CMD_WRITE_DATA then
        ({ s1 with ax_state := AX_GET_PARAMETERS,
                   ax_checksum := (cfg.AX_ID_DEVICE + cfg.AX_CMD_WRITE_DATA + rx.getD 3 0) % 65536,
                   receive_timer := 0 }, [])
      else
        cleanupInputParser s1
    else
      cleanupInputParser s1
  | AX_SEARCH_RESET =>
    let rx := s.rxbyte.set 5 b
    let s1 := { s with rxbyte := rx }
    if (cfg.AX_ID_DEVICE + 2 + cfg.AX_CMD_RESET + rx.getD 5 0) % 256 = 255 then
      (s1, [Event.LEDs_SetAllLEDs, Event.eeprom_clear, Event.Jump_To_Reset false])
    else
      cleanupInputParser s1
  | AX_SEARCH_BOOTLOAD =>
    let rx := s.rxbyte.set 5 b
    let s1 := { s with rxbyte := rx }
    if (cfg.AX_ID_DEVICE + 2 + cfg.AX_CMD_BOOTLOAD + rx.getD 5 0) % 256 = 255 then
      (s1, [Event.LEDs_TurnOffLEDs, Event.LEDs_SetAllLEDs, Event.Jump_To_Reset true])
    else
      cleanupInputParser s1
  | AX_SEARCH_PING =>
    let rx := s.rxbyte.set 5 b
    let s1 := { s with rxbyte := rx }
    if (cfg.AX_ID_DEVICE + 2 + cfg.AX_CMD_PING + rx.getD 5 0) % 256 = 255 then
      ({ s1 with ax_state := AX_SEARCH_FIRST_FF },
        [Event.axStatusPacket cfg.AX_ERROR_NONE none 0])
    else
      cleanupInputParser s1
  | AX_GET_PARAMETERS =>
    let rx := s.rxbyte.set s.rxbyte_count b
    let s1 := { s with rxbyte := rx,
                       ax_checksum := (s.ax_checksum + rx.getD s.rxbyte_count 0) % 65536,
                       rxbyte_count := (s.rxbyte_count + 1) % 256,
                       receive_timer := 0 }
    if s1.rxbyte_count ≥ rx.getD 3 0 + 4 then
      if s1.ax_checksum % 256 ≠ 255 then
        cleanupInputParser s1
      else
        ({ s1 with ax_state := AX_SEARCH_FIRST_FF }, dispatch cfg rx)
    else
      (s1, [])
  | AX_PASS_TO_SERVOS =>
    let s1 := { s with rxbyte_count := (s.rxbyte_count + 1) % 256, receive_timer := 0 }
    if s1.rxbyte_count ≥ s.rxbyte.getD 3 0 + 4 then
      ({ s1 with ax_state := AX_SEARCH_FIRST_FF }, [Event.setTX, Event.serial_write b])
    else
      (s1, [Event.setTX, Event.serial_write b])
  | AX_SEARCH_READ => (s, [])

/-- The `for` loop of `process_incoming_USB_data` over the bytes the host has
delivered, with no timer interrupt in between: `consume` applied to each byte
in turn, the calls concatenated. -/
def feed (cfg : Config) : Parser → List Nat → Parser × List Event
  | s, [] => (s, [])
  | s, c :: cs =>
    let r := consume cfg s c
    let r2 := feed cfg r.1 cs
    (r2.1, r.2 ++ r2.2)

/-- The part of `ISR(TIMER0_COMPA_vect)` that acts on the parser:
`receive_timer++` on a `uint8_t`. -/
def TIMER0_COMPA_vect (s : Parser) : Parser :=
  { s with receive_timer := (s.receive_timer + 1) % 256 }

/-- The timer interrupt firing `n` times in a row. -/
def elapse (n : Nat) (s : Parser) : Parser := TIMER0_COMPA_vect^[n] s

/-- The `for` loop of `process_incoming_USB_data` with timer interrupts: each
received byte comes with the number of timer ticks that fire before the loop
iteration that handles it. -/
def receive_loop (cfg : Config) : Parser → List (Nat × Nat) → Parser × List Event
  | s, [] => (s, [])
  | s, (ticks, c) :: cs =>
    let r := consume cfg (elapse ticks s) c
    let r2 := receive_loop cfg r.1 cs
    (r2.1, r.2 ++ r2.2)

/-- The timeout test that ends `process_incoming_USB_data`, for the value
`receive_timeout` of `regs[ADDR_RECEIVE_TIMEOUT]`. -/
def timeout_check (receive_timeout : Nat) (s : Parser) : Parser × List Event :=
  if s.ax_state ≠ AX_SEARCH_FIRST_FF then
    if s.receive_timer > receive_timeout then
      ({ s with ax_state := AX_SEARCH_FIRST_FF }, pass_bytes s.rxbyte s.rxbyte_count)
    else
      (s, [])
  else
    (s, [])

/-- The function `process_incoming_USB_data()`, one service cycle of the
parser: the receive loop over the bytes the host transport holds, `late` more
timer ticks, then the timeout test.  The closing `setRX()` acts on the USART
control register only and is not part of the parser state; it is left out. -/
def process_incoming_USB_data (cfg : Config) (receive_timeout : Nat) (s : Parser)
    (received : List (Nat × Nat)) (late : Nat) : Parser × List Event :=
  let r := receive_loop cfg s received
  let r2 := timeout_check receive_timeout (elapse late r.1)
  (r2.1, r.2 ++ r2.2)

/-- One service cycle as seen from outside: the receive timeout in force, the
bytes received (each with the ticks before it) and the ticks after the last
byte. -/
structure Cycle where
  receive_timeout : Nat
  received : List (Nat × Nat)
  late : Nat
deriving DecidableEq

/-- The main loop restricted to the parser: `process_incoming_USB_data` called
once per cycle. -/
def service (cfg : Config) : Parser → List Cycle → Parser × List Event
  | s, [] => (s, [])
  | s, cy :: cys =>
    let r := process_incoming_USB_data cfg cy.receive_timeout s cy.received cy.late
    let r2 := service cfg r.1 cys
    (r2.1, r.2 ++ r2.2)

/-- The host bytes of a run, in order of arrival. -/
def hostBytes (cys : List Cycle) : List Nat :=
  cys.flatMap (fun cy => cy.received.map Prod.snd)

/-- The bytes written to the bus: the arguments of the `serial_write` calls. -/
def busBytes : List Event → List Nat
  | [] => []
  | Event.serial_write d :: es => d :: busBytes es
  | _ :: es => busBytes es

/-- Whether a call is a status response (`axStatusPacket`). -/
def Event.isStatus : Event → Bool
  | Event.axStatusPacket _ _ _ => true
  | _ => false

/-- Whether a call is a dispatcher action: `local_read`, `local_write`,
`sync_read`, `eeprom_clear` or `Jump_To_Reset`. -/
def Event.isAction : Event → Bool
  | Event.sync_read _ _ => true
  | Event.local_read _ _ => true
  | Event.local_write _ _ _ => true
  | Event.eeprom_clear => true
  | Event.Jump_To_Reset _ => true
  | _ => false

/-- Whether a call only drives the bus: `setTX` or `serial_write`. -/
def Event.isRelay : Event → Bool
  | Event.setTX => true
  | Event.serial_write _ => true
  | _ => false

/-- The calls that relay the bytes of `l` to the bus one at a time, each with
its own `setTX()`. -/
def relayed (l : List Nat) : List Event :=
  (l.map (fun b => [Event.setTX, Event.serial_write b])).flatten

/-- The parser at the moment the last byte of `frame` has been stored in
`AX_GET_PARAMETERS`, before the checksum is looked at. -/
def held (s : Parser) (frame : List Nat) (sum : Nat) : Parser :=
  ⟨AX_GET_PARAMETERS, sum % 65536, frame ++ s.rxbyte.drop frame.length, frame.length, 0⟩

/-- The status responses among the calls made. -/
def statusResponses (es : List Event) : List Event := es.filter Event.isStatus

/-- The dispatcher actions among the calls made. -/
def dispatcherActions (es : List Event) : List Event := es.filter Event.isAction

/-- The bytes the parser holds back: those of `rxbyte` below `rxbyte_count`
when a frame is under way, none when idle. -/
def pending (s : Parser) : List Nat :=
  if s.ax_state = AX_SEARCH_FIRST_FF then [] else s.rxbyte.take s.rxbyte_count

/-- The parser holds at most one sync byte: it is idle, or it is waiting for the
second sync byte with the first one in `rxbyte[0]`. -/
def AtMostOneSync (q : Parser) : Prop :=
  2 ≤ q.rxbyte.length
    ∧ (q.ax_state = AX_SEARCH_FIRST_FF
      ∨ (q.ax_state = AX_SEARCH_SECOND_FF ∧ q.rxbyte_count = 1 ∧ q.rxbyte.getD 0 0 = 0xFF))

/-- No two neighbours of the list are both 0xFF. -/
def NoSyncPair : List Nat → Prop
  | a :: b :: t => ¬ (a = 0xFF ∧ b = 0xFF) ∧ NoSyncPair (b :: t)
  | _ => True

instance NoSyncPair.instDecidable : (l : List Nat) → Decidable (NoSyncPair l)
  | [] => isTrue trivial
  | [_] => isTrue trivial
  | a :: b :: t =>
    match NoSyncPair.instDecidable (b :: t) with
    | isTrue h =>
      if hab : a = 0xFF ∧ b = 0xFF then isFalse (fun hn => hn.1 hab) else isTrue ⟨hab, h⟩
    | isFalse h => isFalse (fun hn => h hn.2)

/-- The index of `rxbyte` at which one iteration of the `for` loop stores the
byte it receives, read off the `case` of `ax_state`: `PACKET_FIRST_0XFF` in
`AX_SEARCH_FIRST_FF`, `rxbyte_count` in the header states and in
`AX_GET_PARAMETERS`, the literal 5 in the three confirm states; no store in
`AX_PASS_TO_SERVOS` and in the `default` branch. -/
def writeIndex (s : Parser) : Option Nat :=
  match s.ax_state with
  | AX_SEARCH_FIRST_FF => some 0
  | AX_SEARCH_SECOND_FF => some s.rxbyte_count
  | AX_SEARCH_ID => some s.rxbyte_count
  | AX_SEARCH_LENGTH => some s.rxbyte_count
  | AX_SEARCH_COMMAND => some s.rxbyte_count
  | AX_SEARCH_RESET => some 5
  | AX_SEARCH_BOOTLOAD => some 5
  | AX_SEARCH_PING => some 5
  | AX_GET_PARAMETERS => some s.rxbyte_count
  | AX_PASS_TO_SERVOS => none
  | AX_SEARCH_READ => none

/-- What each state of the parser knows about `rxbyte` and `rxbyte_count`: the
buffer has its declared size, `rxbyte[0]` is the first sync byte in every state
but the idle one, and `rxbyte_count` is the number of bytes stored so far. -/
def Framed (cfg : Config) (q : Parser) : Prop :=
  q.rxbyte.length = cfg.AX_SYNC_READ_MAX_DEVICES + 8 ∧
  match q.ax_state with
  | AX_SEARCH_FIRST_FF => True
  | AX_SEARCH_SECOND_FF => q.rxbyte_count = 1 ∧ q.rxbyte.getD 0 0 = 0xFF
  | AX_SEARCH_ID => q.rxbyte_count = 2 ∧ q.rxbyte.getD 0 0 = 0xFF
  | AX_SEARCH_LENGTH => q.rxbyte_count = 3 ∧ q.rxbyte.getD 0 0 = 0xFF
  | AX_SEARCH_COMMAND =>
    q.rxbyte_count = 4 ∧ q.rxbyte.getD 0 0 = 0xFF
      ∧ 1 < q.rxbyte.getD 3 0 ∧ q.rxbyte.getD 3 0 < cfg.AX_SYNC_READ_MAX_DEVICES + 4
  | AX_SEARCH_RESET => q.rxbyte_count = 5 ∧ q.rxbyte.getD 0 0 = 0xFF
  | AX_SEARCH_BOOTLOAD => q.rxbyte_count = 5 ∧ q.rxbyte.getD 0 0 = 0xFF
  | AX_SEARCH_PING => q.rxbyte_count = 5 ∧ q.rxbyte.getD 0 0 = 0xFF
  | AX_GET_PARAMETERS =>
    5 ≤ q.rxbyte_count ∧ q.rxbyte_count ≤ q.rxbyte.getD 3 0 + 3
      ∧ q.rxbyte.getD 3 0 < cfg.AX_SYNC_READ_MAX_DEVICES + 4 ∧ q.rxbyte.getD 0 0 = 0xFF
  | AX_PASS_TO_SERVOS => q.rxbyte.getD 0 0 = 0xFF
  | AX_SEARCH_READ => False

/-- The parser in the middle of a run: after the complete service cycles `cys`
and the loop iterations for the first bytes `received` of the next cycle. -/
def midRun (cfg : Config) (s : Parser) (cys : List Cycle) (received : List (Nat × Nat)) :
    Parser :=
  (receive_loop cfg (service cfg s cys).1 received).1

/-! ## The host egress queue and the reception diverter -/

/-- Calls that `send_USB_data` makes to the endpoint of the host transport. -/
inductive UsbEvent where
  | Endpoint_Write_8 (Data : Nat)
  | Endpoint_ClearIN
deriving DecidableEq

/-- The global variables of the host egress path: the bytes held by
`ToUSB_Buffer`, oldest first (its storage `ToUSB_Buffer_Data` has 254 bytes),
`send_timer` and `needEmptyPacket`. -/
structure Egress where
  ToUSB_Buffer : List Nat
  send_timer : Nat
  needEmptyPacket : Bool
deriving DecidableEq

/-- Modelled from the spec: `RingBuffer_Insert` of the ring buffer library, the
`enqueue(byte)` of the Host Egress Queue, a FIFO whose capacity is provisioned
so that it is not overrun: the byte becomes the newest element. -/
def RingBuffer_Insert (buffer : List Nat) (Data : Nat) : List Nat := buffer ++ [Data % 256]

/-- Modelled from the spec: `RingBuffer_Remove` of the ring buffer library, the
removal end of the same FIFO: the oldest byte and the buffer without it (0 and
the empty buffer when there is none, a case `send_USB_data` never meets). -/
def RingBuffer_Remove : List Nat → Nat × List Nat
  | [] => (0, [])
  | d :: rest => (d, rest)

/-- Modelled from the spec: `RingBuffer_GetCount`, the number of bytes stored,
an 8-bit count. -/
def RingBuffer_GetCount (buffer : List Nat) : Nat := buffer.length % 256

/-- Modelled from the spec: `Endpoint_IsReadWriteAllowed()` for the IN endpoint
whose bank of `CDC_TXRX_EPSIZE` bytes was empty (IN ready) before `written`
bytes were put in it: the transport frame takes more bytes as long as it is not
filled to its maximum size. -/
def Endpoint_IsReadWriteAllowed (CDC_TXRX_EPSIZE written : Nat) : Bool :=
  decide (written < CDC_TXRX_EPSIZE)

/-- The function `cdc_send_byte(data)`. -/
def cdc_send_byte (e : Egress) (data : Nat) : Egress :=
  { e with ToUSB_Buffer := RingBuffer_Insert e.ToUSB_Buffer data, send_timer := 0 }

/-- The loop `while (nb_to_write--)` of `send_USB_data`: each turn removes the
oldest byte of the queue and writes it to the endpoint. -/
def load_bank : Nat → List Nat → List Nat × List UsbEvent
  | 0, buffer => (buffer, [])
  | n + 1, buffer =>
    let r := RingBuffer_Remove buffer
    let r2 := load_bank n r.2
    (r2.1, UsbEvent.Endpoint_Write_8 r.1 :: r2.2)

/-- The function `send_USB_data()`, for the endpoint size `CDC_TXRX_EPSIZE`,
the value `send_timeout` of `regs[ADDR_SEND_TIMEOUT]` and the answer
`Endpoint_IsINReady` of the endpoint. -/
def send_USB_data (CDC_TXRX_EPSIZE send_timeout : Nat) (Endpoint_IsINReady : Bool)
    (e : Egress) : Egress × List UsbEvent :=
  if Endpoint_IsINReady then
    let BufferCount := RingBuffer_GetCount e.ToUSB_Buffer
    if BufferCount ≠ 0 then
      if BufferCount ≥ CDC_TXRX_EPSIZE ∨ e.send_timer > send_timeout then
        let nb_to_write := min BufferCount CDC_TXRX_EPSIZE % 256
        let r := load_bank nb_to_write e.ToUSB_Buffer
        ({ ToUSB_Buffer := r.1, send_timer := 0,
           needEmptyPacket := !(Endpoint_IsReadWriteAllowed CDC_TXRX_EPSIZE nb_to_write) },
          r.2 ++ [UsbEvent.Endpoint_ClearIN])
      else
        (e, [])
    else if e.needEmptyPacket then
      ({ e with needEmptyPacket := false }, [UsbEvent.Endpoint_ClearIN])
    else
      (e, [])
  else
    (e, [])

/-- The bytes handed to the host: the arguments of the `Endpoint_Write_8`
calls. -/
def hostBytesWritten : List UsbEvent → List Nat
  | [] => []
  | UsbEvent.Endpoint_Write_8 d :: es => d :: hostBytesWritten es
  | UsbEvent.Endpoint_ClearIN :: es => hostBytesWritten es

/-- The number of frames committed: the `Endpoint_ClearIN` calls. -/
def framesCommitted (es : List UsbEvent) : Nat := es.count UsbEvent.Endpoint_ClearIN

/-- The global variables of the bridge that the interrupt handlers and the main
loop share: the parser, the egress path, the mode flag and the capture buffer
with its count and timer. -/
structure Firmware where
  parser : Parser
  egress : Egress
  passthrough_mode : Bool
  local_rx_buffer : List Nat
  local_rx_buffer_count : Nat
  usart_timer : Nat
deriving DecidableEq

/-- The handler `ISR(USART1_RX_vect)` for the byte `UDR1` received from the bus.
`AX_PASSTHROUGH` is the value of the macro of that name, `AX_BUFFER_SIZE` the
size of `local_rx_buffer`. -/
def USART1_RX_vect (cfg : Config) (AX_PASSTHROUGH : Bool) (UDR1 : Nat) (f : Firmware) :
    Firmware :=
  let ReceivedByte := UDR1 % 256
  if f.passthrough_mode = AX_PASSTHROUGH then
    { f with egress := cdc_send_byte f.egress ReceivedByte }
  else
    let f1 :=
      if f.local_rx_buffer_count < cfg.AX_BUFFER_SIZE then
        { f with local_rx_buffer := f.local_rx_buffer.set f.local_rx_buffer_count ReceivedByte,
                 local_rx_buffer_count := (f.local_rx_buffer_count + 1) % 256 }
      else f
    { f1 with usart_timer := 0 }

/-! ## The capture run and the soft reset into the bootloader -/

/-- The whole of `ISR(TIMER0_COMPA_vect)`: `receive_timer++`, `send_timer++` and
`usart_timer++`, each on a `uint8_t`. -/
def Firmware.TIMER0_COMPA_vect (f : Firmware) : Firmware :=
  { f with parser := USB2AX.TIMER0_COMPA_vect f.parser,
           egress := { f.egress with send_timer := (f.egress.send_timer + 1) % 256 },
           usart_timer := (f.usart_timer + 1) % 256 }

/-- Bytes arriving from the bus one after the other: `ISR(USART1_RX_vect)` runs
once per byte, each byte coming with the number of timer interrupts that fire
before it. -/
def bus_receive (cfg : Config) (AX_PASSTHROUGH : Bool) :
    Firmware → List (Nat × Nat) → Firmware
  | f, [] => f
  | f, (ticks, UDR1) :: rest =>
    bus_receive cfg AX_PASSTHROUGH
      (USART1_RX_vect cfg AX_PASSTHROUGH UDR1 (Firmware.TIMER0_COMPA_vect^[ticks] f)) rest

/-- The index of `local_rx_buffer` at which `ISR(USART1_RX_vect)` stores the
byte it receives: `local_rx_buffer_count` in the guarded branch of capture
mode, no store otherwise. -/
def captureIndex (cfg : Config) (AX_PASSTHROUGH : Bool) (f : Firmware) : Option Nat :=
  if f.passthrough_mode = AX_PASSTHROUGH then none
  else if f.local_rx_buffer_count < cfg.AX_BUFFER_SIZE then some f.local_rx_buffer_count
  else none

/-- The variables of the soft reset into the bootloader: the global
`needs_bootload` and the `static` local `PreviousDTRState` of
`EVENT_CDC_Device_ControLineStateChanged`, both `false` at start-up. -/
structure Bootload where
  needs_bootload : Bool
  PreviousDTRState : Bool
deriving DecidableEq

/-- The soft-reset variables as the C start-up code leaves them. -/
def Bootload.init : Bootload where
  needs_bootload := false
  PreviousDTRState := false

/-- The handler `EVENT_CDC_Device_LineEncodingChanged` for the baud rate
`BaudRateBPS` the host has set.  The call `init_serial(BaudRateBPS)` acts on
the USART registers only and is left out. -/
def EVENT_CDC_Device_LineEncodingChanged (BaudRateBPS : Nat) (s : Bootload) :
    Bootload × List Event :=
  if BaudRateBPS = 1200 then
    ({ s with needs_bootload := true }, [])
  else
    (s, [])

/-- The handler `EVENT_CDC_Device_ControLineStateChanged`.  `CurrentDTRState` is
the value of its local variable of that name, the DTR bit of the control-line
word sent by the host. -/
def EVENT_CDC_Device_ControLineStateChanged (CurrentDTRState : Bool) (s : Bootload) :
    Bootload × List Event :=
  let calls :=
    if s.PreviousDTRState = true ∧ CurrentDTRState = false then
      if s.needs_bootload = true then [Event.Jump_To_Reset true] else []
    else []
  ({ s with PreviousDTRState := CurrentDTRState }, calls)

/-- What the host does to the virtual serial port: it sets the line encoding or
it changes the control lines. -/
inductive CdcEvent where
  | LineEncodingChanged (BaudRateBPS : Nat)
  | ControLineStateChanged (CurrentDTRState : Bool)
deriving DecidableEq

/-- The two handlers called in the order of the host's requests, the calls they
make concatenated. -/
def cdc_events : Bootload → List CdcEvent → Bootload × List Event
  | s, [] => (s, [])
  | s, CdcEvent.LineEncodingChanged BaudRateBPS :: rest =>
    let r := EVENT_CDC_Device_LineEncodingChanged BaudRateBPS s
    let r2 := cdc_events r.1 rest
    (r2.1, r.2 ++ r2.2)
  | s, CdcEvent.ControLineStateChanged CurrentDTRState :: rest =>
    let r := EVENT_CDC_Device_ControLineStateChanged CurrentDTRState s
    let r2 := cdc_events r.1 rest
    (r2.1, r.2 ++ r2.2)

/-! ## Auxiliary facts about lists, events and the byte loop -/

theorem mod_byte {b : Nat} (h : b < 256) : b % 256 = b := Nat.mod_eq_of_lt h

theorem rxbyte_cells (l : List Nat) (n : Nat) (h : l.length = n + 8) :
    ∃ a0 a1 a2 a3 a4 a5 t, l = a0 :: a1 :: a2 :: a3 :: a4 :: a5 :: t ∧ t.length = n + 2 := by
  match l, h with
  | a0 :: a1 :: a2 :: a3 :: a4 :: a5 :: t, h =>
    refine ⟨a0, a1, a2, a3, a4, a5, t, rfl, ?_⟩
    simp only [List.length_cons] at h
    omega

theorem feed_append (cfg : Config) (xs ys : List Nat) (s : Parser) :
    feed cfg s (xs ++ ys)
      = ((feed cfg (feed cfg s xs).1 ys).1,
          (feed cfg s xs).2 ++ (feed cfg (feed cfg s xs).1 ys).2) := by
  induction xs generalizing s with
  | nil => simp [feed]
  | cons x xs ih => simp [feed, ih, List.append_assoc]

theorem range_map_getD (rx : List Nat) (n : Nat) (h : n ≤ rx.length) :
    (List.range n).map (fun i => rx.getD i 0) = rx.take n := by
  apply List.ext_getElem
  · simp [h]
  · intro i h1 h2
    simp at h1 h2
    simp [List.getD_eq_getElem?_getD, List.getElem?_eq_getElem (show i < rx.length by omega)]

theorem busBytes_append (xs ys : List Event) :
    busBytes (xs ++ ys) = busBytes xs ++ busBytes ys := by
  induction xs with
  | nil => rfl
  | cons e es ih => cases e <;> simp [busBytes, ih]

theorem busBytes_map_serial_write (l : List Nat) :
    busBytes (l.map Event.serial_write) = l := by
  induction l with
  | nil => rfl
  | cons a l ih => simp [busBytes, ih]

theorem busBytes_pass_bytes (rx : List Nat) (n : Nat) (h : n ≤ rx.length) :
    busBytes (pass_bytes rx n) = rx.take n := by
  have hmap : (List.range n).map (fun i => Event.serial_write (rx.getD i 0))
      = ((List.range n).map (fun i => rx.getD i 0)).map Event.serial_write := by
    simp [List.map_map, Function.comp_def]
  unfold pass_bytes
  rw [busBytes_append, hmap, busBytes_map_serial_write, range_map_getD rx n h]
  split <;> simp [busBytes]

theorem isRelay_pass_bytes (rx : List Nat) (n : Nat) :
    ∀ e ∈ pass_bytes rx n, e.isRelay = true := by
  intro e he
  unfold pass_bytes at he
  rcases List.mem_append.1 he with h | h
  · split at h
    · simp at h; subst h; rfl
    · simp at h
  · obtain ⟨i, -, rfl⟩ := List.mem_map.1 h
    rfl

theorem statusResponses_of_isRelay (es : List Event) (h : ∀ e ∈ es, e.isRelay = true) :
    statusResponses es = [] := by
  unfold statusResponses
  rw [List.filter_eq_nil_iff]
  intro e he
  have := h e he
  cases e <;> simp_all [Event.isRelay, Event.isStatus]

theorem dispatcherActions_of_isRelay (es : List Event) (h : ∀ e ∈ es, e.isRelay = true) :
    dispatcherActions es = [] := by
  unfold dispatcherActions
  rw [List.filter_eq_nil_iff]
  intro e he
  have := h e he
  cases e <;> simp_all [Event.isRelay, Event.isAction]

theorem statusResponses_append (xs ys : List Event) :
    statusResponses (xs ++ ys) = statusResponses xs ++ statusResponses ys := by
  simp [statusResponses]

theorem dispatcherActions_append (xs ys : List Event) :
    dispatcherActions (xs ++ ys) = dispatcherActions xs ++ dispatcherActions ys := by
  simp [dispatcherActions]

/-! ## The header states, on a parser whose buffer cells are named -/

theorem feed_sync_id (cfg : Config) (ck cnt tm a0 a1 a2 id : Nat) (t : List Nat)
    (hid : id < 0xFF) :
    feed cfg ⟨AX_SEARCH_FIRST_FF, ck, a0 :: a1 :: a2 :: t, cnt, tm⟩ [0xFF, 0xFF, id]
      = (⟨AX_SEARCH_LENGTH, ck, 0xFF :: 0xFF :: id :: t, 3, 0⟩, []) := by
  have hne : id ≠ 255 := by omega
  simp [feed, consume, mod_byte (show id < 256 by omega), hne]

theorem consume_length_ok (cfg : Config) (ck id a3 L : Nat) (t : List Nat)
    (hid : id = cfg.AX_ID_DEVICE ∨ id = cfg.AX_ID_BROADCAST) (hL : L < 256)
    (hr : 1 < L ∧ L < cfg.AX_SYNC_READ_MAX_DEVICES + 4) :
    consume cfg ⟨AX_SEARCH_LENGTH, ck, 0xFF :: 0xFF :: id :: a3 :: t, 3, 0⟩ L
      = (⟨AX_SEARCH_COMMAND, ck, 0xFF :: 0xFF :: id :: L :: t, 4, 0⟩, []) := by
  simp [consume, mod_byte hL, eq_true hid, hr]

theorem consume_length_range (cfg : Config) (ck id a3 L : Nat) (t : List Nat)
    (hid : id = cfg.AX_ID_DEVICE ∨ id = cfg.AX_ID_BROADCAST) (hL : L < 256)
    (hr : ¬ (1 < L ∧ L < cfg.AX_SYNC_READ_MAX_DEVICES + 4)) :
    consume cfg ⟨AX_SEARCH_LENGTH, ck, 0xFF :: 0xFF :: id :: a3 :: t, 3, 0⟩ L
      = ((cleanupInputParser ⟨AX_SEARCH_LENGTH, ck, 0xFF :: 0xFF :: id :: L :: t, 4, 0⟩).1,
          Event.axStatusPacket cfg.AX_ERROR_RANGE none 0
            :: (cleanupInputParser
                  ⟨AX_SEARCH_LENGTH, ck, 0xFF :: 0xFF :: id :: L :: t, 4, 0⟩).2) := by
  simp [consume, mod_byte hL, eq_true hid, hr]

theorem consume_length_foreign (cfg : Config) (ck id a3 L : Nat) (t : List Nat)
    (hid : ¬ (id = cfg.AX_ID_DEVICE ∨ id = cfg.AX_ID_BROADCAST)) (hL : L < 256) :
    consume cfg ⟨AX_SEARCH_LENGTH, ck, 0xFF :: 0xFF :: id :: a3 :: t, 3, 0⟩ L
      = (⟨AX_PASS_TO_SERVOS, ck, 0xFF :: 0xFF :: id :: L :: t, 4, 0⟩,
          [Event.setTX, Event.serial_write 0xFF, Event.serial_write 0xFF,
            Event.serial_write id, Event.serial_write L]) := by
  simp [consume, mod_byte hL, eq_false hid, pass_bytes, List.range, List.range.loop]

theorem cleanup_length (ck id L : Nat) (t : List Nat) :
    cleanupInputParser ⟨AX_SEARCH_LENGTH, ck, 0xFF :: 0xFF :: id :: L :: t, 4, 0⟩
      = if L = 0xFF then
          (⟨AX_SEARCH_SECOND_FF, ck, 0xFF :: 0xFF :: id :: L :: t, 1, 0⟩,
            [Event.setTX, Event.serial_write 0xFF, Event.serial_write 0xFF,
              Event.serial_write id])
        else
          (⟨AX_SEARCH_FIRST_FF, ck, 0xFF :: 0xFF :: id :: L :: t, 4, 0⟩,
            [Event.setTX, Event.serial_write 0xFF, Event.serial_write 0xFF,
              Event.serial_write id, Event.serial_write L]) := by
  by_cases h : L = 255
  · subst h
    simp [cleanupInputParser]
    simp [pass_bytes, List.range, List.range.loop]
  · simp [cleanupInputParser, h]
    simp [pass_bytes, List.range, List.range.loop]

theorem feed_sync_sync (cfg : Config) (ck cnt tm a0 a1 : Nat) (t : List Nat) :
    feed cfg ⟨AX_SEARCH_FIRST_FF, ck, a0 :: a1 :: t, cnt, tm⟩ [0xFF, 0xFF]
      = (⟨AX_SEARCH_ID, ck, 0xFF :: 0xFF :: t, 2, 0⟩, []) := by
  simp [feed, consume]

/-- Every further 0xFF met in `AX_SEARCH_ID` lets one 0xFF through and keeps two pending. -/
theorem feed_more_sync (cfg : Config) (n : Nat) :
    ∀ (ck tm a2 : Nat) (t : List Nat),
      ∃ tm2 a, feed cfg ⟨AX_SEARCH_ID, ck, 0xFF :: 0xFF :: a2 :: t, 2, tm⟩ (List.replicate n 0xFF)
        = (⟨AX_SEARCH_ID, ck, 0xFF :: 0xFF :: a :: t, 2, tm2⟩,
            (List.replicate n [Event.setTX, Event.serial_write 0xFF]).flatten) := by
  induction n with
  | zero => intro ck tm a2 t; exact ⟨tm, a2, by simp [feed]⟩
  | succ n ih =>
    intro ck tm a2 t
    obtain ⟨tm2, a, h⟩ := ih ck 0 0xFF t
    refine ⟨tm2, a, ?_⟩
    have hstep : consume cfg ⟨AX_SEARCH_ID, ck, 0xFF :: 0xFF :: a2 :: t, 2, tm⟩ 0xFF
        = (⟨AX_SEARCH_ID, ck, 0xFF :: 0xFF :: 0xFF :: t, 2, 0⟩,
            [Event.setTX, Event.serial_write 0xFF]) := by
      simp [consume, pass_bytes, List.range, List.range.loop]
    simp only [List.replicate_succ, feed, hstep, h, List.flatten_cons]

theorem busBytes_relay_sync (n : Nat) :
    busBytes (List.replicate n [Event.setTX, Event.serial_write 0xFF]).flatten
      = List.replicate n 0xFF := by
  induction n with
  | zero => rfl
  | succ n ih => simp [List.replicate_succ, busBytes, busBytes_append, ih]

theorem isRelay_relay_sync (n : Nat) :
    ∀ e ∈ (List.replicate n [Event.setTX, Event.serial_write 0xFF]).flatten,
      e.isRelay = true := by
  intro e he
  simp only [List.mem_flatten, List.mem_replicate] at he
  obtain ⟨l, ⟨-, rfl⟩, hl⟩ := he
  simp at hl
  rcases hl with rfl | rfl <;> rfl

theorem busBytes_relayed (l : List Nat) : busBytes (relayed l) = l := by
  induction l with
  | nil => rfl
  | cons a l ih =>
    have : relayed (a :: l) = [Event.setTX, Event.serial_write a] ++ relayed l := by
      simp [relayed]
    rw [this, busBytes_append, ih]; rfl

theorem isRelay_relayed (l : List Nat) : ∀ e ∈ relayed l, e.isRelay = true := by
  intro e he
  simp only [relayed, List.mem_flatten, List.mem_map] at he
  obtain ⟨x, ⟨b, -, rfl⟩, hx⟩ := he
  simp at hx
  rcases hx with rfl | rfl <;> rfl

/-- In `AX_PASS_TO_SERVOS`, as long as fewer bytes than declared have gone by,
each byte is written to the bus. -/
theorem feed_relay (cfg : Config) (L : Nat) :
    ∀ (payload : List Nat) (ck tm id j : Nat) (t : List Nat),
      (∀ b ∈ payload, b < 256) → j + payload.length ≤ L →
      (feed cfg ⟨AX_PASS_TO_SERVOS, ck, 0xFF :: 0xFF :: id :: L :: t, (4 + j) % 256, tm⟩
          payload).2 = relayed payload := by
  intro payload
  induction payload with
  | nil => intro ck tm id j t _ _; rfl
  | cons b bs ih =>
    intro ck tm id j t hb hj
    have hb256 : b < 256 := hb b (List.mem_cons_self _ _)
    have hbs : ∀ x ∈ bs, x < 256 := fun x hx => hb x (List.mem_cons_of_mem _ hx)
    simp only [List.length_cons] at hj
    have hcnt : ((4 + j) % 256 + 1) % 256 = (4 + (j + 1)) % 256 := by omega
    have hrel : relayed (b :: bs) = [Event.setTX, Event.serial_write b] ++ relayed bs := by
      simp [relayed]
    by_cases hend : (4 + (j + 1)) % 256 ≥ L + 4
    · have hnil : bs = [] := by
        apply List.eq_nil_of_length_eq_zero
        have := Nat.mod_le (4 + (j + 1)) 256
        omega
      subst hnil
      simp [feed, consume, hcnt, hend, mod_byte hb256, relayed]
    · have h := ih ck 0 id (j + 1) t hbs (by omega)
      simp only [feed, hrel]
      have hstep : consume cfg
          ⟨AX_PASS_TO_SERVOS, ck, 0xFF :: 0xFF :: id :: L :: t, (4 + j) % 256, tm⟩ b
          = (⟨AX_PASS_TO_SERVOS, ck, 0xFF :: 0xFF :: id :: L :: t, (4 + (j + 1)) % 256, 0⟩,
              [Event.setTX, Event.serial_write b]) := by
        simp [consume, hcnt, hend, mod_byte hb256]
      rw [hstep, h]

/-! ## Frames that reach `AX_GET_PARAMETERS` -/

theorem cleanup_ax_state (s : Parser) :
    (cleanupInputParser s).1.ax_state = AX_SEARCH_FIRST_FF
      ∨ (cleanupInputParser s).1.ax_state = AX_SEARCH_SECOND_FF := by
  unfold cleanupInputParser
  split <;> simp

theorem cleanup_not_collect (s : Parser) :
    (cleanupInputParser s).1.ax_state ≠ AX_GET_PARAMETERS := by
  rcases cleanup_ax_state s with h | h <;> simp [h]

/-- A header that leaves the parser in `AX_GET_PARAMETERS` -/
theorem reach_collect (cfg : Config) (ck cnt tm a0 a1 a2 a3 a4 id L instr : Nat) (t : List Nat)
    (hid : id < 256) (hL : L < 256) (hinstr : instr < 256)
    (hreach : (feed cfg ⟨AX_SEARCH_FIRST_FF, ck, a0 :: a1 :: a2 :: a3 :: a4 :: t, cnt, tm⟩
        [0xFF, 0xFF, id, L, instr]).1.ax_state = AX_GET_PARAMETERS) :
    (1 < L ∧ L < cfg.AX_SYNC_READ_MAX_DEVICES + 4)
      ∧ feed cfg ⟨AX_SEARCH_FIRST_FF, ck, a0 :: a1 :: a2 :: a3 :: a4 :: t, cnt, tm⟩
          [0xFF, 0xFF, id, L, instr]
        = (⟨AX_GET_PARAMETERS, (id + instr + L) % 65536,
            0xFF :: 0xFF :: id :: L :: instr :: t, 5, 0⟩, []) := by
  by_cases h255 : id = 255
  · exfalso
    subst h255
    have h3 : feed cfg ⟨AX_SEARCH_FIRST_FF, ck, a0 :: a1 :: a2 :: a3 :: a4 :: t, cnt, tm⟩
        [0xFF, 0xFF, 0xFF]
        = (⟨AX_SEARCH_ID, ck, 0xFF :: 0xFF :: 0xFF :: a3 :: a4 :: t, 2, 0⟩,
            [Event.setTX, Event.serial_write 0xFF]) := by
      simp [feed, consume, pass_bytes, List.range, List.range.loop]
    have hsplit : [0xFF, 0xFF, 0xFF, L, instr] = [0xFF, 0xFF, 0xFF] ++ [L, instr] := rfl
    rw [hsplit, feed_append, h3] at hreach
    simp only [feed] at hreach
    by_cases hL255 : L = 255
    · subst hL255
      simp [consume] at hreach
      split at hreach <;> simp at hreach
    · simp [consume, mod_byte hL, hL255] at hreach
      split at hreach
      · split at hreach
        · simp at hreach
        · exact cleanup_not_collect _ hreach
      · simp at hreach
  · have hid' : id < 255 := by omega
    have hsplit : [0xFF, 0xFF, id, L, instr] = [0xFF, 0xFF, id] ++ [L, instr] := rfl
    rw [hsplit, feed_append, feed_sync_id cfg ck cnt tm a0 a1 a2 id _ hid'] at hreach ⊢
    simp only [feed] at hreach ⊢
    by_cases hdev : id = cfg.AX_ID_DEVICE ∨ id = cfg.AX_ID_BROADCAST
    · by_cases hr : 1 < L ∧ L < cfg.AX_SYNC_READ_MAX_DEVICES + 4
      · refine ⟨hr, ?_⟩
        rw [consume_length_ok cfg ck id a3 L _ hdev hL hr] at hreach ⊢
        simp only [List.nil_append] at hreach ⊢
        simp only [consume, mod_byte hinstr, List.set_cons_succ, List.set_cons_zero,
          List.getD_cons_succ, List.getD_cons_zero] at hreach ⊢
        split at hreach
        · rename_i h1
          simp [h1]
        · rename_i h1
          split at hreach
          · rename_i h2
            split at hreach
            · simp at hreach
            · split at hreach
              · simp at hreach
              · split at hreach
                · simp at hreach
                · rename_i h3 h4 h5
                  split at hreach
                  · rename_i h6
                    subst h2 h6
                    simp [h1, h3, h4, h5]
                  · split at hreach
                    · rename_i h6 h7
                      subst h2 h7
                      simp [h1, h3, h4, h5, h6]
                    · exact absurd hreach (cleanup_not_collect _)
          · exact absurd hreach (cleanup_not_collect _)
      · exfalso
        rw [consume_length_range cfg ck id a3 L _ hdev hL hr] at hreach
        simp only [cleanup_length] at hreach
        split at hreach
        · simp [consume] at hreach
          split at hreach
          · simp at hreach
          · exact absurd hreach (cleanup_not_collect _)
        · simp [consume] at hreach
          split at hreach <;> simp at hreach
    · exfalso
      rw [consume_length_foreign cfg ck id a3 L _ hdev hL] at hreach
      simp [consume] at hreach
      split at hreach <;> simp at hreach


theorem set_append_length (mid rest : List Nat) (x v : Nat) :
    (mid ++ x :: rest).set mid.length v = mid ++ v :: rest := by
  induction mid with
  | nil => rfl
  | cons a mid ih => simp [ih]

theorem getD_append_length (mid rest : List Nat) (x : Nat) :
    (mid ++ x :: rest).getD mid.length 0 = x := by
  induction mid with
  | nil => rfl
  | cons a mid ih => simpa using ih

theorem getElem_append_length (mid rest : List Nat) (x : Nat)
    (h : mid.length < (mid ++ x :: rest).length) :
    (mid ++ x :: rest)[mid.length] = x := by
  induction mid with
  | nil => rfl
  | cons a mid ih => simpa using ih (by simp)

/-- One parameter byte that does not complete the frame. -/
theorem consume_collect (cfg : Config) (ck id L x b : Nat) (mid rest : List Nat)
    (hb : b < 256) (hroom : mid.length + 5 < L + 4) (hL : L + 4 < 256) :
    consume cfg ⟨AX_GET_PARAMETERS, ck, 0xFF :: 0xFF :: id :: L :: (mid ++ x :: rest),
        mid.length + 4, 0⟩ b
      = (⟨AX_GET_PARAMETERS, (ck + b) % 65536, 0xFF :: 0xFF :: id :: L :: (mid ++ b :: rest),
          mid.length + 5, 0⟩, []) := by
  have hcnt : (mid.length + 4 + 1) % 256 = mid.length + 5 := by omega
  have hnot : ¬ (L + 4 ≤ mid.length + 5) := by omega
  simp [consume, mod_byte hb, set_append_length, getElem_append_length, hcnt, hnot]

/-- The parameter byte that completes the frame. -/
theorem consume_collect_last (cfg : Config) (ck id L x c : Nat) (mid rest : List Nat)
    (hc : c < 256) (hfull : mid.length + 5 = L + 4) (hL : L + 4 < 256) :
    consume cfg ⟨AX_GET_PARAMETERS, ck, 0xFF :: 0xFF :: id :: L :: (mid ++ x :: rest),
        mid.length + 4, 0⟩ c
      = if (ck + c) % 65536 % 256 = 255 then
          (⟨AX_SEARCH_FIRST_FF, (ck + c) % 65536,
              0xFF :: 0xFF :: id :: L :: (mid ++ c :: rest), L + 4, 0⟩,
            dispatch cfg (0xFF :: 0xFF :: id :: L :: (mid ++ c :: rest)))
        else
          cleanupInputParser ⟨AX_GET_PARAMETERS, (ck + c) % 65536,
            0xFF :: 0xFF :: id :: L :: (mid ++ c :: rest), L + 4, 0⟩ := by
  have hcnt : (mid.length + 4 + 1) % 256 = L + 4 := by omega
  simp [consume, mod_byte hc, set_append_length, getElem_append_length, hcnt]

theorem feed_collect (cfg : Config) (id L : Nat) (hL : L + 4 < 256) :
    ∀ (bytes mid rest : List Nat) (ck : Nat),
      (∀ b ∈ bytes, b < 256) → ck < 65536 → bytes.length ≤ rest.length →
      mid.length + 4 + bytes.length < L + 4 →
      feed cfg ⟨AX_GET_PARAMETERS, ck, 0xFF :: 0xFF :: id :: L :: (mid ++ rest),
          mid.length + 4, 0⟩ bytes
        = (⟨AX_GET_PARAMETERS, (ck + bytes.sum) % 65536,
            0xFF :: 0xFF :: id :: L :: (mid ++ bytes ++ rest.drop bytes.length),
            mid.length + 4 + bytes.length, 0⟩, []) := by
  intro bytes
  induction bytes with
  | nil =>
    intro mid rest ck _ hck _ _
    simp [feed, Nat.mod_eq_of_lt hck]
  | cons b bs ih =>
    intro mid rest ck hb hck hroom hlt
    have hb256 : b < 256 := hb b (List.mem_cons_self _ _)
    have hbs : ∀ x ∈ bs, x < 256 := fun x hx => hb x (List.mem_cons_of_mem _ hx)
    simp only [List.length_cons] at hroom hlt
    match rest, hroom with
    | x :: rest, hroom =>
      simp only [List.length_cons] at hroom
      have h := ih (mid ++ [b]) rest ((ck + b) % 65536) hbs (Nat.mod_lt _ (by decide))
        (by omega) (by simp; omega)
      simp only [List.length_append, List.length_singleton, List.append_assoc,
        List.singleton_append] at h
      simp only [feed, consume_collect cfg ck id L x b mid rest hb256 (by omega) hL,
        List.nil_append]
      have e1 : mid.length + 5 = mid.length + 1 + 4 := by omega
      rw [e1, h]
      simp only [List.sum_cons, List.drop_succ_cons, List.cons_append, List.append_assoc]
      have e2 : ((ck + b) % 65536 + bs.sum) % 65536 = (ck + (b + bs.sum)) % 65536 := by omega
      have e3 : mid.length + 1 + 4 + bs.length = mid.length + 4 + (b :: bs).length := by
        simp only [List.length_cons]; omega
      rw [e2, e3]
      simp

/-- What the byte loop does with a whole frame whose header leads to
`AX_GET_PARAMETERS`. -/
theorem frame_outcome (cfg : Config) (s : Parser) (id L instr c : Nat) (params : List Nat)
    (hidle : s.ax_state = AX_SEARCH_FIRST_FF)
    (hbuf : s.rxbyte.length = cfg.AX_SYNC_READ_MAX_DEVICES + 8)
    (hmax : cfg.AX_SYNC_READ_MAX_DEVICES + 8 ≤ 256)
    (hid : id < 256) (hL : L < 256) (hinstr : instr < 256)
    (hparams : ∀ p ∈ params, p < 256) (hc : c < 256)
    (hlen : params.length + 2 = L)
    (hreach : (feed cfg s [0xFF, 0xFF, id, L, instr]).1.ax_state = AX_GET_PARAMETERS) :
    feed cfg s ([0xFF, 0xFF, id, L, instr] ++ params ++ [c])
      = if (id + L + instr + params.sum + c) % 256 = 255 then
          ({ held s ([0xFF, 0xFF, id, L, instr] ++ params ++ [c])
                (id + L + instr + params.sum + c) with ax_state := AX_SEARCH_FIRST_FF },
            dispatch cfg (held s ([0xFF, 0xFF, id, L, instr] ++ params ++ [c])
                (id + L + instr + params.sum + c)).rxbyte)
        else
          cleanupInputParser (held s ([0xFF, 0xFF, id, L, instr] ++ params ++ [c])
            (id + L + instr + params.sum + c)) := by
  obtain ⟨st, ck, rx, cnt, tm⟩ := s
  obtain ⟨a0, a1, a2, a3, a4, a5, t, hrx, ht⟩ := rxbyte_cells rx _ hbuf
  simp only at hidle
  subst hidle hrx
  obtain ⟨hr, hhead⟩ := reach_collect cfg ck cnt tm a0 a1 a2 a3 a4 id L instr (a5 :: t)
    hid hL hinstr hreach
  have hL4 : L + 4 < 256 := by omega
  have hroom : params.length + 1 ≤ (a5 :: t).length := by simp only [List.length_cons]; omega
  obtain ⟨x, rest, hdrop⟩ : ∃ x rest, (a5 :: t).drop params.length = x :: rest := by
    match h : (a5 :: t).drop params.length with
    | [] =>
      have := congrArg List.length h
      simp only [List.length_drop, List.length_cons, List.length_nil] at this
      omega
    | x :: rest => exact ⟨x, rest, rfl⟩
  have hcollect := feed_collect cfg id L hL4 params [instr] (a5 :: t) ((id + instr + L) % 65536)
    hparams (Nat.mod_lt _ (by decide)) (by omega) (by simp only [List.length_singleton]; omega)
  have hbuf2 : [0xFF, 0xFF, id, L, instr] ++ params ++ [c]
        ++ (a0 :: a1 :: a2 :: a3 :: a4 :: a5 :: t).drop
            ([0xFF, 0xFF, id, L, instr] ++ params ++ [c]).length
      = 0xFF :: 0xFF :: id :: L :: instr :: (params ++ c :: rest) := by
    have hd : (a0 :: a1 :: a2 :: a3 :: a4 :: a5 :: t).drop
        ([0xFF, 0xFF, id, L, instr] ++ params ++ [c]).length = rest := by
      have h1 : ([0xFF, 0xFF, id, L, instr] ++ params ++ [c]).length
          = (params.length + 1) + 5 := by
        simp only [List.length_append, List.length_cons, List.length_nil]; omega
      rw [h1]
      simp only [List.drop_succ_cons]
      have h2 : (a5 :: t).drop (params.length + 1) = rest := by
        rw [← List.tail_drop, hdrop]; rfl
      simpa using h2
    rw [hd]
    simp
  have hcnt : ([0xFF, 0xFF, id, L, instr] ++ params ++ [c]).length = L + 4 := by
    simp only [List.length_append, List.length_cons, List.length_nil]; omega
  have hheld : held ⟨AX_SEARCH_FIRST_FF, ck, a0 :: a1 :: a2 :: a3 :: a4 :: a5 :: t, cnt, tm⟩
      ([0xFF, 0xFF, id, L, instr] ++ params ++ [c]) (id + L + instr + params.sum + c)
      = ⟨AX_GET_PARAMETERS, (id + L + instr + params.sum + c) % 65536,
          0xFF :: 0xFF :: id :: L :: instr :: (params ++ c :: rest), L + 4, 0⟩ := by
    unfold held
    rw [hbuf2, hcnt]
  rw [hheld, feed_append, feed_append, hhead]
  simp only [List.length_singleton, List.singleton_append] at hcollect
  simp only [hcollect, List.nil_append, hdrop, feed]
  have hlast := consume_collect_last cfg (((id + instr + L) % 65536 + params.sum) % 65536) id L
    x c (instr :: params) rest hc (by simp only [List.length_cons]; omega) hL4
  rw [show (instr :: params).length + 4 = L + 3 from by simp only [List.length_cons]; omega]
    at hlast
  rw [show 1 + 4 + params.length = L + 3 from by omega]
  simp only [List.cons_append] at hlast ⊢
  rw [hlast]
  have hsum : (((id + instr + L) % 65536 + params.sum) % 65536 + c) % 65536
      = (id + L + instr + params.sum + c) % 65536 := by omega
  have hsum256 : (id + L + instr + params.sum + c) % 65536 % 256
      = (id + L + instr + params.sum + c) % 256 := by omega
  simp only [hsum, hsum256]
  split <;> simp

/-! ## The resync procedure and the checksum -/

theorem isRelay_cleanup (q : Parser) : ∀ e ∈ (cleanupInputParser q).2, e.isRelay = true := by
  unfold cleanupInputParser
  split <;> exact isRelay_pass_bytes _ _

/-- The resync procedure loses no byte -/
theorem cleanup_conserves (q : Parser) (h2 : 2 ≤ q.rxbyte_count)
    (hn : q.rxbyte_count ≤ q.rxbyte.length) (h256 : q.rxbyte_count < 256)
    (h0 : q.rxbyte.getD 0 0 = 0xFF) :
    busBytes (cleanupInputParser q).2 ++ pending (cleanupInputParser q).1
      = q.rxbyte.take q.rxbyte_count := by
  obtain ⟨st, ck, rx, cnt, tm⟩ := q
  simp only at h2 hn h256 h0
  obtain ⟨m, rfl⟩ : ∃ m, cnt = m + 1 := ⟨cnt - 1, by omega⟩
  unfold cleanupInputParser
  simp only [Nat.add_sub_cancel]
  have hm : (m + 1 + 255) % 256 = m := by omega
  split
  · rename_i hlast
    rw [hm]
    simp only [pending]
    rw [busBytes_pass_bytes rx m (by omega)]
    match rx, hn, h0, hlast with
    | a :: rx, hn, h0, hlast =>
      simp only [List.getD_cons_zero] at h0
      subst h0
      have hlt : m < (255 :: rx).length := by omega
      have hpend : (if AX_SEARCH_SECOND_FF = AX_SEARCH_FIRST_FF then []
          else List.take 1 (255 :: rx)) = [255] := by simp
      rw [List.getD_eq_getElem?_getD, List.getElem?_eq_getElem hlt] at hlast
      simp only [Option.getD_some] at hlast
      rw [hpend, List.take_succ, List.getElem?_eq_getElem hlt, hlast]
      rfl
  · simp only [pending]
    rw [busBytes_pass_bytes rx (m + 1) hn]
    simp

theorem busBytes_dispatch (cfg : Config) (rx : List Nat) : busBytes (dispatch cfg rx) = [] := by
  unfold dispatch
  split
  · simp only []
    split <;> rfl
  · split
    · rfl
    · split <;> rfl

theorem held_take (s : Parser) (frame : List Nat) (sum : Nat) :
    (held s frame sum).rxbyte.take (held s frame sum).rxbyte_count = frame := by
  simp [held]

theorem pending_cleanup_length (q : Parser) :
    (pending (cleanupInputParser q).1).length ≤ 1 := by
  unfold cleanupInputParser
  split
  · simp [pending]
  · simp [pending]

theorem flip_bit (p k : Nat) (hp : p < 256) (hk : k < 8) :
    p ^^^ 2 ^ k < 256 ∧ p ^^^ 2 ^ k ≠ p := by
  constructor
  · have h2 : 2 ^ k < 2 ^ 8 := Nat.pow_lt_pow_right (by decide) hk
    exact Nat.xor_lt_two_pow (n := 8) hp h2
  · intro h
    have h1 : p ^^^ (p ^^^ 2 ^ k) = p ^^^ p := by rw [h]
    rw [Nat.xor_cancel_left, Nat.xor_self] at h1
    exact absurd h1 (Nat.two_pow_pos k).ne'

theorem reach_length (cfg : Config) (s : Parser) (id L instr : Nat)
    (hidle : s.ax_state = AX_SEARCH_FIRST_FF)
    (hbuf : s.rxbyte.length = cfg.AX_SYNC_READ_MAX_DEVICES + 8)
    (hid : id < 256) (hL : L < 256) (hinstr : instr < 256)
    (hreach : (feed cfg s [0xFF, 0xFF, id, L, instr]).1.ax_state = AX_GET_PARAMETERS) :
    1 < L ∧ L < cfg.AX_SYNC_READ_MAX_DEVICES + 4 := by
  obtain ⟨st, ck, rx, cnt, tm⟩ := s
  obtain ⟨a0, a1, a2, a3, a4, a5, t, hrx, -⟩ := rxbyte_cells rx _ hbuf
  simp only at hidle
  subst hidle hrx
  exact (reach_collect cfg ck cnt tm a0 a1 a2 a3 a4 id L instr (a5 :: t) hid hL hinstr hreach).1

/-! ## Streams without a sync pair, and the timeout -/

theorem noSyncPair_iff_chain (l : List Nat) :
    NoSyncPair l ↔ List.Chain' (fun a b => ¬ (a = 0xFF ∧ b = 0xFF)) l := by
  induction l with
  | nil => simp [NoSyncPair]
  | cons a l ih =>
    cases l with
    | nil => simp [NoSyncPair]
    | cons b t =>
      rw [List.chain'_cons, ← ih]
      rfl

theorem NoSyncPair.left_of_append {l₁ l₂ : List Nat} (h : NoSyncPair (l₁ ++ l₂)) :
    NoSyncPair l₁ :=
  (noSyncPair_iff_chain _).2 ((noSyncPair_iff_chain _).1 h).left_of_append

theorem NoSyncPair.right_of_append {l₁ l₂ : List Nat} (h : NoSyncPair (l₁ ++ l₂)) :
    NoSyncPair l₂ :=
  (noSyncPair_iff_chain _).2 ((noSyncPair_iff_chain _).1 h).right_of_append

theorem busBytes_pass_bytes_range (rx : List Nat) (n : Nat) :
    busBytes (pass_bytes rx n) = (List.range n).map (fun i => rx.getD i 0) := by
  have hmap : (List.range n).map (fun i => Event.serial_write (rx.getD i 0))
      = ((List.range n).map (fun i => rx.getD i 0)).map Event.serial_write := by
    simp [List.map_map, Function.comp_def]
  unfold pass_bytes
  rw [busBytes_append, hmap, busBytes_map_serial_write]
  split <;> simp [busBytes]

theorem elapse_fields (n : Nat) (q : Parser) :
    (elapse n q).ax_state = q.ax_state ∧ (elapse n q).rxbyte = q.rxbyte
      ∧ (elapse n q).rxbyte_count = q.rxbyte_count
      ∧ (elapse n q).ax_checksum = q.ax_checksum := by
  induction n generalizing q with
  | zero => exact ⟨rfl, rfl, rfl, rfl⟩
  | succ n ih =>
    have h := ih (TIMER0_COMPA_vect q)
    simp only [elapse, Function.iterate_succ, Function.comp_apply] at h ⊢
    exact h

theorem atMostOneSync_elapse (n : Nat) (q : Parser) (h : AtMostOneSync q) :
    AtMostOneSync (elapse n q) := by
  obtain ⟨h1, h2, h3, -⟩ := elapse_fields n q
  unfold AtMostOneSync
  rw [h1, h2, h3]
  exact h

theorem pending_elapse (n : Nat) (q : Parser) : pending (elapse n q) = pending q := by
  obtain ⟨h1, h2, h3, -⟩ := elapse_fields n q
  unfold pending
  rw [h1, h2, h3]

theorem pending_of_atMostOneSync (q : Parser) (h : AtMostOneSync q) :
    pending q = [] ∨ pending q = [0xFF] := by
  obtain ⟨hlen, h | ⟨h1, h2, h3⟩⟩ := h
  · left; simp [pending, h]
  · right
    match hq : q.rxbyte, hlen with
    | a :: b :: t, _ =>
      rw [hq] at h3
      simp only [List.getD_cons_zero] at h3
      simp [pending, h1, h2, hq, h3]

/-- One byte in a state with at most one sync byte pending -/
theorem consume_atMostOneSync (cfg : Config) (q : Parser) (b : Nat) (h : AtMostOneSync q)
    (hb : b < 256) (hpair : NoSyncPair (pending q ++ [b])) :
    AtMostOneSync (consume cfg q b).1
      ∧ (∀ e ∈ (consume cfg q b).2, e.isRelay = true)
      ∧ busBytes (consume cfg q b).2 ++ pending (consume cfg q b).1 = pending q ++ [b] := by
  obtain ⟨st, ck, rx, cnt, tm⟩ := q
  obtain ⟨hlen, h | ⟨h1, h2, h3⟩⟩ := h
  · simp only at h hlen
    subst h
    match rx, hlen with
    | a0 :: a1 :: t, _ =>
      by_cases hb255 : b = 255
      · subst hb255
        simp [consume, AtMostOneSync, pending, busBytes]
      · simp [consume, AtMostOneSync, pending, mod_byte hb, hb255, busBytes, Event.isRelay]
  · simp only at h1 h2 h3 hlen
    subst h1 h2
    match rx, hlen, h3 with
    | a0 :: a1 :: t, _, h3 =>
      simp only [List.getD_cons_zero] at h3
      subst h3
      have hb255 : b ≠ 255 := by
        intro hb255
        subst hb255
        simp [NoSyncPair, pending] at hpair
      simp [consume, cleanupInputParser, AtMostOneSync, pending, mod_byte hb, hb255]
      simp [pass_bytes, List.range, List.range.loop, busBytes, Event.isRelay]

theorem noSyncPair_step (out p q rest : List Nat) (b : Nat)
    (hpair : NoSyncPair (p ++ b :: rest)) (h : out ++ q = p ++ [b]) :
    NoSyncPair (q ++ rest) := by
  have e : p ++ b :: rest = out ++ (q ++ rest) := by
    rw [← List.append_assoc, h]; simp
  rw [e] at hpair
  exact hpair.right_of_append

theorem receive_loop_atMostOneSync (cfg : Config) :
    ∀ (received : List (Nat × Nat)) (q : Parser), AtMostOneSync q →
      (∀ b ∈ received.map Prod.snd, b < 256) →
      NoSyncPair (pending q ++ received.map Prod.snd) →
      AtMostOneSync (receive_loop cfg q received).1
        ∧ (∀ e ∈ (receive_loop cfg q received).2, e.isRelay = true)
        ∧ busBytes (receive_loop cfg q received).2 ++ pending (receive_loop cfg q received).1
          = pending q ++ received.map Prod.snd := by
  intro received
  induction received with
  | nil =>
    intro q h _ _
    exact ⟨h, by simp [receive_loop], by simp [receive_loop, busBytes]⟩
  | cons x xs ih =>
    intro q h hb hpair
    obtain ⟨ticks, b⟩ := x
    simp only [List.map_cons] at hb hpair
    have hb0 : b < 256 := hb b (List.mem_cons_self _ _)
    have hbs : ∀ y ∈ xs.map Prod.snd, y < 256 := fun y hy => hb y (List.mem_cons_of_mem _ hy)
    have hq := atMostOneSync_elapse ticks q h
    have hpair1 : NoSyncPair (pending (elapse ticks q) ++ [b]) := by
      rw [pending_elapse]
      have e : pending q ++ b :: xs.map Prod.snd = (pending q ++ [b]) ++ xs.map Prod.snd := by
        simp
      rw [e] at hpair
      exact hpair.left_of_append
    obtain ⟨h1, h2, h3⟩ := consume_atMostOneSync cfg (elapse ticks q) b hq hb0 hpair1
    rw [pending_elapse] at h3
    obtain ⟨i1, i2, i3⟩ := ih (consume cfg (elapse ticks q) b).1 h1 hbs
      (noSyncPair_step _ _ _ _ b hpair h3)
    simp only [receive_loop]
    refine ⟨i1, ?_, ?_⟩
    · intro e he
      rcases List.mem_append.1 he with he | he
      · exact h2 e he
      · exact i2 e he
    · rw [busBytes_append, List.append_assoc, i3, ← List.append_assoc, h3]
      simp

theorem timeout_check_atMostOneSync (thr : Nat) (q : Parser) (h : AtMostOneSync q) :
    AtMostOneSync (timeout_check thr q).1
      ∧ (∀ e ∈ (timeout_check thr q).2, e.isRelay = true)
      ∧ busBytes (timeout_check thr q).2 ++ pending (timeout_check thr q).1 = pending q := by
  unfold timeout_check
  split
  · split
    · rename_i hst htm
      refine ⟨⟨h.1, Or.inl rfl⟩, isRelay_pass_bytes _ _, ?_⟩
      obtain ⟨hlen, h | ⟨h1, h2, h3⟩⟩ := h
      · exact absurd h hst
      · simp only [pending, if_true, List.append_nil, if_neg hst]
        rw [busBytes_pass_bytes _ _ (by omega)]
    · exact ⟨h, by simp, by simp [busBytes]⟩
  · exact ⟨h, by simp, by simp [busBytes]⟩

theorem process_atMostOneSync (cfg : Config) (thr : Nat) (q : Parser)
    (received : List (Nat × Nat)) (late : Nat) (h : AtMostOneSync q)
    (hb : ∀ b ∈ received.map Prod.snd, b < 256)
    (hpair : NoSyncPair (pending q ++ received.map Prod.snd)) :
    AtMostOneSync (process_incoming_USB_data cfg thr q received late).1
      ∧ (∀ e ∈ (process_incoming_USB_data cfg thr q received late).2, e.isRelay = true)
      ∧ busBytes (process_incoming_USB_data cfg thr q received late).2
          ++ pending (process_incoming_USB_data cfg thr q received late).1
        = pending q ++ received.map Prod.snd := by
  obtain ⟨h1, h2, h3⟩ := receive_loop_atMostOneSync cfg received q h hb hpair
  obtain ⟨i1, i2, i3⟩ := timeout_check_atMostOneSync thr
    (elapse late (receive_loop cfg q received).1) (atMostOneSync_elapse late _ h1)
  rw [pending_elapse] at i3
  simp only [process_incoming_USB_data]
  refine ⟨i1, ?_, ?_⟩
  · intro e he
    rcases List.mem_append.1 he with he | he
    · exact h2 e he
    · exact i2 e he
  · rw [busBytes_append, List.append_assoc, i3, h3]

theorem service_atMostOneSync (cfg : Config) :
    ∀ (cys : List Cycle) (q : Parser), AtMostOneSync q →
      (∀ b ∈ hostBytes cys, b < 256) →
      NoSyncPair (pending q ++ hostBytes cys) →
      AtMostOneSync (service cfg q cys).1
        ∧ (∀ e ∈ (service cfg q cys).2, e.isRelay = true)
        ∧ busBytes (service cfg q cys).2 ++ pending (service cfg q cys).1
          = pending q ++ hostBytes cys := by
  intro cys
  induction cys with
  | nil =>
    intro q h _ _
    exact ⟨h, by simp [service], by simp [service, busBytes, hostBytes]⟩
  | cons cy cys ih =>
    intro q h hb hpair
    have hhost : hostBytes (cy :: cys) = cy.received.map Prod.snd ++ hostBytes cys := by
      simp [hostBytes]
    rw [hhost] at hb hpair ⊢
    have hb1 : ∀ b ∈ cy.received.map Prod.snd, b < 256 :=
      fun b hb' => hb b (List.mem_append_left _ hb')
    have hb2 : ∀ b ∈ hostBytes cys, b < 256 := fun b hb' => hb b (List.mem_append_right _ hb')
    have hpair1 : NoSyncPair (pending q ++ cy.received.map Prod.snd) := by
      rw [← List.append_assoc] at hpair
      exact hpair.left_of_append
    obtain ⟨h1, h2, h3⟩ := process_atMostOneSync cfg cy.receive_timeout q cy.received cy.late h
      hb1 hpair1
    have hpair2 : NoSyncPair
        (pending (process_incoming_USB_data cfg cy.receive_timeout q cy.received cy.late).1
          ++ hostBytes cys) := by
      rw [← List.append_assoc, ← h3, List.append_assoc] at hpair
      exact hpair.right_of_append
    obtain ⟨i1, i2, i3⟩ := ih _ h1 hb2 hpair2
    simp only [service]
    refine ⟨i1, ?_, ?_⟩
    · intro e he
      rcases List.mem_append.1 he with he | he
      · exact h2 e he
      · exact i2 e he
    · rw [busBytes_append, List.append_assoc, i3, ← List.append_assoc, h3, List.append_assoc]

/-! ## The claims -/

/-- Claim C1 (ping end-to-end).  For a device id `AX_ID_DEVICE` other than 0xFF
and every byte `c` with `(AX_ID_DEVICE + 2 + AX_CMD_PING + c) % 256 = 255`,
feeding the frame `[0xFF, 0xFF, AX_ID_DEVICE, 2, AX_CMD_PING, c]` from an idle
parser makes exactly one call, `axStatusPacket(AX_ERROR_NONE, NULL, 0)`, writes
no byte to the bus and leaves the parser idle.  The constants are bytes and the
ping code differs from the sync-read code, which the state machine tests
first. -/
theorem ping_frame_answered (cfg : Config) (s : Parser) (c : Nat)
    (hidle : s.ax_state = AX_SEARCH_FIRST_FF)
    (hbuf : s.rxbyte.length = cfg.AX_SYNC_READ_MAX_DEVICES + 8)
    (hD : cfg.AX_ID_DEVICE < 256) (hD255 : cfg.AX_ID_DEVICE ≠ 0xFF)
    (hP : cfg.AX_CMD_PING < 256) (hPS : cfg.AX_CMD_PING ≠ cfg.AX_CMD_SYNC_READ)
    (hc : c < 256) (hsum : (cfg.AX_ID_DEVICE + 2 + cfg.AX_CMD_PING + c) % 256 = 255) :
    (feed cfg s [0xFF, 0xFF, cfg.AX_ID_DEVICE, 2, cfg.AX_CMD_PING, c]).2
        = [Event.axStatusPacket cfg.AX_ERROR_NONE none 0]
      ∧ busBytes (feed cfg s [0xFF, 0xFF, cfg.AX_ID_DEVICE, 2, cfg.AX_CMD_PING, c]).2 = []
      ∧ (feed cfg s [0xFF, 0xFF, cfg.AX_ID_DEVICE, 2, cfg.AX_CMD_PING, c]).1.ax_state
          = AX_SEARCH_FIRST_FF := by
  obtain ⟨st, ck, rx, cnt, tm⟩ := s
  obtain ⟨a0, a1, a2, a3, a4, a5, t, hrx, -⟩ := rxbyte_cells rx _ hbuf
  simp only at hidle
  subst hidle hrx
  simp at hD255
  simp [feed, consume, mod_byte hD, mod_byte hP, mod_byte hc, hD255, hPS, hsum, busBytes]

theorem ping_frame_answered_witness :
    (feed device1 (Parser.init device1) [0xFF, 0xFF, 0x01, 0x02, 0x01, 0xFB]).2
        = [Event.axStatusPacket 0 none 0]
      ∧ busBytes (feed device1 (Parser.init device1) [0xFF, 0xFF, 0x01, 0x02, 0x01, 0xFB]).2 = []
      ∧ (feed device1 (Parser.init device1) [0xFF, 0xFF, 0x01, 0x02, 0x01, 0xFB]).1.ax_state
          = AX_SEARCH_FIRST_FF :=
  ping_frame_answered device1 (Parser.init device1) 0xFB rfl rfl (by decide) (by decide)
    (by decide) (by decide) (by decide) (by decide)

/-- Claim C2 (checksum acceptance in collect-parameters).  A frame
`[0xFF, 0xFF, id, L, instr, p_1 .. p_(L-2), c]` whose header brings an idle
parser to `AX_GET_PARAMETERS` is accepted, that is the dispatch branch is taken
on the held frame and the parser is idle again with nothing written to the bus,
exactly when `(id + L + instr + p_1 + .. + p_(L-2) + c) % 256 = 0xFF`; otherwise
the held frame, with `ax_checksum` holding the sum modulo 65536, goes to
`cleanupInputParser`, which makes no status or dispatcher call and relays or
keeps pending every byte of the frame.  The buffer is assumed indexable by the
8-bit `rxbyte_count` (`AX_SYNC_READ_MAX_DEVICES + 8 ≤ 256`). -/
theorem collect_parameters_checksum (cfg : Config) (s : Parser) (id L instr c : Nat)
    (params : List Nat)
    (hidle : s.ax_state = AX_SEARCH_FIRST_FF)
    (hbuf : s.rxbyte.length = cfg.AX_SYNC_READ_MAX_DEVICES + 8)
    (hmax : cfg.AX_SYNC_READ_MAX_DEVICES + 8 ≤ 256)
    (hid : id < 256) (hL : L < 256) (hinstr : instr < 256)
    (hparams : ∀ p ∈ params, p < 256) (hc : c < 256)
    (hlen : params.length + 2 = L)
    (hreach : (feed cfg s [0xFF, 0xFF, id, L, instr]).1.ax_state = AX_GET_PARAMETERS) :
    feed cfg s ([0xFF, 0xFF, id, L, instr] ++ params ++ [c])
        = (if (id + L + instr + params.sum + c) % 256 = 0xFF then
            ({ held s ([0xFF, 0xFF, id, L, instr] ++ params ++ [c])
                  (id + L + instr + params.sum + c) with ax_state := AX_SEARCH_FIRST_FF },
              dispatch cfg (held s ([0xFF, 0xFF, id, L, instr] ++ params ++ [c])
                  (id + L + instr + params.sum + c)).rxbyte)
          else
            cleanupInputParser (held s ([0xFF, 0xFF, id, L, instr] ++ params ++ [c])
              (id + L + instr + params.sum + c)))
      ∧ ((feed cfg s ([0xFF, 0xFF, id, L, instr] ++ params ++ [c])).1.ax_state
              = AX_SEARCH_FIRST_FF
            ∧ busBytes (feed cfg s ([0xFF, 0xFF, id, L, instr] ++ params ++ [c])).2 = []
          ↔ (id + L + instr + params.sum + c) % 256 = 0xFF)
      ∧ ((id + L + instr + params.sum + c) % 256 ≠ 0xFF →
          statusResponses (feed cfg s ([0xFF, 0xFF, id, L, instr] ++ params ++ [c])).2 = []
            ∧ dispatcherActions
                (feed cfg s ([0xFF, 0xFF, id, L, instr] ++ params ++ [c])).2 = []
            ∧ busBytes (feed cfg s ([0xFF, 0xFF, id, L, instr] ++ params ++ [c])).2
                ++ pending (feed cfg s ([0xFF, 0xFF, id, L, instr] ++ params ++ [c])).1
              = [0xFF, 0xFF, id, L, instr] ++ params ++ [c]) := by
  have hout := frame_outcome cfg s id L instr c params hidle hbuf hmax hid hL hinstr hparams hc
    hlen hreach
  have hr := reach_length cfg s id L instr hidle hbuf hid hL hinstr hreach
  have hcons : (id + L + instr + params.sum + c) % 256 ≠ 0xFF →
      busBytes (feed cfg s ([0xFF, 0xFF, id, L, instr] ++ params ++ [c])).2
        ++ pending (feed cfg s ([0xFF, 0xFF, id, L, instr] ++ params ++ [c])).1
        = [0xFF, 0xFF, id, L, instr] ++ params ++ [c] := by
    intro hbad
    rw [hout, if_neg hbad]
    have h := cleanup_conserves (held s ([0xFF, 0xFF, id, L, instr] ++ params ++ [c])
      (id + L + instr + params.sum + c)) (by simp [held]) (by simp [held])
      (by simp only [held, List.length_append, List.length_cons, List.length_nil]; omega)
      (by simp [held])
    rw [held_take] at h
    exact h
  refine ⟨hout, ⟨?_, ?_⟩, ?_⟩
  · rintro ⟨-, hbus⟩
    by_contra hbad
    have h := hcons hbad
    rw [hbus, hout, if_neg hbad] at h
    have hl := congrArg List.length h
    have := pending_cleanup_length (held s ([0xFF, 0xFF, id, L, instr] ++ params ++ [c])
      (id + L + instr + params.sum + c))
    simp only [List.nil_append, List.length_append, List.length_cons, List.length_nil] at hl
    omega
  · intro hok
    rw [hout, if_pos hok]
    exact ⟨rfl, busBytes_dispatch _ _⟩
  · intro hbad
    refine ⟨?_, ?_, hcons hbad⟩
    · rw [hout, if_neg hbad]
      exact statusResponses_of_isRelay _ (isRelay_cleanup _)
    · rw [hout, if_neg hbad]
      exact dispatcherActions_of_isRelay _ (isRelay_cleanup _)

theorem collect_parameters_checksum_witness :
    (feed dynamixel (Parser.init dynamixel)
        ([0xFF, 0xFF, 0xFD, 4, 0x02] ++ [0x10, 0x02] ++ [0xEA])).1.ax_state = AX_SEARCH_FIRST_FF
      ∧ busBytes (feed dynamixel (Parser.init dynamixel)
        ([0xFF, 0xFF, 0xFD, 4, 0x02] ++ [0x10, 0x02] ++ [0xEA])).2 = [] :=
  (collect_parameters_checksum dynamixel (Parser.init dynamixel) 0xFD 4 0x02 0xEA [0x10, 0x02]
    rfl rfl (by decide) (by decide) (by decide) (by decide) (by decide) (by decide) rfl
    (by decide)).2.1.2 (by decide)

/-- Claim C3 (a single flipped bit is rejected silently).  Take a frame that
reaches `AX_GET_PARAMETERS` and carries the valid checksum byte, and flip bit
`k < 8` of one parameter byte `p`.  Fed from an idle parser, the corrupted frame
produces no status response and no dispatcher action: it is handed whole to
`cleanupInputParser`, and every byte of it is relayed or kept pending. -/
theorem single_bit_flip_rejected (cfg : Config) (s : Parser) (id L instr c p k : Nat)
    (pre post : List Nat)
    (hidle : s.ax_state = AX_SEARCH_FIRST_FF)
    (hbuf : s.rxbyte.length = cfg.AX_SYNC_READ_MAX_DEVICES + 8)
    (hmax : cfg.AX_SYNC_READ_MAX_DEVICES + 8 ≤ 256)
    (hid : id < 256) (hL : L < 256) (hinstr : instr < 256)
    (hpre : ∀ x ∈ pre, x < 256) (hp : p < 256) (hpost : ∀ x ∈ post, x < 256) (hc : c < 256)
    (hlen : (pre ++ p :: post).length + 2 = L)
    (hreach : (feed cfg s [0xFF, 0xFF, id, L, instr]).1.ax_state = AX_GET_PARAMETERS)
    (hvalid : (id + L + instr + (pre ++ p :: post).sum + c) % 256 = 0xFF)
    (hk : k < 8) :
    statusResponses
        (feed cfg s ([0xFF, 0xFF, id, L, instr] ++ (pre ++ (p ^^^ 2 ^ k) :: post) ++ [c])).2 = []
      ∧ dispatcherActions
        (feed cfg s ([0xFF, 0xFF, id, L, instr] ++ (pre ++ (p ^^^ 2 ^ k) :: post) ++ [c])).2 = []
      ∧ feed cfg s ([0xFF, 0xFF, id, L, instr] ++ (pre ++ (p ^^^ 2 ^ k) :: post) ++ [c])
        = cleanupInputParser
            (held s ([0xFF, 0xFF, id, L, instr] ++ (pre ++ (p ^^^ 2 ^ k) :: post) ++ [c])
              (id + L + instr + (pre ++ (p ^^^ 2 ^ k) :: post).sum + c))
      ∧ busBytes
          (feed cfg s ([0xFF, 0xFF, id, L, instr] ++ (pre ++ (p ^^^ 2 ^ k) :: post) ++ [c])).2
          ++ pending
            (feed cfg s ([0xFF, 0xFF, id, L, instr] ++ (pre ++ (p ^^^ 2 ^ k) :: post) ++ [c])).1
        = [0xFF, 0xFF, id, L, instr] ++ (pre ++ (p ^^^ 2 ^ k) :: post) ++ [c] := by
  obtain ⟨hq, hne⟩ := flip_bit p k hp hk
  have hr := reach_length cfg s id L instr hidle hbuf hid hL hinstr hreach
  have hparams : ∀ x ∈ pre ++ (p ^^^ 2 ^ k) :: post, x < 256 := by
    intro x hx
    rcases List.mem_append.1 hx with h | h
    · exact hpre x h
    · rcases List.mem_cons.1 h with h | h
      · exact h ▸ hq
      · exact hpost x h
  have hlen2 : (pre ++ (p ^^^ 2 ^ k) :: post).length + 2 = L := by
    simpa using hlen
  have hbad : (id + L + instr + (pre ++ (p ^^^ 2 ^ k) :: post).sum + c) % 256 ≠ 0xFF := by
    simp only [List.sum_append, List.sum_cons] at hvalid ⊢
    omega
  have hout := frame_outcome cfg s id L instr c (pre ++ (p ^^^ 2 ^ k) :: post) hidle hbuf hmax
    hid hL hinstr hparams hc hlen2 hreach
  rw [if_neg hbad] at hout
  refine ⟨?_, ?_, hout, ?_⟩
  · rw [hout]
    exact statusResponses_of_isRelay _ (isRelay_cleanup _)
  · rw [hout]
    exact dispatcherActions_of_isRelay _ (isRelay_cleanup _)
  · rw [hout]
    have h := cleanup_conserves
      (held s ([0xFF, 0xFF, id, L, instr] ++ (pre ++ (p ^^^ 2 ^ k) :: post) ++ [c])
        (id + L + instr + (pre ++ (p ^^^ 2 ^ k) :: post).sum + c)) (by simp [held])
      (by simp [held])
      (by simp only [held, List.length_append, List.length_cons, List.length_nil] at hlen2 ⊢
          omega)
      (by simp [held])
    rw [held_take] at h
    exact h

theorem single_bit_flip_rejected_witness :
    statusResponses (feed dynamixel (Parser.init dynamixel)
        ([0xFF, 0xFF, 0xFD, 4, 0x02] ++ ([0x10] ++ (0x02 ^^^ 2 ^ 0) :: []) ++ [0xEA])).2 = []
      ∧ dispatcherActions (feed dynamixel (Parser.init dynamixel)
        ([0xFF, 0xFF, 0xFD, 4, 0x02] ++ ([0x10] ++ (0x02 ^^^ 2 ^ 0) :: []) ++ [0xEA])).2 = [] :=
  ⟨(single_bit_flip_rejected dynamixel (Parser.init dynamixel) 0xFD 4 0x02 0xEA 0x02 0
      [0x10] [] rfl rfl (by decide) (by decide) (by decide) (by decide) (by decide) (by decide)
      (by decide) (by decide) rfl (by decide) (by decide) (by decide)).1,
    (single_bit_flip_rejected dynamixel (Parser.init dynamixel) 0xFD 4 0x02 0xEA 0x02 0
      [0x10] [] rfl rfl (by decide) (by decide) (by decide) (by decide) (by decide) (by decide)
      (by decide) (by decide) rfl (by decide) (by decide) (by decide)).2.1⟩

/-- Claim C4 (confirm states and the frame checksum), evaluated where it fails.
With the Dynamixel constants, the reset frame `[0xFF, 0xFF, 0xFD, 0x03, 0x06,
0xFA]` declares the in-range length 3 and its own fields do not sum to 255
modulo 256, yet the parser calls `eeprom_clear()` and `Jump_To_Reset(false)`:
`AX_SEARCH_RESET` adds the constant 2 where the frame has its length byte. -/
theorem confirm_state_ignores_declared_length :
    (1 < 3 ∧ 3 < dynamixel.AX_SYNC_READ_MAX_DEVICES + 4)
      ∧ (dynamixel.AX_ID_DEVICE + 3 + dynamixel.AX_CMD_RESET + 0xFA) % 256 ≠ 255
      ∧ (feed dynamixel (Parser.init dynamixel) [0xFF, 0xFF, 0xFD, 0x03, 0x06, 0xFA]).2
          = [Event.LEDs_TurnOnLEDs, Event.LEDs_SetAllLEDs, Event.eeprom_clear,
              Event.Jump_To_Reset false] := by
  decide

/-- Claim C5 (declared-length range check).  For a header `[0xFF, 0xFF, id, L]`
fed from idle with `id` the device or broadcast id (and not 0xFF): if
`1 < L < AX_SYNC_READ_MAX_DEVICES + 4` no call is made and the parser is in
`AX_SEARCH_COMMAND`; otherwise exactly one `axStatusPacket(AX_ERROR_RANGE, NULL,
0)` is made, followed by the resync: the four header bytes are relayed and the
parser is idle, or, for `L = 0xFF`, the first three are relayed and the last
0xFF stays pending in `AX_SEARCH_SECOND_FF`. -/
theorem declared_length_range_check (cfg : Config) (s : Parser) (id L : Nat)
    (hidle : s.ax_state = AX_SEARCH_FIRST_FF)
    (hbuf : s.rxbyte.length = cfg.AX_SYNC_READ_MAX_DEVICES + 8)
    (hid : id = cfg.AX_ID_DEVICE ∨ id = cfg.AX_ID_BROADCAST)
    (hid255 : id < 0xFF) (hL : L < 256) :
    (1 < L ∧ L < cfg.AX_SYNC_READ_MAX_DEVICES + 4 →
        (feed cfg s [0xFF, 0xFF, id, L]).2 = []
          ∧ (feed cfg s [0xFF, 0xFF, id, L]).1.ax_state = AX_SEARCH_COMMAND)
      ∧ (L ≤ 1 ∨ cfg.AX_SYNC_READ_MAX_DEVICES + 4 ≤ L →
          (L ≠ 0xFF →
            (feed cfg s [0xFF, 0xFF, id, L]).2
                = [Event.axStatusPacket cfg.AX_ERROR_RANGE none 0, Event.setTX,
                    Event.serial_write 0xFF, Event.serial_write 0xFF,
                    Event.serial_write id, Event.serial_write L]
              ∧ (feed cfg s [0xFF, 0xFF, id, L]).1.ax_state = AX_SEARCH_FIRST_FF)
          ∧ (L = 0xFF →
            (feed cfg s [0xFF, 0xFF, id, L]).2
                = [Event.axStatusPacket cfg.AX_ERROR_RANGE none 0, Event.setTX,
                    Event.serial_write 0xFF, Event.serial_write 0xFF, Event.serial_write id]
              ∧ (feed cfg s [0xFF, 0xFF, id, L]).1.ax_state = AX_SEARCH_SECOND_FF
              ∧ pending (feed cfg s [0xFF, 0xFF, id, L]).1 = [0xFF])) := by
  obtain ⟨st, ck, rx, cnt, tm⟩ := s
  obtain ⟨a0, a1, a2, a3, a4, a5, t, hrx, -⟩ := rxbyte_cells rx _ hbuf
  simp only at hidle
  subst hidle hrx
  have hsplit : [0xFF, 0xFF, id, L] = [0xFF, 0xFF, id] ++ [L] := rfl
  rw [hsplit, feed_append, feed_sync_id cfg ck cnt tm a0 a1 a2 id _ hid255]
  refine ⟨?_, ?_⟩
  · intro hr
    simp [feed, consume_length_ok cfg ck id a3 L _ hid hL hr]
  · intro hr
    have hr' : ¬ (1 < L ∧ L < cfg.AX_SYNC_READ_MAX_DEVICES + 4) := by omega
    simp only [feed, consume_length_range cfg ck id a3 L _ hid hL hr', cleanup_length]
    refine ⟨?_, ?_⟩
    · intro hL255
      simp [hL255]
    · intro hL255
      simp [hL255, pending]

theorem declared_length_range_check_witness :
    (feed dynamixel (Parser.init dynamixel) [0xFF, 0xFF, 0xFE, 0xFF]).2
        = [Event.axStatusPacket dynamixel.AX_ERROR_RANGE none 0, Event.setTX,
            Event.serial_write 0xFF, Event.serial_write 0xFF, Event.serial_write 0xFE]
      ∧ (feed dynamixel (Parser.init dynamixel) [0xFF, 0xFF, 0xFE, 0xFF]).1.ax_state
          = AX_SEARCH_SECOND_FF
      ∧ pending (feed dynamixel (Parser.init dynamixel) [0xFF, 0xFF, 0xFE, 0xFF]).1 = [0xFF] :=
  ((declared_length_range_check dynamixel (Parser.init dynamixel) 0xFE 0xFF rfl rfl
    (Or.inr rfl) (by decide) (by decide)).2 (Or.inr (by decide))).2 rfl

/-- Claim C6 (three-sync rule).  Feeding `k ≥ 3` bytes 0xFF from idle relays
exactly `k - 2` bytes, all 0xFF, makes no status or dispatcher call, and ends in
`AX_SEARCH_ID` with `rxbyte_count = 2`, two sync bytes pending. -/
theorem three_sync_rule (cfg : Config) (s : Parser) (k : Nat)
    (hidle : s.ax_state = AX_SEARCH_FIRST_FF)
    (hbuf : s.rxbyte.length = cfg.AX_SYNC_READ_MAX_DEVICES + 8)
    (hk : 3 ≤ k) :
    busBytes (feed cfg s (List.replicate k 0xFF)).2 = List.replicate (k - 2) 0xFF
      ∧ statusResponses (feed cfg s (List.replicate k 0xFF)).2 = []
      ∧ dispatcherActions (feed cfg s (List.replicate k 0xFF)).2 = []
      ∧ (feed cfg s (List.replicate k 0xFF)).1.ax_state = AX_SEARCH_ID
      ∧ (feed cfg s (List.replicate k 0xFF)).1.rxbyte_count = 2
      ∧ pending (feed cfg s (List.replicate k 0xFF)).1 = [0xFF, 0xFF] := by
  obtain ⟨st, ck, rx, cnt, tm⟩ := s
  obtain ⟨a0, a1, a2, a3, a4, a5, t, hrx, -⟩ := rxbyte_cells rx _ hbuf
  simp only at hidle
  subst hidle hrx
  obtain ⟨n, rfl⟩ : ∃ n, k = 2 + n := ⟨k - 2, by omega⟩
  obtain ⟨tm2, a, h⟩ := feed_more_sync cfg n ck 0 a2 (a3 :: a4 :: a5 :: t)
  have hsplit : List.replicate (2 + n) 0xFF = [0xFF, 0xFF] ++ List.replicate n 0xFF := by
    rw [List.replicate_add]; rfl
  rw [hsplit, feed_append, feed_sync_sync, h]
  simp only [List.nil_append, Nat.add_sub_cancel_left]
  exact ⟨busBytes_relay_sync n, statusResponses_of_isRelay _ (isRelay_relay_sync n),
    dispatcherActions_of_isRelay _ (isRelay_relay_sync n), trivial, trivial, by simp [pending]⟩

theorem three_sync_rule_witness :
    busBytes (feed dynamixel (Parser.init dynamixel) [0xFF, 0xFF, 0xFF]).2 = [0xFF]
      ∧ statusResponses (feed dynamixel (Parser.init dynamixel) [0xFF, 0xFF, 0xFF]).2 = []
      ∧ dispatcherActions (feed dynamixel (Parser.init dynamixel) [0xFF, 0xFF, 0xFF]).2 = []
      ∧ (feed dynamixel (Parser.init dynamixel) [0xFF, 0xFF, 0xFF]).1.ax_state = AX_SEARCH_ID
      ∧ (feed dynamixel (Parser.init dynamixel) [0xFF, 0xFF, 0xFF]).1.rxbyte_count = 2
      ∧ pending (feed dynamixel (Parser.init dynamixel) [0xFF, 0xFF, 0xFF]).1 = [0xFF, 0xFF] :=
  three_sync_rule dynamixel (Parser.init dynamixel) 3 rfl rfl (by decide)

/-- Claim C7 (foreign frames pass through unchanged).  For an id that is neither
the device id, the broadcast id nor 0xFF, any declared length `L` and any
payload of `L` bytes, feeding `[0xFF, 0xFF, id, L]` and the payload from idle
writes to the bus exactly the bytes fed, in order and once each, with no status
response and no dispatcher action. -/
theorem foreign_frame_relayed (cfg : Config) (s : Parser) (id L : Nat) (payload : List Nat)
    (hidle : s.ax_state = AX_SEARCH_FIRST_FF)
    (hbuf : s.rxbyte.length = cfg.AX_SYNC_READ_MAX_DEVICES + 8)
    (hid : id < 256) (hdev : id ≠ cfg.AX_ID_DEVICE) (hbc : id ≠ cfg.AX_ID_BROADCAST)
    (hsync : id ≠ 0xFF) (hL : L < 256)
    (hlen : payload.length = L) (hpay : ∀ b ∈ payload, b < 256) :
    busBytes (feed cfg s ([0xFF, 0xFF, id, L] ++ payload)).2 = [0xFF, 0xFF, id, L] ++ payload
      ∧ statusResponses (feed cfg s ([0xFF, 0xFF, id, L] ++ payload)).2 = []
      ∧ dispatcherActions (feed cfg s ([0xFF, 0xFF, id, L] ++ payload)).2 = [] := by
  obtain ⟨st, ck, rx, cnt, tm⟩ := s
  obtain ⟨a0, a1, a2, a3, a4, a5, t, hrx, -⟩ := rxbyte_cells rx _ hbuf
  simp only at hidle
  subst hidle hrx
  have hforeign : ¬ (id = cfg.AX_ID_DEVICE ∨ id = cfg.AX_ID_BROADCAST) := by
    rintro (h | h)
    · exact hdev h
    · exact hbc h
  have hhead : feed cfg ⟨AX_SEARCH_FIRST_FF, ck, a0 :: a1 :: a2 :: a3 :: a4 :: a5 :: t, cnt, tm⟩
      [0xFF, 0xFF, id, L]
      = (⟨AX_PASS_TO_SERVOS, ck, 0xFF :: 0xFF :: id :: L :: a4 :: a5 :: t, 4, 0⟩,
          relayed [] ++ [Event.setTX, Event.serial_write 0xFF, Event.serial_write 0xFF,
            Event.serial_write id, Event.serial_write L]) := by
    have hsplit : [0xFF, 0xFF, id, L] = [0xFF, 0xFF, id] ++ [L] := rfl
    rw [hsplit, feed_append, feed_sync_id cfg ck cnt tm a0 a1 a2 id _ (by simp at hsync; omega)]
    simp [feed, consume_length_foreign cfg ck id a3 L _ hforeign hL, relayed]
  have hrelay := feed_relay cfg L payload ck 0 id 0 (a4 :: a5 :: t) hpay (by omega)
  simp only [Nat.add_zero, Nat.reduceMod] at hrelay
  rw [feed_append, hhead]
  simp only [hrelay]
  refine ⟨?_, ?_, ?_⟩
  · simp [busBytes_append, busBytes_relayed, busBytes]
  · apply statusResponses_of_isRelay
    intro e he
    rcases List.mem_append.1 he with h | h
    · simp [relayed] at h
      rcases h with rfl | rfl | rfl | rfl | rfl <;> rfl
    · exact isRelay_relayed _ e h
  · apply dispatcherActions_of_isRelay
    intro e he
    rcases List.mem_append.1 he with h | h
    · simp [relayed] at h
      rcases h with rfl | rfl | rfl | rfl | rfl <;> rfl
    · exact isRelay_relayed _ e h

theorem foreign_frame_relayed_witness :
    busBytes (feed dynamixel (Parser.init dynamixel) ([0xFF, 0xFF, 0x05, 3] ++ [0xFF, 0xFF, 0xFD])).2
        = [0xFF, 0xFF, 0x05, 3] ++ [0xFF, 0xFF, 0xFD]
      ∧ statusResponses
          (feed dynamixel (Parser.init dynamixel) ([0xFF, 0xFF, 0x05, 3] ++ [0xFF, 0xFF, 0xFD])).2 = []
      ∧ dispatcherActions
          (feed dynamixel (Parser.init dynamixel) ([0xFF, 0xFF, 0x05, 3] ++ [0xFF, 0xFF, 0xFD])).2 = [] :=
  foreign_frame_relayed dynamixel (Parser.init dynamixel) 0x05 3 [0xFF, 0xFF, 0xFD] rfl rfl
    (by decide) (by decide) (by decide) (by decide) (by decide) rfl (by decide)

set_option maxRecDepth 20000 in
/-- Claim C8 (relay-remainder ends at the declared length), evaluated where it
fails.  After a foreign header declaring `L = 0` the parser is still in
`AX_PASS_TO_SERVOS`, so the next byte is relayed unexamined: a valid ping
frame that follows gets no status response and its bytes go to the bus.  After
a foreign header declaring `L = 252` and 252 payload bytes the parser is still
in `AX_PASS_TO_SERVOS`, the 8-bit `rxbyte_count` never reaching `L + 4`. -/
theorem relay_remainder_overrun :
    (feed dynamixel (Parser.init dynamixel) [0xFF, 0xFF, 0x05, 0x00]).1.ax_state
        = AX_PASS_TO_SERVOS
      ∧ (feed dynamixel (Parser.init dynamixel) [0xFF, 0xFF, 0xFD, 0x02, 0x01, 0xFF]).2
        = [Event.axStatusPacket 0 none 0]
      ∧ (feed dynamixel (Parser.init dynamixel)
          ([0xFF, 0xFF, 0x05, 0x00] ++ [0xFF, 0xFF, 0xFD, 0x02, 0x01, 0xFF])).2
        = [Event.setTX, Event.serial_write 0xFF, Event.serial_write 0xFF,
            Event.serial_write 0x05, Event.serial_write 0x00,
            Event.setTX, Event.serial_write 0xFF,
            Event.setTX, Event.serial_write 0xFF, Event.serial_write 0xFD,
            Event.setTX, Event.serial_write 0x02,
            Event.setTX, Event.serial_write 0x01]
      ∧ (feed dynamixel (Parser.init dynamixel)
          ([0xFF, 0xFF, 0x05, 252] ++ List.replicate 252 0)).1.ax_state = AX_PASS_TO_SERVOS := by
  refine ⟨by decide, by decide, by decide, ?_⟩
  decide

/-- Claim C9 (pass-through of streams without a sync pair).  Host bytes with no
two neighbouring 0xFF, delivered from idle over any sequence of service cycles
with any timer ticks and timeout thresholds, reach the bus unchanged and in
order, except for at most one trailing 0xFF still pending; no status response
and no dispatcher action occurs; and a later cycle without input in which the
receive timer exceeds the threshold leaves the bus output equal to the input
and the parser idle. -/
theorem pass_through_without_sync_pair (cfg : Config) (s : Parser) (cys : List Cycle)
    (hidle : s.ax_state = AX_SEARCH_FIRST_FF)
    (hbuf : s.rxbyte.length = cfg.AX_SYNC_READ_MAX_DEVICES + 8)
    (hbytes : ∀ b ∈ hostBytes cys, b < 256)
    (hpair : NoSyncPair (hostBytes cys)) :
    busBytes (service cfg s cys).2 ++ pending (service cfg s cys).1 = hostBytes cys
      ∧ (pending (service cfg s cys).1 = [] ∨ pending (service cfg s cys).1 = [0xFF])
      ∧ statusResponses (service cfg s cys).2 = []
      ∧ dispatcherActions (service cfg s cys).2 = []
      ∧ ∀ receive_timeout late : Nat,
          receive_timeout < (elapse late (service cfg s cys).1).receive_timer →
          busBytes ((service cfg s cys).2
              ++ (process_incoming_USB_data cfg receive_timeout (service cfg s cys).1 [] late).2)
            = hostBytes cys
          ∧ (process_incoming_USB_data cfg receive_timeout (service cfg s cys).1 [] late).1.ax_state
            = AX_SEARCH_FIRST_FF := by
  have hs : AtMostOneSync s := ⟨by omega, Or.inl hidle⟩
  have hp : pending s = [] := by simp [pending, hidle]
  obtain ⟨h1, h2, h3⟩ := service_atMostOneSync cfg cys s hs hbytes (by rw [hp]; exact hpair)
  rw [hp, List.nil_append] at h3
  refine ⟨h3, pending_of_atMostOneSync _ h1, statusResponses_of_isRelay _ h2,
    dispatcherActions_of_isRelay _ h2, ?_⟩
  intro thr late hfire
  obtain ⟨i1, i2, i3⟩ := timeout_check_atMostOneSync thr (elapse late (service cfg s cys).1)
    (atMostOneSync_elapse late _ h1)
  rw [pending_elapse] at i3
  have hstate : (timeout_check thr (elapse late (service cfg s cys).1)).1.ax_state
      = AX_SEARCH_FIRST_FF := by
    by_cases hst : (elapse late (service cfg s cys).1).ax_state = AX_SEARCH_FIRST_FF
    · simp [timeout_check, hst]
    · simp [timeout_check, hst, hfire]
  have hpend : pending (timeout_check thr (elapse late (service cfg s cys).1)).1 = [] := by
    simp [pending, hstate]
  rw [hpend, List.append_nil] at i3
  simp only [process_incoming_USB_data, receive_loop, List.nil_append]
  refine ⟨?_, hstate⟩
  rw [busBytes_append, i3, h3]

theorem pass_through_without_sync_pair_witness :
    busBytes (service dynamixel (Parser.init dynamixel)
        [⟨10, [(0, 0x01), (3, 0xFF)], 2⟩, ⟨10, [(20, 0x02), (0, 0xFF)], 50⟩,
          ⟨10, [(0, 0x03)], 0⟩]).2
        ++ pending (service dynamixel (Parser.init dynamixel)
        [⟨10, [(0, 0x01), (3, 0xFF)], 2⟩, ⟨10, [(20, 0x02), (0, 0xFF)], 50⟩,
          ⟨10, [(0, 0x03)], 0⟩]).1
      = [0x01, 0xFF, 0x02, 0xFF, 0x03] :=
  (pass_through_without_sync_pair dynamixel (Parser.init dynamixel)
    [⟨10, [(0, 0x01), (3, 0xFF)], 2⟩, ⟨10, [(20, 0x02), (0, 0xFF)], 50⟩, ⟨10, [(0, 0x03)], 0⟩]
    rfl rfl (by decide) (by decide)).1

/-- Claim C10 (timeout recovery).  In one service cycle, let `s1` be the parser
after the receive loop and the ticks that follow it.  If `s1` is not idle and
its `receive_timer` exceeds the threshold, the cycle ends with
`pass_bytes(rxbyte_count)`, which writes `rxbyte[0 .. rxbyte_count)` to the bus
in order and makes no status or dispatcher call, and with `ax_state` idle, all
other parser variables as in `s1`.  If `s1` is idle or the timer is at most the
threshold (equality included), the timeout test makes no call and the parser is
`s1`. -/
theorem timeout_recovery (cfg : Config) (receive_timeout : Nat) (s : Parser)
    (received : List (Nat × Nat)) (late : Nat) :
    ((elapse late (receive_loop cfg s received).1).ax_state ≠ AX_SEARCH_FIRST_FF
        ∧ (elapse late (receive_loop cfg s received).1).receive_timer > receive_timeout →
      (process_incoming_USB_data cfg receive_timeout s received late).1
          = { elapse late (receive_loop cfg s received).1 with ax_state := AX_SEARCH_FIRST_FF }
        ∧ (process_incoming_USB_data cfg receive_timeout s received late).2
          = (receive_loop cfg s received).2
            ++ pass_bytes (elapse late (receive_loop cfg s received).1).rxbyte
                (elapse late (receive_loop cfg s received).1).rxbyte_count
        ∧ busBytes (pass_bytes (elapse late (receive_loop cfg s received).1).rxbyte
                (elapse late (receive_loop cfg s received).1).rxbyte_count)
          = (List.range (receive_loop cfg s received).1.rxbyte_count).map
              (fun i => (receive_loop cfg s received).1.rxbyte.getD i 0)
        ∧ statusResponses (pass_bytes (elapse late (receive_loop cfg s received).1).rxbyte
                (elapse late (receive_loop cfg s received).1).rxbyte_count) = []
        ∧ dispatcherActions (pass_bytes (elapse late (receive_loop cfg s received).1).rxbyte
                (elapse late (receive_loop cfg s received).1).rxbyte_count) = [])
      ∧ ((elapse late (receive_loop cfg s received).1).ax_state = AX_SEARCH_FIRST_FF
          ∨ (elapse late (receive_loop cfg s received).1).receive_timer ≤ receive_timeout →
        process_incoming_USB_data cfg receive_timeout s received late
          = (elapse late (receive_loop cfg s received).1, (receive_loop cfg s received).2)) := by
  refine ⟨?_, ?_⟩
  · rintro ⟨hst, htm⟩
    refine ⟨?_, ?_, ?_, statusResponses_of_isRelay _ (isRelay_pass_bytes _ _),
      dispatcherActions_of_isRelay _ (isRelay_pass_bytes _ _)⟩
    · simp [process_incoming_USB_data, timeout_check, hst, htm]
    · simp [process_incoming_USB_data, timeout_check, hst, htm]
    · rw [busBytes_pass_bytes_range, (elapse_fields _ _).2.1, (elapse_fields _ _).2.2.1]
  · intro h
    by_cases hst : (elapse late (receive_loop cfg s received).1).ax_state = AX_SEARCH_FIRST_FF
    · simp [process_incoming_USB_data, timeout_check, hst]
    · have htm : ¬ (receive_timeout < (elapse late (receive_loop cfg s received).1).receive_timer) := by
        rcases h with h | h
        · exact absurd h hst
        · omega
      simp [process_incoming_USB_data, timeout_check, hst, htm]

theorem timeout_recovery_witness :
    (process_incoming_USB_data dynamixel 10 (Parser.init dynamixel)
        [(0, 0xFF), (0, 0xFF), (0, 0xFD), (0, 0x04)] 11).1.ax_state = AX_SEARCH_FIRST_FF
      ∧ busBytes (process_incoming_USB_data dynamixel 10 (Parser.init dynamixel)
        [(0, 0xFF), (0, 0xFF), (0, 0xFD), (0, 0x04)] 11).2 = [0xFF, 0xFF, 0xFD, 0x04]
      ∧ process_incoming_USB_data dynamixel 10 (Parser.init dynamixel)
        [(0, 0xFF), (0, 0xFF), (0, 0xFD), (0, 0x04)] 10
        = (elapse 10 (receive_loop dynamixel (Parser.init dynamixel)
            [(0, 0xFF), (0, 0xFF), (0, 0xFD), (0, 0x04)]).1, []) := by
  have h1 := (timeout_recovery dynamixel 10 (Parser.init dynamixel)
    [(0, 0xFF), (0, 0xFF), (0, 0xFD), (0, 0x04)] 11).1 (by decide)
  have h2 := (timeout_recovery dynamixel 10 (Parser.init dynamixel)
    [(0, 0xFF), (0, 0xFF), (0, 0xFD), (0, 0x04)] 10).2 (by decide)
  refine ⟨?_, ?_, h2⟩
  · rw [h1.1]
  · rw [h1.2.1]; decide

/-! ## The aggregated read, the egress path, the diverter and the buffer invariant -/

/-- An aggregated-read header addressed to the device or to everyone, with a
length in range, brings an idle parser to `AX_GET_PARAMETERS`. -/
theorem reach_sync_read (cfg : Config) (s : Parser) (id L : Nat)
    (hidle : s.ax_state = AX_SEARCH_FIRST_FF)
    (hbuf : s.rxbyte.length = cfg.AX_SYNC_READ_MAX_DEVICES + 8)
    (hid : id = cfg.AX_ID_DEVICE ∨ id = cfg.AX_ID_BROADCAST) (hid255 : id < 0xFF)
    (hL : L < 256) (hr : 1 < L ∧ L < cfg.AX_SYNC_READ_MAX_DEVICES + 4)
    (hS : cfg.AX_CMD_SYNC_READ < 256) :
    (feed cfg s [0xFF, 0xFF, id, L, cfg.AX_CMD_SYNC_READ]).1.ax_state = AX_GET_PARAMETERS := by
  obtain ⟨st, ck, rx, cnt, tm⟩ := s
  obtain ⟨a0, a1, a2, a3, a4, a5, t, hrx, -⟩ := rxbyte_cells rx _ hbuf
  simp only at hidle
  subst hidle hrx
  have hsplit : [0xFF, 0xFF, id, L, cfg.AX_CMD_SYNC_READ]
      = [0xFF, 0xFF, id] ++ [L, cfg.AX_CMD_SYNC_READ] := rfl
  rw [hsplit, feed_append, feed_sync_id cfg ck cnt tm a0 a1 a2 id _ hid255]
  simp only [feed, consume_length_ok cfg ck id a3 L _ hid hL hr]
  simp [consume, mod_byte hS]

theorem int16_of_small (p : Nat) (h : p ≤ 32767) : int16 (p : Int) = (p : Int) := by
  unfold int16
  omega

theorem held_getD (s : Parser) (frame : List Nat) (sum i : Nat) (h : i < frame.length) :
    (held s frame sum).rxbyte.getD i 0 = frame.getD i 0 := by
  simp [held, List.getD_eq_getElem?_getD, List.getElem?_append_left h]

/-- The range test of the aggregated read, in natural numbers -/
theorem dispatch_sync_read (cfg : Config) (rx : List Nat)
    (h4 : rx.getD 4 0 = cfg.AX_CMD_SYNC_READ)
    (hov : (cfg.AX_BUFFER_SIZE - 6) * ((rx.getD 3 0 + 256 - 4) % 256) ≤ 32767) :
    dispatch cfg rx
      = if rx.getD 6 0 = 0 ∨ rx.getD 6 0 + 6 > cfg.AX_BUFFER_SIZE
            ∨ rx.getD 6 0 * ((rx.getD 3 0 + 256 - 4) % 256) + 6
                > cfg.AX_MAX_RETURN_PACKET_SIZE then
          [Event.axStatusPacket cfg.AX_ERROR_RANGE none 0]
        else
          [Event.sync_read (rx.drop 5) ((rx.getD 3 0 : Int) - 2)] := by
  unfold dispatch
  rw [if_pos h4]
  simp only []
  generalize rx.getD 6 0 = r at *
  generalize (rx.getD 3 0 + 256 - 4) % 256 = n at *
  by_cases hbuf : r + 6 > cfg.AX_BUFFER_SIZE
  · have h1 : (r : Int) > (cfg.AX_BUFFER_SIZE : Int) - ((6 : Nat) : Int) := by omega
    rw [if_pos (Or.inr (Or.inl h1)), if_pos (Or.inr (Or.inl hbuf))]
  · have hle : r * n ≤ 32767 :=
      le_trans (Nat.mul_le_mul_right n (by omega)) hov
    have hcast : ((r : Int) * (n : Int)) = ((r * n : Nat) : Int) := by push_cast; rfl
    rw [hcast, int16_of_small _ hle]
    have hiff : (r = 0 ∨ (r : Int) > (cfg.AX_BUFFER_SIZE : Int) - ((6 : Nat) : Int)
          ∨ ((r * n : Nat) : Int) > (cfg.AX_MAX_RETURN_PACKET_SIZE : Int) - ((6 : Nat) : Int))
        ↔ (r = 0 ∨ r + 6 > cfg.AX_BUFFER_SIZE
          ∨ r * n + 6 > cfg.AX_MAX_RETURN_PACKET_SIZE) := by
      generalize r * n = p
      omega
    simp only [hiff]

/-- Claim C11 (aggregated-read bound).  For a checksum-valid aggregated-read
frame addressed to the device or to everyone, with declared length `L` in
range, let `r` be the byte at offset 6 of the held frame and `n` the 8-bit
value of `L - 4` (equal to `L - 4` as soon as `L ≥ 4`, where `r` is the second
parameter byte).  The parser ends idle; it makes exactly the call
`axStatusPacket(AX_ERROR_RANGE, NULL, 0)` when `r = 0`, or `r > AX_BUFFER_SIZE -
6`, or `r * n > AX_MAX_RETURN_PACKET_SIZE - 6`, and exactly the call
`sync_read(&rxbyte[5], L - 2)`, whose first `L - 2` bytes are the frame's
parameters, in every other case, the two boundary values included.  Where the
product is computed (`r ≤ AX_BUFFER_SIZE - 6`) it is at most 32767, given that
`(AX_BUFFER_SIZE - 6) * n` is. -/
theorem sync_read_bound (cfg : Config) (s : Parser) (id L c : Nat) (params : List Nat)
    (hidle : s.ax_state = AX_SEARCH_FIRST_FF)
    (hbuf : s.rxbyte.length = cfg.AX_SYNC_READ_MAX_DEVICES + 8)
    (hmax : cfg.AX_SYNC_READ_MAX_DEVICES + 8 ≤ 256)
    (hid : id = cfg.AX_ID_DEVICE ∨ id = cfg.AX_ID_BROADCAST) (hid255 : id < 0xFF)
    (hr : 1 < L ∧ L < cfg.AX_SYNC_READ_MAX_DEVICES + 4)
    (hS : cfg.AX_CMD_SYNC_READ < 256)
    (hparams : ∀ p ∈ params, p < 256) (hc : c < 256)
    (hlen : params.length + 2 = L)
    (hsum : (id + L + cfg.AX_CMD_SYNC_READ + params.sum + c) % 256 = 0xFF)
    (hov : (cfg.AX_BUFFER_SIZE - 6) * ((L + 256 - 4) % 256) ≤ 32767) :
    (feed cfg s ([0xFF, 0xFF, id, L, cfg.AX_CMD_SYNC_READ] ++ params ++ [c])).1.ax_state
        = AX_SEARCH_FIRST_FF
      ∧ ((held s ([0xFF, 0xFF, id, L, cfg.AX_CMD_SYNC_READ] ++ params ++ [c]) 0).rxbyte.getD 6 0
            = 0
          ∨ (held s ([0xFF, 0xFF, id, L, cfg.AX_CMD_SYNC_READ] ++ params ++ [c]) 0).rxbyte.getD
              6 0 + 6 > cfg.AX_BUFFER_SIZE
          ∨ (held s ([0xFF, 0xFF, id, L, cfg.AX_CMD_SYNC_READ] ++ params ++ [c]) 0).rxbyte.getD
              6 0 * ((L + 256 - 4) % 256) + 6 > cfg.AX_MAX_RETURN_PACKET_SIZE →
        (feed cfg s ([0xFF, 0xFF, id, L, cfg.AX_CMD_SYNC_READ] ++ params ++ [c])).2
          = [Event.axStatusPacket cfg.AX_ERROR_RANGE none 0])
      ∧ (¬ ((held s ([0xFF, 0xFF, id, L, cfg.AX_CMD_SYNC_READ] ++ params ++ [c]) 0).rxbyte.getD
              6 0 = 0
          ∨ (held s ([0xFF, 0xFF, id, L, cfg.AX_CMD_SYNC_READ] ++ params ++ [c]) 0).rxbyte.getD
              6 0 + 6 > cfg.AX_BUFFER_SIZE
          ∨ (held s ([0xFF, 0xFF, id, L, cfg.AX_CMD_SYNC_READ] ++ params ++ [c]) 0).rxbyte.getD
              6 0 * ((L + 256 - 4) % 256) + 6 > cfg.AX_MAX_RETURN_PACKET_SIZE) →
        (feed cfg s ([0xFF, 0xFF, id, L, cfg.AX_CMD_SYNC_READ] ++ params ++ [c])).2
            = [Event.sync_read
                ((held s ([0xFF, 0xFF, id, L, cfg.AX_CMD_SYNC_READ] ++ params ++ [c])
                  0).rxbyte.drop 5)
                ((L : Int) - 2)]
          ∧ ((held s ([0xFF, 0xFF, id, L, cfg.AX_CMD_SYNC_READ] ++ params ++ [c])
                0).rxbyte.drop 5).take (L - 2) = params)
      ∧ ((held s ([0xFF, 0xFF, id, L, cfg.AX_CMD_SYNC_READ] ++ params ++ [c]) 0).rxbyte.getD
            6 0 + 6 ≤ cfg.AX_BUFFER_SIZE →
        (held s ([0xFF, 0xFF, id, L, cfg.AX_CMD_SYNC_READ] ++ params ++ [c]) 0).rxbyte.getD
            6 0 * ((L + 256 - 4) % 256) ≤ 32767)
      ∧ (4 ≤ L →
        (L + 256 - 4) % 256 = L - 4
          ∧ (held s ([0xFF, 0xFF, id, L, cfg.AX_CMD_SYNC_READ] ++ params ++ [c]) 0).rxbyte.getD
              6 0 = params.getD 1 0) := by
  have hL : L < 256 := by omega
  have hreach := reach_sync_read cfg s id L hidle hbuf hid hid255 hL hr hS
  have hout := frame_outcome cfg s id L cfg.AX_CMD_SYNC_READ c params hidle hbuf hmax
    (by omega) hL hS hparams hc hlen hreach
  rw [if_pos hsum] at hout
  have hrx : ∀ k, (held s ([0xFF, 0xFF, id, L, cfg.AX_CMD_SYNC_READ] ++ params ++ [c]) k).rxbyte
      = (held s ([0xFF, 0xFF, id, L, cfg.AX_CMD_SYNC_READ] ++ params ++ [c]) 0).rxbyte :=
    fun _ => rfl
  rw [hrx] at hout
  generalize hH : (held s ([0xFF, 0xFF, id, L, cfg.AX_CMD_SYNC_READ] ++ params ++ [c])
    0).rxbyte = rx at *
  have h3 : rx.getD 3 0 = L := by rw [← hH]; simp [held]
  have h4 : rx.getD 4 0 = cfg.AX_CMD_SYNC_READ := by rw [← hH]; simp [held]
  have hdisp := dispatch_sync_read cfg rx h4 (by rw [h3]; exact hov)
  rw [h3] at hdisp
  rw [hout]
  refine ⟨rfl, ?_, ?_, ?_, ?_⟩
  · intro h
    simp only [hdisp, if_pos h]
  · intro h
    refine ⟨by simp only [hdisp, if_neg h], ?_⟩
    rw [← hH]
    have : L - 2 = params.length := by omega
    simp [held, this]
  · intro h
    exact le_trans (Nat.mul_le_mul_right _ (by omega)) hov
  · intro h4L
    refine ⟨by omega, ?_⟩
    rw [← hH]
    rcases params with _ | ⟨p1, _ | ⟨p2, ps⟩⟩
    · simp only [List.length_nil] at hlen; omega
    · simp only [List.length_cons, List.length_nil] at hlen; omega
    · simp [held]

theorem sync_read_bound_witness :
    (feed dynamixel (Parser.init dynamixel)
        ([0xFF, 0xFF, 0xFD, 7, dynamixel.AX_CMD_SYNC_READ] ++ [0x24, 26, 1, 2, 3] ++ [51])).2
      = [Event.sync_read
          ((held (Parser.init dynamixel)
            ([0xFF, 0xFF, 0xFD, 7, dynamixel.AX_CMD_SYNC_READ] ++ [0x24, 26, 1, 2, 3] ++ [51])
            0).rxbyte.drop 5)
          ((7 : Int) - 2)] :=
  ((sync_read_bound dynamixel (Parser.init dynamixel) 0xFD 7 51 [0x24, 26, 1, 2, 3] rfl rfl
    (by decide) (Or.inl rfl) (by decide) (by decide) (by decide) (by decide) (by decide) rfl
    (by decide) (by decide)).2.2.1 (by decide)).1

theorem load_bank_eq (n : Nat) : ∀ (buffer : List Nat), n ≤ buffer.length →
    load_bank n buffer = (buffer.drop n, (buffer.take n).map UsbEvent.Endpoint_Write_8) := by
  induction n with
  | zero => intro buffer _; simp [load_bank]
  | succ n ih =>
    intro buffer h
    match buffer, h with
    | d :: rest, h =>
      simp only [List.length_cons] at h
      simp [load_bank, RingBuffer_Remove, ih rest (by omega)]

theorem hostBytesWritten_append (xs ys : List UsbEvent) :
    hostBytesWritten (xs ++ ys) = hostBytesWritten xs ++ hostBytesWritten ys := by
  induction xs with
  | nil => rfl
  | cons e es ih => cases e <;> simp [hostBytesWritten, ih]

theorem hostBytesWritten_map (l : List Nat) :
    hostBytesWritten (l.map UsbEvent.Endpoint_Write_8) = l := by
  induction l with
  | nil => rfl
  | cons a l ih => simp [hostBytesWritten, ih]

theorem framesCommitted_map (l : List Nat) :
    framesCommitted (l.map UsbEvent.Endpoint_Write_8) = 0 := by
  induction l with
  | nil => rfl
  | cons a l ih =>
    simp only [framesCommitted] at ih ⊢
    simp [List.count_cons, ih]

theorem hostBytesWritten_load_bank (n : Nat) : ∀ (buffer : List Nat),
    (hostBytesWritten (load_bank n buffer).2).length = n := by
  induction n with
  | zero => intro buffer; rfl
  | succ n ih =>
    intro buffer
    simp [load_bank, hostBytesWritten, ih]

/-- Claim C12 (egress flush on timeout only).  With the IN endpoint ready and
`N` bytes queued, `0 < N < CDC_TXRX_EPSIZE`: while `send_timer` is at most the
send timeout, `send_USB_data` makes no call and changes nothing; once
`send_timer` exceeds it, one call writes the `N` bytes to the endpoint in FIFO
order, commits one frame, and leaves the queue empty, `send_timer = 0` and
`needEmptyPacket` false. -/
theorem egress_flush_on_timeout (CDC_TXRX_EPSIZE send_timeout : Nat) (e : Egress)
    (hpos : 0 < e.ToUSB_Buffer.length)
    (hsmall : e.ToUSB_Buffer.length < CDC_TXRX_EPSIZE)
    (hcap : e.ToUSB_Buffer.length ≤ 254) :
    (e.send_timer ≤ send_timeout →
        send_USB_data CDC_TXRX_EPSIZE send_timeout true e = (e, []))
      ∧ (e.send_timer > send_timeout →
        send_USB_data CDC_TXRX_EPSIZE send_timeout true e
            = ({ ToUSB_Buffer := [], send_timer := 0, needEmptyPacket := false },
                e.ToUSB_Buffer.map UsbEvent.Endpoint_Write_8 ++ [UsbEvent.Endpoint_ClearIN])
          ∧ hostBytesWritten (send_USB_data CDC_TXRX_EPSIZE send_timeout true e).2
            = e.ToUSB_Buffer
          ∧ framesCommitted (send_USB_data CDC_TXRX_EPSIZE send_timeout true e).2 = 1) := by
  have hcount : RingBuffer_GetCount e.ToUSB_Buffer = e.ToUSB_Buffer.length := by
    unfold RingBuffer_GetCount; omega
  have hne : e.ToUSB_Buffer.length ≠ 0 := by omega
  have hnot : ¬ (e.ToUSB_Buffer.length ≥ CDC_TXRX_EPSIZE) := by omega
  refine ⟨?_, ?_⟩
  · intro ht
    have ht' : ¬ (e.send_timer > send_timeout) := by omega
    simp [send_USB_data, hcount, hne, hnot, ht']
  · intro ht
    have hmin : min e.ToUSB_Buffer.length CDC_TXRX_EPSIZE % 256 = e.ToUSB_Buffer.length := by
      rw [Nat.min_eq_left (by omega)]; omega
    have hcall : send_USB_data CDC_TXRX_EPSIZE send_timeout true e
        = ({ ToUSB_Buffer := [], send_timer := 0, needEmptyPacket := false },
            e.ToUSB_Buffer.map UsbEvent.Endpoint_Write_8 ++ [UsbEvent.Endpoint_ClearIN]) := by
      simp [send_USB_data, hcount, hne, ht, hmin, load_bank_eq _ _ (le_refl _),
        Endpoint_IsReadWriteAllowed, hsmall]
    refine ⟨hcall, ?_, ?_⟩
    · rw [hcall, hostBytesWritten_append, hostBytesWritten_map]
      simp [hostBytesWritten]
    · rw [hcall]
      simp only [framesCommitted, List.count_append]
      have := framesCommitted_map e.ToUSB_Buffer
      simp only [framesCommitted] at this
      rw [this]; rfl

theorem egress_flush_on_timeout_witness :
    send_USB_data 16 5 true ⟨[1, 2, 3], 5, true⟩ = (⟨[1, 2, 3], 5, true⟩, [])
      ∧ send_USB_data 16 5 true ⟨[1, 2, 3], 6, true⟩
        = (⟨[], 0, false⟩,
            [UsbEvent.Endpoint_Write_8 1, UsbEvent.Endpoint_Write_8 2,
              UsbEvent.Endpoint_Write_8 3, UsbEvent.Endpoint_ClearIN]) :=
  ⟨(egress_flush_on_timeout 16 5 ⟨[1, 2, 3], 5, true⟩ (by decide) (by decide) (by decide)).1
      (by decide),
    ((egress_flush_on_timeout 16 5 ⟨[1, 2, 3], 6, true⟩ (by decide) (by decide)
      (by decide)).2 (by decide)).1⟩

/-- Claim C13 (empty-frame obligation).  With the IN endpoint ready and exactly
`CDC_TXRX_EPSIZE` bytes queued, whatever `send_timer` and the thresholds are,
one call of `send_USB_data` writes them all in FIFO order, commits the frame
and sets `needEmptyPacket`; the next call commits one empty frame and clears
the flag; a further call does nothing.  For any call at all, at most
`CDC_TXRX_EPSIZE` bytes are moved, and a call that moves some but fewer than
`CDC_TXRX_EPSIZE` bytes leaves `needEmptyPacket` false. -/
theorem empty_frame_obligation (CDC_TXRX_EPSIZE : Nat) (t1 t2 t3 : Nat) (e : Egress)
    (hpos : 0 < CDC_TXRX_EPSIZE)
    (hfull : e.ToUSB_Buffer.length = CDC_TXRX_EPSIZE)
    (hcap : e.ToUSB_Buffer.length ≤ 254) :
    send_USB_data CDC_TXRX_EPSIZE t1 true e
        = ({ ToUSB_Buffer := [], send_timer := 0, needEmptyPacket := true },
            e.ToUSB_Buffer.map UsbEvent.Endpoint_Write_8 ++ [UsbEvent.Endpoint_ClearIN])
      ∧ send_USB_data CDC_TXRX_EPSIZE t2 true (send_USB_data CDC_TXRX_EPSIZE t1 true e).1
        = ({ ToUSB_Buffer := [], send_timer := 0, needEmptyPacket := false },
            [UsbEvent.Endpoint_ClearIN])
      ∧ send_USB_data CDC_TXRX_EPSIZE t3 true
          (send_USB_data CDC_TXRX_EPSIZE t2 true (send_USB_data CDC_TXRX_EPSIZE t1 true e).1).1
        = ({ ToUSB_Buffer := [], send_timer := 0, needEmptyPacket := false }, [])
      ∧ (∀ (size timeout : Nat) (ready : Bool) (x : Egress),
          (hostBytesWritten (send_USB_data size timeout ready x).2).length ≤ size
            ∧ (0 < (hostBytesWritten (send_USB_data size timeout ready x).2).length
                ∧ (hostBytesWritten (send_USB_data size timeout ready x).2).length < size →
              (send_USB_data size timeout ready x).1.needEmptyPacket = false)) := by
  subst hfull
  have hcount : RingBuffer_GetCount e.ToUSB_Buffer = e.ToUSB_Buffer.length := by
    unfold RingBuffer_GetCount; omega
  have hne : e.ToUSB_Buffer.length ≠ 0 := by omega
  have hmod : e.ToUSB_Buffer.length % 256 = e.ToUSB_Buffer.length := by omega
  have h1 : send_USB_data e.ToUSB_Buffer.length t1 true e
      = ({ ToUSB_Buffer := [], send_timer := 0, needEmptyPacket := true },
          e.ToUSB_Buffer.map UsbEvent.Endpoint_Write_8 ++ [UsbEvent.Endpoint_ClearIN]) := by
    simp [send_USB_data, hcount, hne, hmod, load_bank_eq _ _ (le_refl _),
      Endpoint_IsReadWriteAllowed]
  have h2 : send_USB_data e.ToUSB_Buffer.length t2 true
      { ToUSB_Buffer := [], send_timer := 0, needEmptyPacket := true }
      = ({ ToUSB_Buffer := [], send_timer := 0, needEmptyPacket := false },
          [UsbEvent.Endpoint_ClearIN]) := by
    simp [send_USB_data, RingBuffer_GetCount]
  have h3 : send_USB_data e.ToUSB_Buffer.length t3 true
      { ToUSB_Buffer := [], send_timer := 0, needEmptyPacket := false }
      = ({ ToUSB_Buffer := [], send_timer := 0, needEmptyPacket := false }, []) := by
    simp [send_USB_data, RingBuffer_GetCount]
  refine ⟨h1, by rw [h1, h2], by rw [h1, h2, h3], ?_⟩
  intro size timeout ready x
  by_cases hready : ready = true
  · by_cases hc : RingBuffer_GetCount x.ToUSB_Buffer = 0
    · by_cases hneed : x.needEmptyPacket = true
      · simp [send_USB_data, hready, hc, hneed, hostBytesWritten]
      · simp [send_USB_data, hready, hc, hneed, hostBytesWritten]
    · by_cases hflush : RingBuffer_GetCount x.ToUSB_Buffer ≥ size ∨ x.send_timer > timeout
      · have hle : min (RingBuffer_GetCount x.ToUSB_Buffer) size % 256 ≤ size :=
          le_trans (Nat.mod_le _ _) (Nat.min_le_right _ _)
        simp only [send_USB_data, hready, if_true, ne_eq, hc, not_false_eq_true, hflush,
          hostBytesWritten_append, List.length_append, hostBytesWritten_load_bank]
        refine ⟨by simpa [hostBytesWritten] using hle, ?_⟩
        intro h
        simp only [hostBytesWritten, List.length_nil, Nat.add_zero] at h
        simp [Endpoint_IsReadWriteAllowed, h.2]
      · simp [send_USB_data, hready, hc, hflush, hostBytesWritten]
  · simp [send_USB_data, hready, hostBytesWritten]

theorem empty_frame_obligation_witness :
    send_USB_data 4 9 true ⟨[1, 2, 3, 4], 0, false⟩
        = (⟨[], 0, true⟩,
            [UsbEvent.Endpoint_Write_8 1, UsbEvent.Endpoint_Write_8 2,
              UsbEvent.Endpoint_Write_8 3, UsbEvent.Endpoint_Write_8 4,
              UsbEvent.Endpoint_ClearIN])
      ∧ send_USB_data 4 9 true (send_USB_data 4 9 true ⟨[1, 2, 3, 4], 0, false⟩).1
        = (⟨[], 0, false⟩, [UsbEvent.Endpoint_ClearIN]) :=
  ⟨(empty_frame_obligation 4 9 9 9 ⟨[1, 2, 3, 4], 0, false⟩ (by decide) rfl (by decide)).1,
    (empty_frame_obligation 4 9 9 9 ⟨[1, 2, 3, 4], 0, false⟩ (by decide) rfl (by decide)).2.1⟩

theorem feed_eq_receive_loop (cfg : Config) (bytes : List Nat) :
    ∀ q : Parser, feed cfg q bytes = receive_loop cfg q (bytes.map (fun b => (0, b))) := by
  induction bytes with
  | nil => intro q; rfl
  | cons b bs ih =>
    intro q
    simp only [feed, List.map_cons, receive_loop, ih]
    rfl

theorem feed_atMostOneSync (cfg : Config) (bytes : List Nat) (q : Parser)
    (h : AtMostOneSync q) (hb : ∀ b ∈ bytes, b < 256) (hpair : NoSyncPair (pending q ++ bytes)) :
    AtMostOneSync (feed cfg q bytes).1
      ∧ (∀ e ∈ (feed cfg q bytes).2, e.isRelay = true)
      ∧ busBytes (feed cfg q bytes).2 ++ pending (feed cfg q bytes).1 = pending q ++ bytes := by
  have hmap : (bytes.map (fun b => ((0 : Nat), b))).map Prod.snd = bytes := by
    simp [List.map_map, Function.comp_def]
  have := receive_loop_atMostOneSync cfg (bytes.map (fun b => (0, b))) q h
    (by rw [hmap]; exact hb) (by rw [hmap]; exact hpair)
  rw [hmap, ← feed_eq_receive_loop] at this
  exact this

/-- Claim C14 as stated fails: the device-addressed frame `[0xFF, 0xFF, 0xFD,
0x01, 0x07]` declares the out-of-range length 1; the range error is answered
at the length byte and the header is relayed, after which the byte 0x07 of the
parameter region is written to the bus as well. -/
theorem out_of_range_region_reaches_bus :
    (dynamixel.AX_ID_DEVICE = 0xFD ∧ (0x01 ≤ 1 ∨ dynamixel.AX_SYNC_READ_MAX_DEVICES + 4 ≤ 0x01))
      ∧ (feed dynamixel (Parser.init dynamixel) [0xFF, 0xFF, 0xFD, 0x01]).2
        = [Event.axStatusPacket dynamixel.AX_ERROR_RANGE none 0, Event.setTX,
            Event.serial_write 0xFF, Event.serial_write 0xFF, Event.serial_write 0xFD,
            Event.serial_write 0x01]
      ∧ busBytes (feed dynamixel (Parser.init dynamixel) ([0xFF, 0xFF, 0xFD, 0x01] ++ [0x07])).2
        = [0xFF, 0xFF, 0xFD, 0x01] ++ [0x07] := by
  decide

/-- Claim C14, amended.  For a device-addressed frame whose declared length `L`
is out of range, fed whole from idle, with no two neighbouring 0xFF among `L`
and the bytes that follow it: exactly one status response is made, the range
error, no dispatcher action occurs, and every byte of the frame, header and
parameter region alike, is written to the bus in order, at most one trailing
0xFF staying pending. -/
theorem out_of_range_frame_relayed (cfg : Config) (s : Parser) (L : Nat) (region : List Nat)
    (hidle : s.ax_state = AX_SEARCH_FIRST_FF)
    (hbuf : s.rxbyte.length = cfg.AX_SYNC_READ_MAX_DEVICES + 8)
    (hid255 : cfg.AX_ID_DEVICE < 0xFF) (hL : L < 256)
    (hout : L ≤ 1 ∨ cfg.AX_SYNC_READ_MAX_DEVICES + 4 ≤ L)
    (hregion : ∀ b ∈ region, b < 256)
    (hpair : NoSyncPair (L :: region)) :
    statusResponses (feed cfg s ([0xFF, 0xFF, cfg.AX_ID_DEVICE, L] ++ region)).2
        = [Event.axStatusPacket cfg.AX_ERROR_RANGE none 0]
      ∧ dispatcherActions (feed cfg s ([0xFF, 0xFF, cfg.AX_ID_DEVICE, L] ++ region)).2 = []
      ∧ busBytes (feed cfg s ([0xFF, 0xFF, cfg.AX_ID_DEVICE, L] ++ region)).2
          ++ pending (feed cfg s ([0xFF, 0xFF, cfg.AX_ID_DEVICE, L] ++ region)).1
        = [0xFF, 0xFF, cfg.AX_ID_DEVICE, L] ++ region
      ∧ (pending (feed cfg s ([0xFF, 0xFF, cfg.AX_ID_DEVICE, L] ++ region)).1 = []
        ∨ pending (feed cfg s ([0xFF, 0xFF, cfg.AX_ID_DEVICE, L] ++ region)).1 = [0xFF]) := by
  obtain ⟨st, ck, rx, cnt, tm⟩ := s
  obtain ⟨a0, a1, a2, a3, a4, a5, t, hrx, -⟩ := rxbyte_cells rx _ hbuf
  simp only at hidle
  subst hidle hrx
  have hr' : ¬ (1 < L ∧ L < cfg.AX_SYNC_READ_MAX_DEVICES + 4) := by omega
  have hhead : feed cfg ⟨AX_SEARCH_FIRST_FF, ck, a0 :: a1 :: a2 :: a3 :: a4 :: a5 :: t, cnt, tm⟩
      [0xFF, 0xFF, cfg.AX_ID_DEVICE, L]
      = ((cleanupInputParser ⟨AX_SEARCH_LENGTH, ck,
            0xFF :: 0xFF :: cfg.AX_ID_DEVICE :: L :: a4 :: a5 :: t, 4, 0⟩).1,
          Event.axStatusPacket cfg.AX_ERROR_RANGE none 0
            :: (cleanupInputParser ⟨AX_SEARCH_LENGTH, ck,
                0xFF :: 0xFF :: cfg.AX_ID_DEVICE :: L :: a4 :: a5 :: t, 4, 0⟩).2) := by
    have hsplit : [0xFF, 0xFF, cfg.AX_ID_DEVICE, L] = [0xFF, 0xFF, cfg.AX_ID_DEVICE] ++ [L] :=
      rfl
    rw [hsplit, feed_append, feed_sync_id cfg ck cnt tm a0 a1 a2 _ _ hid255]
    simp [feed, consume_length_range cfg ck _ a3 L _ (Or.inl rfl) hL hr']
  generalize hq : (⟨AX_SEARCH_LENGTH, ck,
      0xFF :: 0xFF :: cfg.AX_ID_DEVICE :: L :: a4 :: a5 :: t, 4, 0⟩ : Parser) = q at hhead
  have hcons := cleanup_conserves q (by rw [← hq]; simp) (by rw [← hq]; simp)
    (by rw [← hq]; simp) (by rw [← hq]; rfl)
  have htake : q.rxbyte.take q.rxbyte_count = [0xFF, 0xFF, cfg.AX_ID_DEVICE, L] := by
    rw [← hq]; rfl
  rw [htake] at hcons
  have hone : AtMostOneSync (cleanupInputParser q).1 := by
    rw [← hq]
    rw [cleanup_length]
    split
    · exact ⟨by simp, Or.inr ⟨rfl, rfl, rfl⟩⟩
    · exact ⟨by simp, Or.inl rfl⟩
  have hpend : NoSyncPair (pending (cleanupInputParser q).1 ++ region) := by
    have hp : pending (cleanupInputParser q).1 = [] ∨ pending (cleanupInputParser q).1 = [L] := by
      rw [← hq, cleanup_length]
      split
      · rename_i h; right; subst h; simp [pending]
      · left; simp [pending]
    rcases hp with hp | hp
    · rw [hp]
      exact @NoSyncPair.right_of_append [L] region hpair
    · rw [hp]; exact hpair
  obtain ⟨i1, i2, i3⟩ := feed_atMostOneSync cfg region (cleanupInputParser q).1 hone hregion hpend
  rw [feed_append, hhead]
  simp only
  refine ⟨?_, ?_, ?_, pending_of_atMostOneSync _ i1⟩
  · rw [statusResponses_append, statusResponses_of_isRelay _ i2, List.append_nil]
    have : statusResponses (cleanupInputParser q).2 = [] :=
      statusResponses_of_isRelay _ (isRelay_cleanup q)
    simp only [statusResponses] at this ⊢
    simp [List.filter_cons, Event.isStatus, this]
  · rw [dispatcherActions_append, dispatcherActions_of_isRelay _ i2, List.append_nil]
    have : dispatcherActions (cleanupInputParser q).2 = [] :=
      dispatcherActions_of_isRelay _ (isRelay_cleanup q)
    simp only [dispatcherActions] at this ⊢
    simp [List.filter_cons, Event.isAction, this]
  · rw [busBytes_append, List.append_assoc, i3, ← List.append_assoc]
    have : busBytes (Event.axStatusPacket cfg.AX_ERROR_RANGE none 0 :: (cleanupInputParser q).2)
        = busBytes (cleanupInputParser q).2 := rfl
    rw [this, hcons]

theorem out_of_range_frame_relayed_witness :
    statusResponses (feed dynamixel (Parser.init dynamixel)
        ([0xFF, 0xFF, dynamixel.AX_ID_DEVICE, 0x28] ++ [0x02, 0x10, 0x02, 0xEA])).2
        = [Event.axStatusPacket dynamixel.AX_ERROR_RANGE none 0]
      ∧ dispatcherActions (feed dynamixel (Parser.init dynamixel)
        ([0xFF, 0xFF, dynamixel.AX_ID_DEVICE, 0x28] ++ [0x02, 0x10, 0x02, 0xEA])).2 = []
      ∧ busBytes (feed dynamixel (Parser.init dynamixel)
          ([0xFF, 0xFF, dynamixel.AX_ID_DEVICE, 0x28] ++ [0x02, 0x10, 0x02, 0xEA])).2
          ++ pending (feed dynamixel (Parser.init dynamixel)
          ([0xFF, 0xFF, dynamixel.AX_ID_DEVICE, 0x28] ++ [0x02, 0x10, 0x02, 0xEA])).1
        = [0xFF, 0xFF, dynamixel.AX_ID_DEVICE, 0x28] ++ [0x02, 0x10, 0x02, 0xEA] :=
  ⟨(out_of_range_frame_relayed dynamixel (Parser.init dynamixel) 0x28 [0x02, 0x10, 0x02, 0xEA]
      rfl rfl (by decide) (by decide) (by decide) (by decide) (by decide)).1,
    (out_of_range_frame_relayed dynamixel (Parser.init dynamixel) 0x28 [0x02, 0x10, 0x02, 0xEA]
      rfl rfl (by decide) (by decide) (by decide) (by decide) (by decide)).2.1,
    (out_of_range_frame_relayed dynamixel (Parser.init dynamixel) 0x28 [0x02, 0x10, 0x02, 0xEA]
      rfl rfl (by decide) (by decide) (by decide) (by decide) (by decide)).2.2.1⟩

/-- Claim C15 as stated fails: in capture mode with `local_rx_buffer_count`
equal to `AX_BUFFER_SIZE` (32 here), the received byte 0x07 is not stored:
buffer and count are left as they were. -/
theorem diverter_drops_byte_when_full :
    (USART1_RX_vect dynamixel true 0x07
        ⟨Parser.init dynamixel, ⟨[], 3, false⟩, false, List.replicate 32 0, 32, 9⟩).local_rx_buffer
        = List.replicate 32 0
      ∧ (USART1_RX_vect dynamixel true 0x07
        ⟨Parser.init dynamixel, ⟨[], 3, false⟩, false, List.replicate 32 0, 32, 9⟩).local_rx_buffer_count
        = 32
      ∧ 0x07 ∉ (USART1_RX_vect dynamixel true 0x07
        ⟨Parser.init dynamixel, ⟨[], 3, false⟩, false, List.replicate 32 0, 32, 9⟩).local_rx_buffer := by
  decide

/-- Claim C15, amended.  For a bus byte `b` handled by `ISR(USART1_RX_vect)`:
in pass-through mode `b` is appended to the egress queue and `send_timer`
becomes 0, nothing else changing; otherwise `usart_timer` becomes 0, the egress
path is unchanged, and `b` is stored at position `local_rx_buffer_count`, the
count advancing by one, only if `local_rx_buffer_count < AX_BUFFER_SIZE`: a
byte that finds the buffer full is discarded.  The parser is never modified. -/
theorem reception_diverter_routes (cfg : Config) (AX_PASSTHROUGH : Bool) (b : Nat)
    (f : Firmware) (hb : b < 256) :
    (f.passthrough_mode = AX_PASSTHROUGH →
        USART1_RX_vect cfg AX_PASSTHROUGH b f
          = { f with egress :=
                { f.egress with ToUSB_Buffer := f.egress.ToUSB_Buffer ++ [b], send_timer := 0 } })
      ∧ (f.passthrough_mode ≠ AX_PASSTHROUGH →
          f.local_rx_buffer_count < cfg.AX_BUFFER_SIZE →
        USART1_RX_vect cfg AX_PASSTHROUGH b f
          = { f with local_rx_buffer := f.local_rx_buffer.set f.local_rx_buffer_count b,
                     local_rx_buffer_count := (f.local_rx_buffer_count + 1) % 256,
                     usart_timer := 0 })
      ∧ (f.passthrough_mode ≠ AX_PASSTHROUGH →
          cfg.AX_BUFFER_SIZE ≤ f.local_rx_buffer_count →
        USART1_RX_vect cfg AX_PASSTHROUGH b f = { f with usart_timer := 0 })
      ∧ (USART1_RX_vect cfg AX_PASSTHROUGH b f).parser = f.parser := by
  refine ⟨?_, ?_, ?_, ?_⟩
  · intro h
    simp [USART1_RX_vect, h, cdc_send_byte, RingBuffer_Insert, mod_byte hb]
  · intro h hroom
    simp [USART1_RX_vect, h, hroom, mod_byte hb]
  · intro h hfull
    have : ¬ (f.local_rx_buffer_count < cfg.AX_BUFFER_SIZE) := by omega
    simp [USART1_RX_vect, h, this]
  · unfold USART1_RX_vect
    split
    · rfl
    · simp only []
      split <;> rfl

theorem reception_diverter_routes_witness :
    USART1_RX_vect dynamixel true 0x07
        ⟨Parser.init dynamixel, ⟨[1], 3, false⟩, true, List.replicate 32 0, 0, 9⟩
        = ⟨Parser.init dynamixel, ⟨[1, 0x07], 0, false⟩, true, List.replicate 32 0, 0, 9⟩
      ∧ USART1_RX_vect dynamixel true 0x07
        ⟨Parser.init dynamixel, ⟨[1], 3, false⟩, false, List.replicate 32 0, 2, 9⟩
        = ⟨Parser.init dynamixel, ⟨[1], 3, false⟩, false,
            (List.replicate 32 0).set 2 0x07, 3, 0⟩ :=
  ⟨(reception_diverter_routes dynamixel true 0x07
      ⟨Parser.init dynamixel, ⟨[1], 3, false⟩, true, List.replicate 32 0, 0, 9⟩ (by decide)).1 rfl,
    (reception_diverter_routes dynamixel true 0x07
      ⟨Parser.init dynamixel, ⟨[1], 3, false⟩, false, List.replicate 32 0, 2, 9⟩
      (by decide)).2.1 (by decide) (by decide)⟩

theorem getD_set_ne (l : List Nat) (i j v : Nat) (h : i ≠ j) :
    (l.set i v).getD j 0 = l.getD j 0 := by
  simp [List.getD_eq_getElem?_getD, List.getElem?_set_ne h]

theorem cleanup_rxbyte (q : Parser) : (cleanupInputParser q).1.rxbyte = q.rxbyte := by
  unfold cleanupInputParser
  split <;> rfl

/-- The store made by one loop iteration is the one `writeIndex` names. -/
theorem consume_rxbyte (cfg : Config) (q : Parser) (b : Nat) :
    (consume cfg q b).1.rxbyte
      = match writeIndex q with
        | some i => q.rxbyte.set i (b % 256)
        | none => q.rxbyte := by
  obtain ⟨st, ck, rx, cnt, tm⟩ := q
  cases st <;> simp only [consume, writeIndex]
  · split <;> rfl
  · split
    · rfl
    · rw [cleanup_rxbyte]
  · split <;> rfl
  · split
    · split
      · rfl
      · rw [cleanup_rxbyte]
    · rfl
  · split
    · rfl
    · split
      · split
        · rfl
        · split
          · rfl
          · split
            · rfl
            · split
              · rfl
              · split
                · rfl
                · rw [cleanup_rxbyte]
      · rw [cleanup_rxbyte]
  · split
    · rfl
    · rw [cleanup_rxbyte]
  · split
    · rfl
    · rw [cleanup_rxbyte]
  · split
    · split
      · rw [cleanup_rxbyte]
      · rfl
    · rfl
  · split
    · rfl
    · rw [cleanup_rxbyte]
  · split <;> rfl

theorem framed_cleanup (cfg : Config) (q : Parser)
    (hlen : q.rxbyte.length = cfg.AX_SYNC_READ_MAX_DEVICES + 8)
    (h0 : q.rxbyte.getD 0 0 = 0xFF) :
    Framed cfg (cleanupInputParser q).1 := by
  unfold cleanupInputParser
  split
  · exact ⟨hlen, rfl, h0⟩
  · exact ⟨hlen, trivial⟩

theorem framed_consume (cfg : Config) (q : Parser) (b : Nat)
    (hmax : cfg.AX_SYNC_READ_MAX_DEVICES + 8 ≤ 256) (h : Framed cfg q) :
    Framed cfg (consume cfg q b).1 := by
  obtain ⟨st, ck, rx, cnt, tm⟩ := q
  obtain ⟨hlen, hst⟩ := h
  simp only at hlen hst
  obtain ⟨a0, a1, a2, a3, a4, a5, t, hrx, ht⟩ := rxbyte_cells rx _ hlen
  subst hrx
  cases st <;> simp only [] at hst
  · -- AX_SEARCH_FIRST_FF
    simp only [consume, List.set_cons_zero, List.getD_cons_zero]
    split
    · rename_i hb
      exact ⟨hlen, rfl, hb⟩
    · exact ⟨hlen, trivial⟩
  · -- AX_SEARCH_SECOND_FF
    obtain ⟨hc, h0⟩ := hst
    simp only [List.getD_cons_zero] at h0
    subst hc h0
    simp only [consume, List.set_cons_succ, List.set_cons_zero, List.getD_cons_succ,
      List.getD_cons_zero]
    split
    · exact ⟨hlen, rfl, rfl⟩
    · exact framed_cleanup cfg _ hlen rfl
  · -- AX_SEARCH_ID
    obtain ⟨hc, h0⟩ := hst
    simp only [List.getD_cons_zero] at h0
    subst hc h0
    simp only [consume, List.set_cons_succ, List.set_cons_zero, List.getD_cons_succ,
      List.getD_cons_zero]
    split
    · exact ⟨hlen, rfl, rfl⟩
    · exact ⟨hlen, rfl, rfl⟩
  · -- AX_SEARCH_LENGTH
    obtain ⟨hc, h0⟩ := hst
    simp only [List.getD_cons_zero] at h0
    subst hc h0
    simp only [consume, List.set_cons_succ, List.set_cons_zero, List.getD_cons_succ,
      List.getD_cons_zero]
    split
    · split
      · rename_i hr
        exact ⟨hlen, rfl, rfl, hr.1, hr.2⟩
      · exact framed_cleanup cfg _ hlen rfl
    · exact ⟨hlen, rfl⟩
  · -- AX_SEARCH_COMMAND
    obtain ⟨hc, h0, hr1, hr2⟩ := hst
    simp only [List.getD_cons_zero, List.getD_cons_succ] at h0 hr1 hr2
    subst hc h0
    simp only [consume, List.set_cons_succ, List.set_cons_zero, List.getD_cons_succ,
      List.getD_cons_zero]
    split
    · exact ⟨hlen, by simp, by simp; omega, hr2, rfl⟩
    · split
      · split
        · exact ⟨hlen, rfl, rfl⟩
        · split
          · exact ⟨hlen, rfl, rfl⟩
          · split
            · exact ⟨hlen, rfl, rfl⟩
            · split
              · exact ⟨hlen, by simp, by simp; omega, hr2, rfl⟩
              · split
                · exact ⟨hlen, by simp, by simp; omega, hr2, rfl⟩
                · exact framed_cleanup cfg _ hlen rfl
      · exact framed_cleanup cfg _ hlen rfl
  · -- AX_SEARCH_RESET
    obtain ⟨hc, h0⟩ := hst
    simp only [List.getD_cons_zero] at h0
    subst hc h0
    simp only [consume, List.set_cons_succ, List.set_cons_zero]
    split
    · exact ⟨hlen, rfl, rfl⟩
    · exact framed_cleanup cfg _ hlen rfl
  · -- AX_SEARCH_BOOTLOAD
    obtain ⟨hc, h0⟩ := hst
    simp only [List.getD_cons_zero] at h0
    subst hc h0
    simp only [consume, List.set_cons_succ, List.set_cons_zero]
    split
    · exact ⟨hlen, rfl, rfl⟩
    · exact framed_cleanup cfg _ hlen rfl
  · -- AX_GET_PARAMETERS
    obtain ⟨hc5, hcL, hL, h0⟩ := hst
    simp only [List.getD_cons_zero, List.getD_cons_succ] at h0 hcL hL
    subst h0
    have hlen2 : ((255 :: a1 :: a2 :: a3 :: a4 :: a5 :: t).set cnt (b % 256)).length
        = cfg.AX_SYNC_READ_MAX_DEVICES + 8 := by
      rw [List.length_set]; exact hlen
    have hg0 : ((255 :: a1 :: a2 :: a3 :: a4 :: a5 :: t).set cnt (b % 256)).getD 0 0 = 255 := by
      rw [getD_set_ne _ _ _ _ (by omega)]; rfl
    have hg3 : ((255 :: a1 :: a2 :: a3 :: a4 :: a5 :: t).set cnt (b % 256)).getD 3 0 = a3 := by
      rw [getD_set_ne _ _ _ _ (by omega)]; rfl
    have hcnt : (cnt + 1) % 256 = cnt + 1 := by omega
    simp only [consume, hg3, hcnt]
    split
    · split
      · exact framed_cleanup cfg _ hlen2 hg0
      · exact ⟨hlen2, trivial⟩
    · rename_i hnot
      refine ⟨hlen2, ?_⟩
      simp only [hg3, hg0]
      exact ⟨by omega, by omega, hL, trivial⟩
  · -- AX_SEARCH_PING
    obtain ⟨hc, h0⟩ := hst
    simp only [List.getD_cons_zero] at h0
    subst hc h0
    simp only [consume, List.set_cons_succ, List.set_cons_zero]
    split
    · exact ⟨hlen, trivial⟩
    · exact framed_cleanup cfg _ hlen rfl
  · -- AX_PASS_TO_SERVOS
    simp only [List.getD_cons_zero] at hst
    subst hst
    simp only [consume]
    split
    · exact ⟨hlen, trivial⟩
    · exact ⟨hlen, rfl⟩

theorem framed_elapse (cfg : Config) (n : Nat) (q : Parser) (h : Framed cfg q) :
    Framed cfg (elapse n q) := by
  obtain ⟨h1, h2, h3, -⟩ := elapse_fields n q
  unfold Framed
  rw [h1, h2, h3]
  exact h

theorem framed_timeout_check (cfg : Config) (thr : Nat) (q : Parser) (h : Framed cfg q) :
    Framed cfg (timeout_check thr q).1 := by
  unfold timeout_check
  split
  · split
    · exact ⟨h.1, trivial⟩
    · exact h
  · exact h

theorem framed_receive_loop (cfg : Config) (hmax : cfg.AX_SYNC_READ_MAX_DEVICES + 8 ≤ 256) :
    ∀ (received : List (Nat × Nat)) (q : Parser), Framed cfg q →
      Framed cfg (receive_loop cfg q received).1 := by
  intro received
  induction received with
  | nil => intro q h; exact h
  | cons x xs ih =>
    intro q h
    obtain ⟨ticks, b⟩ := x
    simp only [receive_loop]
    exact ih _ (framed_consume cfg _ b hmax (framed_elapse cfg ticks q h))

theorem framed_service (cfg : Config) (hmax : cfg.AX_SYNC_READ_MAX_DEVICES + 8 ≤ 256) :
    ∀ (cys : List Cycle) (q : Parser), Framed cfg q → Framed cfg (service cfg q cys).1 := by
  intro cys
  induction cys with
  | nil => intro q h; exact h
  | cons cy cys ih =>
    intro q h
    simp only [service]
    apply ih
    simp only [process_incoming_USB_data]
    exact framed_timeout_check cfg _ _
      (framed_elapse cfg _ _ (framed_receive_loop cfg hmax _ _ h))

theorem framed_midRun (cfg : Config) (s : Parser) (cys : List Cycle)
    (received : List (Nat × Nat))
    (hidle : s.ax_state = AX_SEARCH_FIRST_FF)
    (hbuf : s.rxbyte.length = cfg.AX_SYNC_READ_MAX_DEVICES + 8)
    (hmax : cfg.AX_SYNC_READ_MAX_DEVICES + 8 ≤ 256) :
    Framed cfg (midRun cfg s cys received) := by
  have hs : Framed cfg s := by
    refine ⟨hbuf, ?_⟩
    rw [hidle]
    trivial
  exact framed_receive_loop cfg hmax _ _ (framed_service cfg hmax cys s hs)

/-- Claim C16 (resync procedure contract).  When `cleanup_input_parser` runs
with `n = rxbyte_count ≥ 2` bytes buffered: if `rxbyte[n-1] = 0xFF` it writes
`rxbyte[0 .. n-2]` to the bus in order and sets `AX_SEARCH_SECOND_FF`,
`rxbyte_count = 1`, `receive_timer = 0`, the byte left pending being 0xFF when
`rxbyte[0]` is; otherwise it writes `rxbyte[0 .. n-1]` and sets
`AX_SEARCH_FIRST_FF`.  It makes no status or dispatcher call.  And in every
state reached from idle that is not idle, `rxbyte[0] = 0xFF`, so that the
parser found in `AX_SEARCH_SECOND_FF` has exactly one 0xFF pending. -/
theorem resync_contract (cfg : Config) (q : Parser)
    (h2 : 2 ≤ q.rxbyte_count) (h256 : q.rxbyte_count < 256)
    (hn : q.rxbyte_count ≤ q.rxbyte.length) :
    (q.rxbyte.getD (q.rxbyte_count - 1) 0 = 0xFF →
        busBytes (cleanupInputParser q).2 = q.rxbyte.take (q.rxbyte_count - 1)
          ∧ (cleanupInputParser q).1
            = { q with ax_state := AX_SEARCH_SECOND_FF, rxbyte_count := 1, receive_timer := 0 }
          ∧ (q.rxbyte.getD 0 0 = 0xFF → pending (cleanupInputParser q).1 = [0xFF]))
      ∧ (q.rxbyte.getD (q.rxbyte_count - 1) 0 ≠ 0xFF →
        busBytes (cleanupInputParser q).2 = q.rxbyte.take q.rxbyte_count
          ∧ (cleanupInputParser q).1 = { q with ax_state := AX_SEARCH_FIRST_FF })
      ∧ statusResponses (cleanupInputParser q).2 = []
      ∧ dispatcherActions (cleanupInputParser q).2 = []
      ∧ (∀ (s : Parser) (cys : List Cycle) (received : List (Nat × Nat)),
          s.ax_state = AX_SEARCH_FIRST_FF →
          s.rxbyte.length = cfg.AX_SYNC_READ_MAX_DEVICES + 8 →
          cfg.AX_SYNC_READ_MAX_DEVICES + 8 ≤ 256 →
          (midRun cfg s cys received).ax_state ≠ AX_SEARCH_FIRST_FF →
          (midRun cfg s cys received).rxbyte.getD 0 0 = 0xFF
            ∧ ((midRun cfg s cys received).ax_state = AX_SEARCH_SECOND_FF →
              pending (midRun cfg s cys received) = [0xFF])) := by
  have hm : (q.rxbyte_count + 255) % 256 = q.rxbyte_count - 1 := by omega
  refine ⟨?_, ?_, statusResponses_of_isRelay _ (isRelay_cleanup q),
    dispatcherActions_of_isRelay _ (isRelay_cleanup q), ?_⟩
  · intro hlast
    refine ⟨?_, ?_, ?_⟩
    · simp only [cleanupInputParser, if_pos hlast, hm]
      exact busBytes_pass_bytes _ _ (by omega)
    · simp only [cleanupInputParser, if_pos hlast]
    · intro h0
      simp only [cleanupInputParser, if_pos hlast, pending]
      match hq : q.rxbyte, hn, h0 with
      | a :: rest, _, h0 =>
        simp only [List.getD_cons_zero] at h0
        subst h0
        simp
  · intro hlast
    refine ⟨?_, ?_⟩
    · simp only [cleanupInputParser, if_neg hlast]
      exact busBytes_pass_bytes _ _ hn
    · simp only [cleanupInputParser, if_neg hlast]
  · intro s cys received hidle hbuf hmax hst
    obtain ⟨hlen, hf⟩ := framed_midRun cfg s cys received hidle hbuf hmax
    generalize midRun cfg s cys received = m at hst hf hlen
    obtain ⟨st, ck, rx, cnt, tm⟩ := m
    simp only at hst hf hlen ⊢
    have h0 : rx.getD 0 0 = 0xFF := by
      cases st <;> simp only [] at hf
      all_goals first
        | exact absurd rfl hst
        | exact hf.2.2.2
        | exact hf.2.1
        | exact hf.2
        | exact hf
    refine ⟨h0, ?_⟩
    intro hsec
    subst hsec
    have hc : cnt = 1 := hf.1
    subst hc
    match rx, hlen, h0 with
    | a :: rest, _, h0 =>
      simp only [List.getD_cons_zero] at h0
      subst h0
      simp [pending]

theorem resync_contract_witness :
    busBytes (cleanupInputParser
        ⟨AX_SEARCH_COMMAND, 0, [0xFF, 0xFF, 0xFD, 0x04, 0xFF, 0, 0, 0], 5, 3⟩).2
        = [0xFF, 0xFF, 0xFD, 0x04]
      ∧ (cleanupInputParser
        ⟨AX_SEARCH_COMMAND, 0, [0xFF, 0xFF, 0xFD, 0x04, 0xFF, 0, 0, 0], 5, 3⟩).1
        = ⟨AX_SEARCH_SECOND_FF, 0, [0xFF, 0xFF, 0xFD, 0x04, 0xFF, 0, 0, 0], 1, 0⟩
      ∧ pending (cleanupInputParser
        ⟨AX_SEARCH_COMMAND, 0, [0xFF, 0xFF, 0xFD, 0x04, 0xFF, 0, 0, 0], 5, 3⟩).1 = [0xFF] :=
  ⟨((resync_contract dynamixel
      ⟨AX_SEARCH_COMMAND, 0, [0xFF, 0xFF, 0xFD, 0x04, 0xFF, 0, 0, 0], 5, 3⟩
      (by decide) (by decide) (by decide)).1 rfl).1,
    ((resync_contract dynamixel
      ⟨AX_SEARCH_COMMAND, 0, [0xFF, 0xFF, 0xFD, 0x04, 0xFF, 0, 0, 0], 5, 3⟩
      (by decide) (by decide) (by decide)).1 rfl).2.1,
    ((resync_contract dynamixel
      ⟨AX_SEARCH_COMMAND, 0, [0xFF, 0xFF, 0xFD, 0x04, 0xFF, 0, 0, 0], 5, 3⟩
      (by decide) (by decide) (by decide)).1 rfl).2.2 rfl⟩

theorem framed_facts (cfg : Config) (m : Parser) (h : Framed cfg m) :
    (∀ i, writeIndex m = some i → i < cfg.AX_SYNC_READ_MAX_DEVICES + 8)
      ∧ (m.ax_state = AX_SEARCH_SECOND_FF → m.rxbyte_count = 1)
      ∧ (m.ax_state = AX_SEARCH_ID → m.rxbyte_count = 2)
      ∧ (m.ax_state = AX_SEARCH_LENGTH → m.rxbyte_count = 3)
      ∧ (m.ax_state = AX_SEARCH_COMMAND → m.rxbyte_count = 4)
      ∧ (m.ax_state = AX_SEARCH_RESET ∨ m.ax_state = AX_SEARCH_BOOTLOAD
            ∨ m.ax_state = AX_SEARCH_PING → m.rxbyte_count = 5)
      ∧ (m.ax_state = AX_GET_PARAMETERS →
          5 ≤ m.rxbyte_count ∧ m.rxbyte_count ≤ m.rxbyte.getD 3 0 + 3
            ∧ m.rxbyte.getD 3 0 + 3 ≤ cfg.AX_SYNC_READ_MAX_DEVICES + 6) := by
  obtain ⟨st, ck, rx, cnt, tm⟩ := m
  obtain ⟨hlen, hf⟩ := h
  simp only at hf hlen ⊢
  cases st <;> simp only [] at hf <;> simp only [writeIndex]
  all_goals
    refine ⟨fun i hi => ?_, ?_⟩
    · simp at hi
      try omega
    · try simp only [List.getD_eq_getElem?_getD] at hf
      simp
      try omega

/-- Claim C19 (no write past the scratch buffer).  In every state `m` reached
from idle by any host bytes, timer ticks and timeouts, the loop iteration for
the next byte `b` stores it at `writeIndex m`, and that index is below
`AX_SYNC_READ_MAX_DEVICES + 8`, the size of `rxbyte`.  `rxbyte_count` is 1, 2,
3, 4 in `AX_SEARCH_SECOND_FF`, `AX_SEARCH_ID`, `AX_SEARCH_LENGTH`,
`AX_SEARCH_COMMAND`, is 5 in the confirm states, and in `AX_GET_PARAMETERS`
satisfies `5 ≤ rxbyte_count ≤ L + 3 ≤ AX_SYNC_READ_MAX_DEVICES + 6` for the
stored length `L`. -/
theorem rxbyte_writes_in_bounds (cfg : Config) (s : Parser) (cys : List Cycle)
    (received : List (Nat × Nat)) (b : Nat)
    (hidle : s.ax_state = AX_SEARCH_FIRST_FF)
    (hbuf : s.rxbyte.length = cfg.AX_SYNC_READ_MAX_DEVICES + 8)
    (hmax : cfg.AX_SYNC_READ_MAX_DEVICES + 8 ≤ 256) :
    (∀ i, writeIndex (midRun cfg s cys received) = some i →
        i < cfg.AX_SYNC_READ_MAX_DEVICES + 8)
      ∧ (consume cfg (midRun cfg s cys received) b).1.rxbyte
        = (match writeIndex (midRun cfg s cys received) with
          | some i => (midRun cfg s cys received).rxbyte.set i (b % 256)
          | none => (midRun cfg s cys received).rxbyte)
      ∧ (midRun cfg s cys received).rxbyte.length = cfg.AX_SYNC_READ_MAX_DEVICES + 8
      ∧ ((midRun cfg s cys received).ax_state = AX_SEARCH_SECOND_FF →
          (midRun cfg s cys received).rxbyte_count = 1)
      ∧ ((midRun cfg s cys received).ax_state = AX_SEARCH_ID →
          (midRun cfg s cys received).rxbyte_count = 2)
      ∧ ((midRun cfg s cys received).ax_state = AX_SEARCH_LENGTH →
          (midRun cfg s cys received).rxbyte_count = 3)
      ∧ ((midRun cfg s cys received).ax_state = AX_SEARCH_COMMAND →
          (midRun cfg s cys received).rxbyte_count = 4)
      ∧ ((midRun cfg s cys received).ax_state = AX_SEARCH_RESET
            ∨ (midRun cfg s cys received).ax_state = AX_SEARCH_BOOTLOAD
            ∨ (midRun cfg s cys received).ax_state = AX_SEARCH_PING →
          (midRun cfg s cys received).rxbyte_count = 5)
      ∧ ((midRun cfg s cys received).ax_state = AX_GET_PARAMETERS →
          5 ≤ (midRun cfg s cys received).rxbyte_count
            ∧ (midRun cfg s cys received).rxbyte_count
                ≤ (midRun cfg s cys received).rxbyte.getD 3 0 + 3
            ∧ (midRun cfg s cys received).rxbyte.getD 3 0 + 3
                ≤ cfg.AX_SYNC_READ_MAX_DEVICES + 6) := by
  have hf := framed_midRun cfg s cys received hidle hbuf hmax
  exact ⟨(framed_facts cfg _ hf).1, consume_rxbyte cfg _ b, hf.1, (framed_facts cfg _ hf).2⟩

theorem rxbyte_writes_in_bounds_witness :
    5 ≤ (midRun dynamixel (Parser.init dynamixel) [⟨10, [(0, 0xFF), (3, 0xFF)], 2⟩]
          [(0, 0xFD), (1, 0x04), (0, 0x02)]).rxbyte_count
      ∧ (midRun dynamixel (Parser.init dynamixel) [⟨10, [(0, 0xFF), (3, 0xFF)], 2⟩]
          [(0, 0xFD), (1, 0x04), (0, 0x02)]).rxbyte_count
        ≤ (midRun dynamixel (Parser.init dynamixel) [⟨10, [(0, 0xFF), (3, 0xFF)], 2⟩]
          [(0, 0xFD), (1, 0x04), (0, 0x02)]).rxbyte.getD 3 0 + 3
      ∧ (midRun dynamixel (Parser.init dynamixel) [⟨10, [(0, 0xFF), (3, 0xFF)], 2⟩]
          [(0, 0xFD), (1, 0x04), (0, 0x02)]).rxbyte.getD 3 0 + 3
        ≤ dynamixel.AX_SYNC_READ_MAX_DEVICES + 6 :=
  (rxbyte_writes_in_bounds dynamixel (Parser.init dynamixel) [⟨10, [(0, 0xFF), (3, 0xFF)], 2⟩]
    [(0, 0xFD), (1, 0x04), (0, 0x02)] 0 rfl rfl (by decide)).2.2.2.2.2.2.2.2 (by decide)

/-- Claim C17 (rejection conserves host bytes), evaluated where it fails.  The
ping frame `[0xFF, 0xFF, 0xFD, 0x02, 0x01, 0x00]` has a wrong checksum byte.
Before its last byte five bytes are pending; the step that consumes 0x00
writes those five to the bus and leaves nothing pending, so the sixth byte is
neither relayed nor kept: `AX_SEARCH_PING` stores it in `rxbyte[5]` without
counting it. -/
theorem confirm_state_drops_checksum_byte :
    (dynamixel.AX_ID_DEVICE + 2 + dynamixel.AX_CMD_PING + 0x00) % 256 ≠ 255
      ∧ (feed dynamixel (Parser.init dynamixel) [0xFF, 0xFF, 0xFD, 0x02, 0x01]).1.ax_state
        = AX_SEARCH_PING
      ∧ pending (feed dynamixel (Parser.init dynamixel) [0xFF, 0xFF, 0xFD, 0x02, 0x01]).1
        = [0xFF, 0xFF, 0xFD, 0x02, 0x01]
      ∧ (consume dynamixel
          (feed dynamixel (Parser.init dynamixel) [0xFF, 0xFF, 0xFD, 0x02, 0x01]).1 0x00).2
        = [Event.setTX, Event.serial_write 0xFF, Event.serial_write 0xFF,
            Event.serial_write 0xFD, Event.serial_write 0x02, Event.serial_write 0x01]
      ∧ pending (consume dynamixel
          (feed dynamixel (Parser.init dynamixel) [0xFF, 0xFF, 0xFD, 0x02, 0x01]).1 0x00).1 = []
      ∧ busBytes (feed dynamixel (Parser.init dynamixel)
          [0xFF, 0xFF, 0xFD, 0x02, 0x01, 0x00]).2 = [0xFF, 0xFF, 0xFD, 0x02, 0x01]
      ∧ pending (feed dynamixel (Parser.init dynamixel)
          [0xFF, 0xFF, 0xFD, 0x02, 0x01, 0x00]).1 = [] := by
  decide

/-- Claim C18 (a truncated foreign frame is relayed once), evaluated where it
fails.  The host sends `[0xFF, 0xFF, 0x05, 0x03, 0xAA]`, a foreign header
declaring three payload bytes and one of them; all five are relayed as they
arrive.  When the receive timeout then fires in `AX_PASS_TO_SERVOS`,
`pass_bytes(rxbyte_count)` writes `rxbyte[0 .. 5)` again: the header a second
time and a byte 0x00 the host never sent. -/
theorem timeout_in_relay_state_repeats_bytes :
    (process_incoming_USB_data dynamixel 10 (Parser.init dynamixel)
        [(0, 0xFF), (0, 0xFF), (0, 0x05), (0, 0x03), (0, 0xAA)] 11).1.ax_state
        = AX_SEARCH_FIRST_FF
      ∧ busBytes (receive_loop dynamixel (Parser.init dynamixel)
          [(0, 0xFF), (0, 0xFF), (0, 0x05), (0, 0x03), (0, 0xAA)]).2
        = [0xFF, 0xFF, 0x05, 0x03, 0xAA]
      ∧ busBytes (process_incoming_USB_data dynamixel 10 (Parser.init dynamixel)
          [(0, 0xFF), (0, 0xFF), (0, 0x05), (0, 0x03), (0, 0xAA)] 11).2
        = [0xFF, 0xFF, 0x05, 0x03, 0xAA, 0xFF, 0xFF, 0x05, 0x03, 0x00] := by
  decide

/-- Claim C20 as stated fails: the header `[0xFF, 0xFF, 0xFE, 0x04, 0x02]`, a
single-register read addressed to the broadcast id with a length in range, does
not reach `AX_GET_PARAMETERS`; it is relayed and the parser is idle. -/
theorem broadcast_read_is_rejected :
    (1 < 0x04 ∧ 0x04 < dynamixel.AX_SYNC_READ_MAX_DEVICES + 4)
      ∧ (feed dynamixel (Parser.init dynamixel)
          [0xFF, 0xFF, dynamixel.AX_ID_BROADCAST, 0x04, dynamixel.AX_CMD_READ_DATA]).1.ax_state
        = AX_SEARCH_FIRST_FF
      ∧ busBytes (feed dynamixel (Parser.init dynamixel)
          [0xFF, 0xFF, dynamixel.AX_ID_BROADCAST, 0x04, dynamixel.AX_CMD_READ_DATA]).2
        = [0xFF, 0xFF, 0xFE, 0x04, 0x02] := by
  decide

theorem consume_command_cases (cfg : Config) (ck id L a4 instr : Nat) (t : List Nat)
    (hinstr : instr < 256) :
    consume cfg ⟨AX_SEARCH_COMMAND, ck, 0xFF :: 0xFF :: id :: L :: a4 :: t, 4, 0⟩ instr
      = if instr = cfg.AX_CMD_SYNC_READ then
          (⟨AX_GET_PARAMETERS, (id + cfg.AX_CMD_SYNC_READ + L) % 65536,
            0xFF :: 0xFF :: id :: L :: instr :: t, 5, 0⟩, [])
        else if id = cfg.AX_ID_DEVICE then
          if instr = cfg.AX_CMD_PING then
            (⟨AX_SEARCH_PING, ck, 0xFF :: 0xFF :: id :: L :: instr :: t, 5, 0⟩, [])
          else if instr = cfg.AX_CMD_RESET then
            (⟨AX_SEARCH_RESET, ck, 0xFF :: 0xFF :: id :: L :: instr :: t, 5, 0⟩,
              [Event.LEDs_TurnOnLEDs])
          else if instr = cfg.AX_CMD_BOOTLOAD then
            (⟨AX_SEARCH_BOOTLOAD, ck, 0xFF :: 0xFF :: id :: L :: instr :: t, 5, 0⟩, [])
          else if instr = cfg.AX_CMD_READ_DATA then
            (⟨AX_GET_PARAMETERS, (cfg.AX_ID_DEVICE + cfg.AX_CMD_READ_DATA + L) % 65536,
              0xFF :: 0xFF :: id :: L :: instr :: t, 5, 0⟩, [])
          else if instr = cfg.AX_CMD_WRITE_DATA then
            (⟨AX_GET_PARAMETERS, (cfg.AX_ID_DEVICE + cfg.AX_CMD_WRITE_DATA + L) % 65536,
              0xFF :: 0xFF :: id :: L :: instr :: t, 5, 0⟩, [])
          else
            cleanupInputParser
              ⟨AX_SEARCH_COMMAND, ck, 0xFF :: 0xFF :: id :: L :: instr :: t, 5, 0⟩
        else
          cleanupInputParser
            ⟨AX_SEARCH_COMMAND, ck, 0xFF :: 0xFF :: id :: L :: instr :: t, 5, 0⟩ := by
  simp only [consume, mod_byte hinstr, List.set_cons_succ, List.set_cons_zero,
    List.getD_cons_succ, List.getD_cons_zero]

/-- Claim C20, amended.  After a header with the device or broadcast id and a
length `L` in range, the instruction byte selects: `AX_GET_PARAMETERS` with
`ax_checksum = id + instr + L` for an aggregated read with either id, and for
a single-register read or write only when the id is the device id; the confirm
state of ping, reset (with the LED call) or bootload when the id is the device
id; and in every other case, a read or write to the broadcast id included, the
resync procedure, with no status response, no dispatcher action and every byte
relayed or pending.  The six instruction codes are pairwise distinct. -/
theorem instruction_selection (cfg : Config) (s : Parser) (id L instr : Nat)
    (hidle : s.ax_state = AX_SEARCH_FIRST_FF)
    (hbuf : s.rxbyte.length = cfg.AX_SYNC_READ_MAX_DEVICES + 8)
    (hid : id = cfg.AX_ID_DEVICE ∨ id = cfg.AX_ID_BROADCAST) (hid255 : id < 0xFF)
    (hL : L < 256) (hr : 1 < L ∧ L < cfg.AX_SYNC_READ_MAX_DEVICES + 4)
    (hinstr : instr < 256)
    (hcodes : [cfg.AX_CMD_SYNC_READ, cfg.AX_CMD_PING, cfg.AX_CMD_RESET, cfg.AX_CMD_BOOTLOAD,
      cfg.AX_CMD_READ_DATA, cfg.AX_CMD_WRITE_DATA].Nodup) :
    (instr = cfg.AX_CMD_SYNC_READ
          ∨ (id = cfg.AX_ID_DEVICE
            ∧ (instr = cfg.AX_CMD_READ_DATA ∨ instr = cfg.AX_CMD_WRITE_DATA)) →
        (feed cfg s [0xFF, 0xFF, id, L, instr]).1.ax_state = AX_GET_PARAMETERS
          ∧ (feed cfg s [0xFF, 0xFF, id, L, instr]).1.ax_checksum = id + instr + L
          ∧ (feed cfg s [0xFF, 0xFF, id, L, instr]).2 = [])
      ∧ (id = cfg.AX_ID_DEVICE ∧ instr = cfg.AX_CMD_PING →
        (feed cfg s [0xFF, 0xFF, id, L, instr]).1.ax_state = AX_SEARCH_PING
          ∧ (feed cfg s [0xFF, 0xFF, id, L, instr]).2 = [])
      ∧ (id = cfg.AX_ID_DEVICE ∧ instr = cfg.AX_CMD_RESET →
        (feed cfg s [0xFF, 0xFF, id, L, instr]).1.ax_state = AX_SEARCH_RESET
          ∧ (feed cfg s [0xFF, 0xFF, id, L, instr]).2 = [Event.LEDs_TurnOnLEDs])
      ∧ (id = cfg.AX_ID_DEVICE ∧ instr = cfg.AX_CMD_BOOTLOAD →
        (feed cfg s [0xFF, 0xFF, id, L, instr]).1.ax_state = AX_SEARCH_BOOTLOAD
          ∧ (feed cfg s [0xFF, 0xFF, id, L, instr]).2 = [])
      ∧ (instr ≠ cfg.AX_CMD_SYNC_READ
          ∧ (id ≠ cfg.AX_ID_DEVICE
            ∨ (instr ≠ cfg.AX_CMD_PING ∧ instr ≠ cfg.AX_CMD_RESET
              ∧ instr ≠ cfg.AX_CMD_BOOTLOAD ∧ instr ≠ cfg.AX_CMD_READ_DATA
              ∧ instr ≠ cfg.AX_CMD_WRITE_DATA)) →
        ((feed cfg s [0xFF, 0xFF, id, L, instr]).1.ax_state = AX_SEARCH_FIRST_FF
            ∨ (feed cfg s [0xFF, 0xFF, id, L, instr]).1.ax_state = AX_SEARCH_SECOND_FF)
          ∧ statusResponses (feed cfg s [0xFF, 0xFF, id, L, instr]).2 = []
          ∧ dispatcherActions (feed cfg s [0xFF, 0xFF, id, L, instr]).2 = []
          ∧ busBytes (feed cfg s [0xFF, 0xFF, id, L, instr]).2
              ++ pending (feed cfg s [0xFF, 0xFF, id, L, instr]).1
            = [0xFF, 0xFF, id, L, instr]) := by
  obtain ⟨st, ck, rx, cnt, tm⟩ := s
  obtain ⟨a0, a1, a2, a3, a4, a5, t, hrx, -⟩ := rxbyte_cells rx _ hbuf
  simp only at hidle
  subst hidle hrx
  simp only [List.nodup_cons, List.mem_cons, List.mem_singleton, not_or, List.not_mem_nil,
    not_false_eq_true, List.nodup_nil, and_true] at hcodes
  obtain ⟨⟨hSP, hSR, hSB, hSRd, hSW⟩, ⟨hPR, hPB, hPRd, hPW⟩, ⟨hRB, hRRd, hRW⟩,
    ⟨hBRd, hBW⟩, hRdW⟩ := hcodes
  have hfeed : feed cfg ⟨AX_SEARCH_FIRST_FF, ck, a0 :: a1 :: a2 :: a3 :: a4 :: a5 :: t, cnt, tm⟩
      [0xFF, 0xFF, id, L, instr]
      = consume cfg ⟨AX_SEARCH_COMMAND, ck, 0xFF :: 0xFF :: id :: L :: a4 :: a5 :: t, 4, 0⟩
          instr := by
    have hsplit : [0xFF, 0xFF, id, L, instr] = [0xFF, 0xFF, id] ++ [L, instr] := rfl
    rw [hsplit, feed_append, feed_sync_id cfg ck cnt tm a0 a1 a2 id _ hid255]
    simp [feed, consume_length_ok cfg ck id a3 L _ hid hL hr]
  rw [hfeed, consume_command_cases cfg ck id L a4 instr _ hinstr]
  have hsmall : ∀ x, x < 256 → (id + x + L) % 65536 = id + x + L := by
    intro x hx; omega
  refine ⟨?_, ?_, ?_, ?_, ?_⟩
  · rintro (h | ⟨h1, h | h⟩)
    · subst h
      simp [hsmall _ hinstr]
    · subst h h1
      simp [(Ne.symm hSRd), (Ne.symm hPRd), (Ne.symm hRRd), (Ne.symm hBRd), hsmall _ hinstr]
    · subst h h1
      simp [(Ne.symm hSW), (Ne.symm hPW), (Ne.symm hRW), (Ne.symm hBW), (Ne.symm hRdW),
        hsmall _ hinstr]
  · rintro ⟨h1, h⟩
    subst h h1
    simp [(Ne.symm hSP)]
  · rintro ⟨h1, h⟩
    subst h h1
    simp [(Ne.symm hSR), (Ne.symm hPR)]
  · rintro ⟨h1, h⟩
    subst h h1
    simp [(Ne.symm hSB), (Ne.symm hPB), (Ne.symm hRB)]
  · rintro ⟨hS, hrest⟩
    have hrej : (if instr = cfg.AX_CMD_SYNC_READ then
          ((⟨AX_GET_PARAMETERS, (id + cfg.AX_CMD_SYNC_READ + L) % 65536,
            0xFF :: 0xFF :: id :: L :: instr :: a5 :: t, 5, 0⟩ : Parser), ([] : List Event))
        else if id = cfg.AX_ID_DEVICE then
          if instr = cfg.AX_CMD_PING then
            (⟨AX_SEARCH_PING, ck, 0xFF :: 0xFF :: id :: L :: instr :: a5 :: t, 5, 0⟩, [])
          else if instr = cfg.AX_CMD_RESET then
            (⟨AX_SEARCH_RESET, ck, 0xFF :: 0xFF :: id :: L :: instr :: a5 :: t, 5, 0⟩,
              [Event.LEDs_TurnOnLEDs])
          else if instr = cfg.AX_CMD_BOOTLOAD then
            (⟨AX_SEARCH_BOOTLOAD, ck, 0xFF :: 0xFF :: id :: L :: instr :: a5 :: t, 5, 0⟩, [])
          else if instr = cfg.AX_CMD_READ_DATA then
            (⟨AX_GET_PARAMETERS, (cfg.AX_ID_DEVICE + cfg.AX_CMD_READ_DATA + L) % 65536,
              0xFF :: 0xFF :: id :: L :: instr :: a5 :: t, 5, 0⟩, [])
          else if instr = cfg.AX_CMD_WRITE_DATA then
            (⟨AX_GET_PARAMETERS, (cfg.AX_ID_DEVICE + cfg.AX_CMD_WRITE_DATA + L) % 65536,
              0xFF :: 0xFF :: id :: L :: instr :: a5 :: t, 5, 0⟩, [])
          else
            cleanupInputParser
              ⟨AX_SEARCH_COMMAND, ck, 0xFF :: 0xFF :: id :: L :: instr :: a5 :: t, 5, 0⟩
        else
          cleanupInputParser
            ⟨AX_SEARCH_COMMAND, ck, 0xFF :: 0xFF :: id :: L :: instr :: a5 :: t, 5, 0⟩)
        = cleanupInputParser
            ⟨AX_SEARCH_COMMAND, ck, 0xFF :: 0xFF :: id :: L :: instr :: a5 :: t, 5, 0⟩ := by
      rw [if_neg hS]
      rcases hrest with h | ⟨h1, h2, h3, h4, h5⟩
      · rw [if_neg h]
      · simp [h1, h2, h3, h4, h5]
    rw [hrej]
    refine ⟨cleanup_ax_state _, statusResponses_of_isRelay _ (isRelay_cleanup _),
      dispatcherActions_of_isRelay _ (isRelay_cleanup _), ?_⟩
    have := cleanup_conserves
      ⟨AX_SEARCH_COMMAND, ck, 0xFF :: 0xFF :: id :: L :: instr :: a5 :: t, 5, 0⟩
      (by simp) (by simp) (by simp) rfl
    simpa using this

theorem instruction_selection_witness :
    (feed dynamixel (Parser.init dynamixel) [0xFF, 0xFF, 0xFD, 0x04, 0x02]).1.ax_state
        = AX_GET_PARAMETERS
      ∧ (feed dynamixel (Parser.init dynamixel) [0xFF, 0xFF, 0xFD, 0x04, 0x02]).1.ax_checksum
        = 0xFD + 0x02 + 0x04
      ∧ (feed dynamixel (Parser.init dynamixel) [0xFF, 0xFF, 0xFD, 0x04, 0x02]).2 = [] :=
  (instruction_selection dynamixel (Parser.init dynamixel) 0xFD 0x04 0x02 rfl rfl
    (Or.inl rfl) (by decide) (by decide) (by decide) (by decide) (by decide)).1
    (Or.inr ⟨rfl, Or.inl rfl⟩)

/-! ## Held frames, dispatcher arguments, the capture buffer and the soft reset -/

/-- Calls made for a part of the input are among the calls made for all of it:
when the whole makes none, every prefix makes none. -/
theorem feed_take_nil (cfg : Config) (s : Parser) (l : List Nat) (k : Nat)
    (h : (feed cfg s l).2 = []) : (feed cfg s (l.take k)).2 = [] := by
  have hl : l = l.take k ++ l.drop k := (List.take_append_drop k l).symm
  rw [hl, feed_append] at h
  exact (List.append_eq_nil.1 h).1

/-- Header and parameter bytes of a held frame cause no call at all. -/
theorem feed_held_silent (cfg : Config) (s : Parser) (id L instr : Nat) (params : List Nat)
    (hidle : s.ax_state = AX_SEARCH_FIRST_FF)
    (hbuf : s.rxbyte.length = cfg.AX_SYNC_READ_MAX_DEVICES + 8)
    (hmax : cfg.AX_SYNC_READ_MAX_DEVICES + 8 ≤ 256)
    (hid : id < 256) (hL : L < 256) (hinstr : instr < 256)
    (hparams : ∀ p ∈ params, p < 256)
    (hlen : params.length + 2 = L)
    (hreach : (feed cfg s [0xFF, 0xFF, id, L, instr]).1.ax_state = AX_GET_PARAMETERS) :
    (feed cfg s ([0xFF, 0xFF, id, L, instr] ++ params)).2 = [] := by
  obtain ⟨st, ck, rx, cnt, tm⟩ := s
  obtain ⟨a0, a1, a2, a3, a4, a5, t, hrx, ht⟩ := rxbyte_cells rx _ hbuf
  simp only at hidle
  subst hidle hrx
  obtain ⟨hr, hhead⟩ := reach_collect cfg ck cnt tm a0 a1 a2 a3 a4 id L instr (a5 :: t)
    hid hL hinstr hreach
  have hL4 : L + 4 < 256 := by omega
  have hcollect := feed_collect cfg id L hL4 params [instr] (a5 :: t) ((id + instr + L) % 65536)
    hparams (Nat.mod_lt _ (by decide)) (by simp only [List.length_cons]; omega)
    (by simp only [List.length_singleton]; omega)
  simp only [List.length_singleton, List.singleton_append] at hcollect
  rw [feed_append, hhead]
  simp only [hcollect, List.nil_append]

/-- The headers that are held: an aggregated read to the device or to everyone,
a single-register read or write to the device. -/
theorem reach_held (cfg : Config) (s : Parser) (id L instr : Nat)
    (hidle : s.ax_state = AX_SEARCH_FIRST_FF)
    (hbuf : s.rxbyte.length = cfg.AX_SYNC_READ_MAX_DEVICES + 8)
    (hid255 : id < 0xFF) (hL : L < 256)
    (hr : 1 < L ∧ L < cfg.AX_SYNC_READ_MAX_DEVICES + 4) (hinstr : instr < 256)
    (hcodes : [cfg.AX_CMD_SYNC_READ, cfg.AX_CMD_PING, cfg.AX_CMD_RESET, cfg.AX_CMD_BOOTLOAD,
      cfg.AX_CMD_READ_DATA, cfg.AX_CMD_WRITE_DATA].Nodup)
    (hkind : (instr = cfg.AX_CMD_SYNC_READ
          ∧ (id = cfg.AX_ID_DEVICE ∨ id = cfg.AX_ID_BROADCAST))
        ∨ (id = cfg.AX_ID_DEVICE
          ∧ (instr = cfg.AX_CMD_READ_DATA ∨ instr = cfg.AX_CMD_WRITE_DATA))) :
    (feed cfg s [0xFF, 0xFF, id, L, instr]).1.ax_state = AX_GET_PARAMETERS := by
  obtain ⟨st, ck, rx, cnt, tm⟩ := s
  obtain ⟨a0, a1, a2, a3, a4, a5, t, hrx, -⟩ := rxbyte_cells rx _ hbuf
  simp only at hidle
  subst hidle hrx
  simp only [List.nodup_cons, List.mem_cons, List.mem_singleton, not_or, List.not_mem_nil,
    not_false_eq_true, List.nodup_nil, and_true] at hcodes
  obtain ⟨⟨hSP, hSR, hSB, hSRd, hSW⟩, ⟨hPR, hPB, hPRd, hPW⟩, ⟨hRB, hRRd, hRW⟩,
    ⟨hBRd, hBW⟩, hRdW⟩ := hcodes
  have hid : id = cfg.AX_ID_DEVICE ∨ id = cfg.AX_ID_BROADCAST := by
    rcases hkind with ⟨-, h⟩ | ⟨h, -⟩
    · exact h
    · exact Or.inl h
  have hfeed : feed cfg ⟨AX_SEARCH_FIRST_FF, ck, a0 :: a1 :: a2 :: a3 :: a4 :: a5 :: t, cnt, tm⟩
      [0xFF, 0xFF, id, L, instr]
      = consume cfg ⟨AX_SEARCH_COMMAND, ck, 0xFF :: 0xFF :: id :: L :: a4 :: a5 :: t, 4, 0⟩
          instr := by
    have hsplit : [0xFF, 0xFF, id, L, instr] = [0xFF, 0xFF, id] ++ [L, instr] := rfl
    rw [hsplit, feed_append, feed_sync_id cfg ck cnt tm a0 a1 a2 id _ hid255]
    simp [feed, consume_length_ok cfg ck id a3 L _ hid hL hr]
  rw [hfeed, consume_command_cases cfg ck id L a4 instr _ hinstr]
  rcases hkind with ⟨h, -⟩ | ⟨h1, h | h⟩
  · subst h
    simp
  · subst h h1
    simp [(Ne.symm hSRd), (Ne.symm hPRd), (Ne.symm hRRd), (Ne.symm hBRd)]
  · subst h h1
    simp [(Ne.symm hSW), (Ne.symm hPW), (Ne.symm hRW), (Ne.symm hBW), (Ne.symm hRdW)]

/-- The accepted-frame branch makes exactly one call for each of the three held
instructions. -/
theorem dispatch_one_call (cfg : Config) (rx : List Nat) :
    (rx.getD 4 0 = cfg.AX_CMD_SYNC_READ →
        dispatch cfg rx = [Event.axStatusPacket cfg.AX_ERROR_RANGE none 0]
          ∨ dispatch cfg rx = [Event.sync_read (rx.drop 5) ((rx.getD 3 0 : Int) - 2)])
      ∧ (rx.getD 4 0 ≠ cfg.AX_CMD_SYNC_READ → rx.getD 4 0 = cfg.AX_CMD_READ_DATA →
        dispatch cfg rx = [Event.local_read (rx.getD 5 0) (rx.getD 6 0)])
      ∧ (rx.getD 4 0 ≠ cfg.AX_CMD_SYNC_READ → rx.getD 4 0 ≠ cfg.AX_CMD_READ_DATA →
          rx.getD 4 0 = cfg.AX_CMD_WRITE_DATA →
        dispatch cfg rx
          = [Event.local_write (rx.getD 5 0) (rx.drop 6) ((rx.getD 3 0 : Int) - 3)]) := by
  refine ⟨?_, ?_, ?_⟩
  · intro h
    unfold dispatch
    rw [if_pos h]
    simp only []
    split
    · exact Or.inl rfl
    · exact Or.inr rfl
  · intro h1 h2
    unfold dispatch
    rw [if_neg h1, if_pos h2]
  · intro h1 h2 h3
    unfold dispatch
    rw [if_neg h1, if_neg h2, if_pos h3]

/-- Claim C21 as stated fails: the single-register write
`[0xFF, 0xFF, 0xFE, 0x04, 0x03, 0x10, 0x20, 0xCA]` is addressed to the broadcast
id, has a length in range and a valid checksum.  Its first five bytes are on
the bus as soon as the instruction byte is consumed, before the last byte of
the frame arrives, and in the end the whole frame has been relayed and no
dispatcher call has been made. -/
theorem broadcast_write_is_not_held :
    (1 < 0x04 ∧ 0x04 < dynamixel.AX_SYNC_READ_MAX_DEVICES + 4)
      ∧ (0xFE + 0x04 + 0x03 + 0x10 + 0x20 + 0xCA) % 256 = 0xFF
      ∧ busBytes (feed dynamixel (Parser.init dynamixel)
          ([0xFF, 0xFF, dynamixel.AX_ID_BROADCAST, 0x04, dynamixel.AX_CMD_WRITE_DATA,
            0x10, 0x20, 0xCA].take 5)).2
        = [0xFF, 0xFF, 0xFE, 0x04, 0x03]
      ∧ busBytes (feed dynamixel (Parser.init dynamixel)
          [0xFF, 0xFF, dynamixel.AX_ID_BROADCAST, 0x04, dynamixel.AX_CMD_WRITE_DATA,
            0x10, 0x20, 0xCA]).2
        = [0xFF, 0xFF, 0xFE, 0x04, 0x03, 0x10, 0x20, 0xCA]
      ∧ dispatcherActions (feed dynamixel (Parser.init dynamixel)
          [0xFF, 0xFF, dynamixel.AX_ID_BROADCAST, 0x04, dynamixel.AX_CMD_WRITE_DATA,
            0x10, 0x20, 0xCA]).2 = [] := by
  decide

/-- Claim C21, amended.  Take a frame `[0xFF, 0xFF, id, L, instr, p_1 ..
p_(L-2), c]` with `L` in range that is an aggregated read addressed to the
device or to everyone, or a single-register read or write addressed to the
device.  Fed to an idle parser with no timeout in between, every proper prefix
of the frame, and so every byte from the second sync byte up to the byte before
the last, causes no call at all: nothing is written to the bus.  If the
checksum is valid, the last byte causes exactly one call and no bus write, and
the parser is idle: for an aggregated read the call is either
`axStatusPacket(AX_ERROR_RANGE, NULL, 0)` or `sync_read(&rxbyte[5], L - 2)`, for
a read it is `local_read(rxbyte[5], rxbyte[6])`, for a write it is
`local_write(rxbyte[5], &rxbyte[6], L - 3)`.  The six instruction codes are
pairwise distinct and the id is not 0xFF. -/
theorem held_frame_is_silent (cfg : Config) (s : Parser) (id L instr c : Nat)
    (params : List Nat)
    (hidle : s.ax_state = AX_SEARCH_FIRST_FF)
    (hbuf : s.rxbyte.length = cfg.AX_SYNC_READ_MAX_DEVICES + 8)
    (hmax : cfg.AX_SYNC_READ_MAX_DEVICES + 8 ≤ 256)
    (hid255 : id < 0xFF)
    (hr : 1 < L ∧ L < cfg.AX_SYNC_READ_MAX_DEVICES + 4) (hinstr : instr < 256)
    (hcodes : [cfg.AX_CMD_SYNC_READ, cfg.AX_CMD_PING, cfg.AX_CMD_RESET, cfg.AX_CMD_BOOTLOAD,
      cfg.AX_CMD_READ_DATA, cfg.AX_CMD_WRITE_DATA].Nodup)
    (hkind : (instr = cfg.AX_CMD_SYNC_READ
          ∧ (id = cfg.AX_ID_DEVICE ∨ id = cfg.AX_ID_BROADCAST))
        ∨ (id = cfg.AX_ID_DEVICE
          ∧ (instr = cfg.AX_CMD_READ_DATA ∨ instr = cfg.AX_CMD_WRITE_DATA)))
    (hparams : ∀ p ∈ params, p < 256) (hc : c < 256)
    (hlen : params.length + 2 = L) :
    (∀ k, k < L + 4 →
        (feed cfg s (([0xFF, 0xFF, id, L, instr] ++ params ++ [c]).take k)).2 = [])
      ∧ ((id + L + instr + params.sum + c) % 256 = 0xFF →
        busBytes (feed cfg s ([0xFF, 0xFF, id, L, instr] ++ params ++ [c])).2 = []
          ∧ (feed cfg s ([0xFF, 0xFF, id, L, instr] ++ params ++ [c])).1.ax_state
            = AX_SEARCH_FIRST_FF
          ∧ (instr = cfg.AX_CMD_SYNC_READ →
            (feed cfg s ([0xFF, 0xFF, id, L, instr] ++ params ++ [c])).2
                = [Event.axStatusPacket cfg.AX_ERROR_RANGE none 0]
              ∨ (feed cfg s ([0xFF, 0xFF, id, L, instr] ++ params ++ [c])).2
                = [Event.sync_read
                    ((held s ([0xFF, 0xFF, id, L, instr] ++ params ++ [c]) 0).rxbyte.drop 5)
                    ((L : Int) - 2)])
          ∧ (instr = cfg.AX_CMD_READ_DATA →
            (feed cfg s ([0xFF, 0xFF, id, L, instr] ++ params ++ [c])).2
              = [Event.local_read
                  ((held s ([0xFF, 0xFF, id, L, instr] ++ params ++ [c]) 0).rxbyte.getD 5 0)
                  ((held s ([0xFF, 0xFF, id, L, instr] ++ params ++ [c]) 0).rxbyte.getD 6 0)])
          ∧ (instr = cfg.AX_CMD_WRITE_DATA →
            (feed cfg s ([0xFF, 0xFF, id, L, instr] ++ params ++ [c])).2
              = [Event.local_write
                  ((held s ([0xFF, 0xFF, id, L, instr] ++ params ++ [c]) 0).rxbyte.getD 5 0)
                  ((held s ([0xFF, 0xFF, id, L, instr] ++ params ++ [c]) 0).rxbyte.drop 6)
                  ((L : Int) - 3)])) := by
  have hL : L < 256 := by omega
  have hreach := reach_held cfg s id L instr hidle hbuf hid255 hL hr hinstr hcodes hkind
  have hsilent := feed_held_silent cfg s id L instr params hidle hbuf hmax (by omega) hL hinstr
    hparams hlen hreach
  simp only [List.nodup_cons, List.mem_cons, List.mem_singleton, not_or, List.not_mem_nil,
    not_false_eq_true, List.nodup_nil, and_true] at hcodes
  obtain ⟨⟨hSP, hSR, hSB, hSRd, hSW⟩, ⟨hPR, hPB, hPRd, hPW⟩, ⟨hRB, hRRd, hRW⟩,
    ⟨hBRd, hBW⟩, hRdW⟩ := hcodes
  refine ⟨?_, ?_⟩
  · intro k hk
    have htake : ([0xFF, 0xFF, id, L, instr] ++ params ++ [c]).take k
        = ([0xFF, 0xFF, id, L, instr] ++ params).take k := by
      apply List.take_append_of_le_length
      simp only [List.length_append, List.length_cons, List.length_nil]
      omega
    rw [htake]
    exact feed_take_nil cfg s _ k hsilent
  · intro hsum
    have hout := frame_outcome cfg s id L instr c params hidle hbuf hmax (by omega) hL hinstr
      hparams hc hlen hreach
    rw [if_pos hsum] at hout
    have hrx : ∀ k, (held s ([0xFF, 0xFF, id, L, instr] ++ params ++ [c]) k).rxbyte
        = (held s ([0xFF, 0xFF, id, L, instr] ++ params ++ [c]) 0).rxbyte :=
      fun _ => rfl
    rw [hrx] at hout
    generalize hH : (held s ([0xFF, 0xFF, id, L, instr] ++ params ++ [c]) 0).rxbyte = rx at *
    have h3 : rx.getD 3 0 = L := by rw [← hH]; simp [held]
    have h4 : rx.getD 4 0 = instr := by rw [← hH]; simp [held]
    have hone := dispatch_one_call cfg rx
    rw [h3, h4] at hone
    rw [hout]
    refine ⟨busBytes_dispatch _ _, rfl, ?_, ?_, ?_⟩
    · intro h
      exact hone.1 h
    · intro h
      exact hone.2.1 (by rw [h]; exact Ne.symm hSRd) h
    · intro h
      exact hone.2.2 (by rw [h]; exact Ne.symm hSW) (by rw [h]; exact Ne.symm hRdW) h

theorem held_frame_is_silent_witness :
    (∀ k, k < 4 + 4 →
        (feed dynamixel (Parser.init dynamixel)
          (([0xFF, 0xFF, 0xFD, 4, 0x03] ++ [0x10, 0x20] ++ [0xCB]).take k)).2 = [])
      ∧ (feed dynamixel (Parser.init dynamixel)
          ([0xFF, 0xFF, 0xFD, 4, 0x03] ++ [0x10, 0x20] ++ [0xCB])).2
        = [Event.local_write
            ((held (Parser.init dynamixel)
              ([0xFF, 0xFF, 0xFD, 4, 0x03] ++ [0x10, 0x20] ++ [0xCB]) 0).rxbyte.getD 5 0)
            ((held (Parser.init dynamixel)
              ([0xFF, 0xFF, 0xFD, 4, 0x03] ++ [0x10, 0x20] ++ [0xCB]) 0).rxbyte.drop 6)
            ((4 : Int) - 3)] :=
  ⟨(held_frame_is_silent dynamixel (Parser.init dynamixel) 0xFD 4 0x03 0xCB [0x10, 0x20]
      rfl rfl (by decide) (by decide) (by decide) (by decide) (by decide)
      (Or.inr ⟨rfl, Or.inr rfl⟩) (by decide) (by decide) rfl).1,
    ((held_frame_is_silent dynamixel (Parser.init dynamixel) 0xFD 4 0x03 0xCB [0x10, 0x20]
      rfl rfl (by decide) (by decide) (by decide) (by decide) (by decide)
      (Or.inr ⟨rfl, Or.inr rfl⟩) (by decide) (by decide) rfl).2 (by decide)).2.2.2.2 rfl⟩

/-- Claim C22 (dispatcher arguments are the frame's own parameters), evaluated
where it fails.  The length test of `AX_SEARCH_LENGTH` admits every `L > 1`, so
frames with no parameter byte reach the dispatch branch.  After the write frame
`[0xFF, 0xFF, 0xFD, 0x04, 0x03, 0x10, 0x77, 0x74]` has left 0x77 in `rxbyte[6]`,
the checksum-valid read frame `[0xFF, 0xFF, 0xFD, 0x02, 0x02, 0xFE]` with
`L = 2` calls `local_read(0xFE, 0x77)`: the address is the frame's checksum
byte and the length a byte of the earlier frame.  The checksum-valid write
frame `[0xFF, 0xFF, 0xFD, 0x02, 0x03, 0xFD]` with `L = 2` calls `local_write`
with its checksum byte as address and the count `L - 3 = -1`. -/
theorem short_frame_dispatches_foreign_bytes :
    (1 < 0x02 ∧ 0x02 < dynamixel.AX_SYNC_READ_MAX_DEVICES + 4)
      ∧ (0xFD + 0x02 + 0x02 + 0xFE) % 256 = 0xFF
      ∧ (feed dynamixel (Parser.init dynamixel)
          [0xFF, 0xFF, 0xFD, 0x04, 0x03, 0x10, 0x77, 0x74]).1.ax_state = AX_SEARCH_FIRST_FF
      ∧ (feed dynamixel
          (feed dynamixel (Parser.init dynamixel)
            [0xFF, 0xFF, 0xFD, 0x04, 0x03, 0x10, 0x77, 0x74]).1
          [0xFF, 0xFF, 0xFD, 0x02, 0x02, 0xFE]).2
        = [Event.local_read 0xFE 0x77]
      ∧ (0xFD + 0x02 + 0x03 + 0xFD) % 256 = 0xFF
      ∧ (feed dynamixel (Parser.init dynamixel) [0xFF, 0xFF, 0xFD, 0x02, 0x03, 0xFD]).2
        = [Event.local_write 0xFD (List.replicate 34 0) (-1)] := by
  decide

theorem ticks_capture (n : Nat) (f : Firmware) :
    (Firmware.TIMER0_COMPA_vect^[n] f).passthrough_mode = f.passthrough_mode
      ∧ (Firmware.TIMER0_COMPA_vect^[n] f).local_rx_buffer = f.local_rx_buffer
      ∧ (Firmware.TIMER0_COMPA_vect^[n] f).local_rx_buffer_count = f.local_rx_buffer_count := by
  induction n generalizing f with
  | zero => exact ⟨rfl, rfl, rfl⟩
  | succ n ih =>
    rw [Function.iterate_succ_apply]
    obtain ⟨h1, h2, h3⟩ := ih (Firmware.TIMER0_COMPA_vect f)
    exact ⟨h1, h2, h3⟩

/-- One byte handled in capture mode. -/
theorem capture_step (cfg : Config) (pt : Bool) (b : Nat) (f : Firmware)
    (hmode : f.passthrough_mode ≠ pt)
    (hlen : f.local_rx_buffer.length = cfg.AX_BUFFER_SIZE)
    (hcount : f.local_rx_buffer_count ≤ cfg.AX_BUFFER_SIZE) :
    (USART1_RX_vect cfg pt b f).passthrough_mode = f.passthrough_mode
      ∧ (USART1_RX_vect cfg pt b f).local_rx_buffer.length = cfg.AX_BUFFER_SIZE
      ∧ (USART1_RX_vect cfg pt b f).local_rx_buffer_count ≤ cfg.AX_BUFFER_SIZE
      ∧ (USART1_RX_vect cfg pt b f).usart_timer = 0
      ∧ (f.local_rx_buffer_count = cfg.AX_BUFFER_SIZE →
          (USART1_RX_vect cfg pt b f).local_rx_buffer = f.local_rx_buffer
            ∧ (USART1_RX_vect cfg pt b f).local_rx_buffer_count = f.local_rx_buffer_count) := by
  by_cases hroom : f.local_rx_buffer_count < cfg.AX_BUFFER_SIZE
  · have hle : (f.local_rx_buffer_count + 1) % 256 ≤ cfg.AX_BUFFER_SIZE :=
      le_trans (Nat.mod_le _ _) hroom
    have hstep : USART1_RX_vect cfg pt b f
        = { f with local_rx_buffer := f.local_rx_buffer.set f.local_rx_buffer_count (b % 256),
                   local_rx_buffer_count := (f.local_rx_buffer_count + 1) % 256,
                   usart_timer := 0 } := by
      simp [USART1_RX_vect, hmode, hroom]
    rw [hstep]
    exact ⟨rfl, by simp [hlen], hle, rfl, fun h => absurd h (by omega)⟩
  · have hstep : USART1_RX_vect cfg pt b f = { f with usart_timer := 0 } := by
      simp [USART1_RX_vect, hmode, hroom]
    rw [hstep]
    exact ⟨rfl, hlen, hcount, rfl, fun _ => ⟨rfl, rfl⟩⟩

/-- Claim C23 (the capture buffer stays bounded).  Start in capture mode with
`local_rx_buffer` of its declared size `AX_BUFFER_SIZE` and a count not above
it, and let `ISR(USART1_RX_vect)` handle any sequence of bus bytes, with any
number of timer interrupts between them.  Afterwards the mode is unchanged, the
count is still at most `AX_BUFFER_SIZE`, the buffer has its size, and the next
store, if there is one, is at an index below `AX_BUFFER_SIZE`.  If the count
was equal to `AX_BUFFER_SIZE` at the start, buffer and count are exactly what
they were: all the bytes were discarded.  After each handled byte, discarded or
not, `usart_timer` is 0. -/
theorem capture_buffer_bounded (cfg : Config) (AX_PASSTHROUGH : Bool) (f : Firmware)
    (received : List (Nat × Nat))
    (hmode : f.passthrough_mode ≠ AX_PASSTHROUGH)
    (hlen : f.local_rx_buffer.length = cfg.AX_BUFFER_SIZE)
    (hcount : f.local_rx_buffer_count ≤ cfg.AX_BUFFER_SIZE) :
    (bus_receive cfg AX_PASSTHROUGH f received).passthrough_mode = f.passthrough_mode
      ∧ (bus_receive cfg AX_PASSTHROUGH f received).local_rx_buffer_count ≤ cfg.AX_BUFFER_SIZE
      ∧ (bus_receive cfg AX_PASSTHROUGH f received).local_rx_buffer.length = cfg.AX_BUFFER_SIZE
      ∧ (∀ i, captureIndex cfg AX_PASSTHROUGH (bus_receive cfg AX_PASSTHROUGH f received)
            = some i →
          i < cfg.AX_BUFFER_SIZE
            ∧ i < (bus_receive cfg AX_PASSTHROUGH f received).local_rx_buffer.length)
      ∧ (f.local_rx_buffer_count = cfg.AX_BUFFER_SIZE →
          (bus_receive cfg AX_PASSTHROUGH f received).local_rx_buffer = f.local_rx_buffer
            ∧ (bus_receive cfg AX_PASSTHROUGH f received).local_rx_buffer_count
              = f.local_rx_buffer_count)
      ∧ (received ≠ [] → (bus_receive cfg AX_PASSTHROUGH f received).usart_timer = 0) := by
  have hidx : ∀ g : Firmware, g.local_rx_buffer.length = cfg.AX_BUFFER_SIZE →
      ∀ i, captureIndex cfg AX_PASSTHROUGH g = some i →
        i < cfg.AX_BUFFER_SIZE ∧ i < g.local_rx_buffer.length := by
    intro g hg i hi
    unfold captureIndex at hi
    split at hi
    · simp at hi
    · split at hi
      · simp only [Option.some.injEq] at hi
        omega
      · simp at hi
  induction received generalizing f with
  | nil =>
    exact ⟨rfl, hcount, hlen, hidx f hlen, fun _ => ⟨rfl, rfl⟩, fun h => absurd rfl h⟩
  | cons p rest ih =>
    obtain ⟨ticks, b⟩ := p
    obtain ⟨t1, t2, t3⟩ := ticks_capture ticks f
    obtain ⟨s1, s2, s3, s4, s5⟩ := capture_step cfg AX_PASSTHROUGH b
      (Firmware.TIMER0_COMPA_vect^[ticks] f) (by rw [t1]; exact hmode) (by rw [t2]; exact hlen)
      (by rw [t3]; exact hcount)
    rw [t1] at s1
    rw [t2, t3] at s5
    obtain ⟨i1, i2, i3, i4, i5, i6⟩ := ih
      (USART1_RX_vect cfg AX_PASSTHROUGH b (Firmware.TIMER0_COMPA_vect^[ticks] f))
      (by rw [s1]; exact hmode) s2 s3
    simp only [bus_receive]
    refine ⟨i1.trans s1, i2, i3, i4, ?_, ?_⟩
    · intro hfull
      obtain ⟨e1, e2⟩ := s5 hfull
      obtain ⟨e3, e4⟩ := i5 (by rw [e2]; exact hfull)
      exact ⟨e3.trans e1, e4.trans e2⟩
    · intro _
      by_cases hrest : rest = []
      · subst hrest
        simp only [bus_receive]
        exact s4
      · exact i6 hrest

theorem capture_buffer_bounded_witness :
    (bus_receive dynamixel true
        ⟨Parser.init dynamixel, ⟨[], 3, false⟩, false, List.replicate 32 0, 31, 9⟩
        [(2, 0x11), (0, 0x22), (5, 0x33)]).local_rx_buffer_count ≤ 32
      ∧ (bus_receive dynamixel true
        ⟨Parser.init dynamixel, ⟨[], 3, false⟩, false, List.replicate 32 0, 31, 9⟩
        [(2, 0x11), (0, 0x22), (5, 0x33)]).usart_timer = 0 :=
  ⟨(capture_buffer_bounded dynamixel true
      ⟨Parser.init dynamixel, ⟨[], 3, false⟩, false, List.replicate 32 0, 31, 9⟩
      [(2, 0x11), (0, 0x22), (5, 0x33)] (by decide) (by decide) (by decide)).2.1,
    (capture_buffer_bounded dynamixel true
      ⟨Parser.init dynamixel, ⟨[], 3, false⟩, false, List.replicate 32 0, 31, 9⟩
      [(2, 0x11), (0, 0x22), (5, 0x33)] (by decide) (by decide) (by decide)).2.2.2.2.2
      (by decide)⟩

/-- Claim C24 (bootloader entry by 1200-baud open and close), evaluated where
it fails.  The host asserts DTR, sets 1200 baud, then sets 1000000 baud and
de-asserts DTR.  Up to the last request no call is made and `needs_bootload`
is still `true`, because `EVENT_CDC_Device_LineEncodingChanged` sets the flag
at 1200 baud and no line of the program clears it; the falling DTR edge then
calls `Jump_To_Reset(true)` although the baud rate most recently set is
1000000.  The same four requests without the 1200-baud one make no call. -/
theorem stale_bootload_flag_restarts :
    (cdc_events Bootload.init
        [CdcEvent.ControLineStateChanged true, CdcEvent.LineEncodingChanged 1200,
          CdcEvent.LineEncodingChanged 1000000]).2 = []
      ∧ (cdc_events Bootload.init
        [CdcEvent.ControLineStateChanged true, CdcEvent.LineEncodingChanged 1200,
          CdcEvent.LineEncodingChanged 1000000]).1.needs_bootload = true
      ∧ (cdc_events Bootload.init
        [CdcEvent.ControLineStateChanged true, CdcEvent.LineEncodingChanged 1200,
          CdcEvent.LineEncodingChanged 1000000, CdcEvent.ControLineStateChanged false]).2
        = [Event.Jump_To_Reset true]
      ∧ (cdc_events Bootload.init
        [CdcEvent.ControLineStateChanged true, CdcEvent.LineEncodingChanged 1000000,
          CdcEvent.ControLineStateChanged false]).2 = [] := by
  decide

end USB2AX
